import Mathlib

/-!
# Blocked matrix multiplication and its row-partitioned parallel drivers

A shallow embedding of the matrix benchmarks of `reto2hpc-main`
(`multiplicacion_matrices.c`, `multiplicación_hilos.c`,
`multiplicacion_procesos.c`, `multiplicacion_openmp.c`).

Modelling conventions.

* An `int **` matrix is a total map from (row, column) to its content; a flat
  `int *` buffer is a total map from the offset to its content.  The three
  matrices of a run are separate allocations, so `A`, `B` and `C` do not alias.
* Values of type `int` are integers, and every `+` and `*` on them is followed
  by `wrap32`, the reduction to the signed 32-bit range.
* Loop counters and sizes are natural numbers.
* The flat offset `i * n + j` of the process kernels is an `int` expression in
  the source, and it overflows from `n = 46341` on.  The process kernels with
  the suffix `_v` (section on checked indices) compute it in the `int` range,
  on allocations of a known size, and fail where it overflows: the properties
  of the process kernels are stated of them, under `n * n ≤ 2^31 - 1`.  The
  process kernels without the suffix take the offset exactly; they give the
  content that the `_v` kernels give when `n * n ≤ 2^31 - 1`
  (`proceso_optimizada_v_eq`, `proceso_original_v_eq`), and they are used in
  the proofs, in the worked example for `n = 2`, and in the exit codes of
  `main`, which do not depend on the result.
* A unit-step `for` loop is `forLoop`.  A `for` loop that advances by
  `BLOCK_SIZE` is `forStep`, which runs on a fuel of `n` iterations and yields
  `none` when the fuel is used up before the loop condition fails; this
  happens exactly when the step is `0`, where the C loop does not terminate.
* Output (`printf`), locking and timing have no effect on the matrices and are
  left out.
* What the programs get from the C library and from the system (`rand`,
  `rand_r`, `time`, `malloc`, `mmap`, `fork`, the thread that OpenMP gives to
  an iteration) is a parameter of the function that uses it.
* Workers (threads, child processes, OpenMP units of work) are run one after
  the other; the order is the creation order, or a parameter where the claim is
  about the order.
-/

namespace Reto

/-! ## Machine integers -/

/-- Reduction of an integer to the signed 32-bit range `[-2^31, 2^31)`. -/
def wrap32 (x : Int) : Int := (x + 2147483648) % 4294967296 - 2147483648

/-- The C expression `a + b` on `int`. -/
def add32 (a b : Int) : Int := wrap32 (a + b)

/-- The C expression `a * b` on `int`. -/
def mul32 (a b : Int) : Int := wrap32 (a * b)

/-! ## Memory -/

/-- An `int **` matrix: content of row `i`, column `j`. -/
abbrev Matrix := Nat → Nat → Int

/-- A flat `int *` buffer: content at an offset. -/
abbrev Buffer := Nat → Int

/-- The assignment `C[i][j] = v`. -/
def Matrix.set (C : Matrix) (i j : Nat) (v : Int) : Matrix :=
  fun i' j' => if i' = i ∧ j' = j then v else C i' j'

/-- The assignment `C[p] = v` on a flat buffer. -/
def Buffer.set (C : Buffer) (p : Nat) (v : Int) : Buffer :=
  fun p' => if p' = p then v else C p'

/-- The call `memset(C[i], 0, n * sizeof(int))`: the first `n` cells of row `i`
become `0`. -/
def memsetRow (C : Matrix) (i n : Nat) : Matrix :=
  fun i' j' => if i' = i ∧ j' < n then 0 else C i' j'

/-! ## Loops -/

/-- Runs `body i` for `i = lo, lo+1, ...`, `cnt` times. -/
def forLoopAux {σ : Type} (body : Nat → σ → σ) : Nat → Nat → σ → σ
  | 0, _, s => s
  | cnt + 1, i, s => forLoopAux body cnt (i + 1) (body i s)

/-- The loop `for (int i = lo; i < hi; i++) body`. -/
def forLoop {σ : Type} (lo hi : Nat) (body : Nat → σ → σ) (s : σ) : σ :=
  forLoopAux body (hi - lo) lo s

/-- The loop `for (; i < hi; i += step) body`, on a bounded number of
iterations: `none` when the bound is reached with `i < hi` still true. -/
def forStepAux {σ : Type} (hi step : Nat) (body : Nat → σ → Option σ) :
    Nat → Nat → σ → Option σ
  | 0, i, s => if i < hi then none else some s
  | fuel + 1, i, s =>
    if i < hi then (body i s).bind (forStepAux hi step body fuel (i + step)) else some s

/-- The loop `for (int i = 0; i < hi; i += step) body`.  With `step ≥ 1` it
makes at most `hi` iterations, which is the fuel given. -/
def forStep {σ : Type} (hi step : Nat) (body : Nat → σ → Option σ) (s : σ) : Option σ :=
  forStepAux hi step body hi 0 s

/-! ## `multiplicacion_matrices.c` -/

/-- The C expression `a % b` on `int`: the remainder of the division that
truncates toward zero. -/
def mod_c (a b : Int) : Int := Int.tmod a b

/-- The function `generar_matriz_aleatoria`.  The library function `rand` has
a hidden state: `rand k` is what its call number `k` returns, and the number
of calls made so far is carried along with the matrix. -/
def generar_matriz_aleatoria (rand : Nat → Int) (matriz : Matrix) (n : Nat)
    (llamadas : Nat) : Matrix × Nat :=
  forLoop 0 n (fun i st =>
    forLoop 0 n (fun j (st : Matrix × Nat) =>
      (st.1.set i j (mod_c (rand st.2) 100), st.2 + 1)) st) (matriz, llamadas)

/-- The inner statement `sum += A[i][k] * B[k][j]` repeated for `k` in
`[kk, k_end)`. -/
def acumular (A B : Matrix) (i j kk k_end : Nat) (sum : Int) : Int :=
  forLoop kk k_end (fun k sum => add32 sum (mul32 (A i k) (B k j))) sum

/-- The function `multiplicar_matrices_optimizada`, with its constant
`BLOCK_SIZE` as a parameter. -/
def multiplicar_matrices_optimizada_bs (BLOCK_SIZE : Nat) (A B C : Matrix) (n : Nat) :
    Option Matrix :=
  let C := forLoop 0 n (fun i C => memsetRow C i n) C
  forStep n BLOCK_SIZE (fun ii C =>
    forStep n BLOCK_SIZE (fun jj C =>
      forStep n BLOCK_SIZE (fun kk C =>
        let i_end := if ii + BLOCK_SIZE < n then ii + BLOCK_SIZE else n
        let j_end := if jj + BLOCK_SIZE < n then jj + BLOCK_SIZE else n
        let k_end := if kk + BLOCK_SIZE < n then kk + BLOCK_SIZE else n
        some (forLoop ii i_end (fun i C =>
          forLoop jj j_end (fun j C =>
            let sum := C i j
            let sum := acumular A B i j kk k_end sum
            C.set i j sum) C) C)) C) C) C

/-- The function `multiplicar_matrices_optimizada` (`BLOCK_SIZE = 64`). -/
def multiplicar_matrices_optimizada (A B C : Matrix) (n : Nat) : Option Matrix :=
  multiplicar_matrices_optimizada_bs 64 A B C n

/-- The function `multiplicar_matrices_original`. -/
def multiplicar_matrices_original (A B C : Matrix) (n : Nat) : Matrix :=
  forLoop 0 n (fun i C =>
    forLoop 0 n (fun j C =>
      let C := C.set i j 0
      forLoop 0 n (fun k C =>
        C.set i j (add32 (C i j) (mul32 (A i k) (B k j)))) C) C) C

/-! ## `multiplicación_hilos.c` -/

/-- The struct `DatosMultiplicacion`.  Its field `C` is a pointer to the result
matrix shared by all threads; the content of that matrix is the state that the
thread functions take and return, so it is not a field here. -/
structure DatosMultiplicacion where
  A : Matrix
  B : Matrix
  n : Nat
  fila_inicio : Nat
  fila_fin : Nat
  hilo_id : Nat

/-- The struct `DatosMatriz`.  Its field `matriz` is a pointer to the matrix to
fill; the content of that matrix is the state that the thread function takes
and returns. -/
structure DatosMatriz where
  n : Nat
  hilo_id : Nat
  nombre : Char

/-- The function `generar_matriz_aleatoria_hilo`.  The library function
`rand_r` maps the seed to the updated seed and the value returned; `time` is
what `time(NULL)` returns; the conversion to `unsigned int` reduces the seed
modulo `2^32`. -/
def generar_matriz_aleatoria_hilo (rand_r : Nat → Nat × Int) (time : Int)
    (datos : DatosMatriz) (matriz : Matrix) : Matrix :=
  let semilla := ((time + (datos.hilo_id : Int) * 1000) % 4294967296).toNat
  (forLoop 0 datos.n (fun i st =>
    forLoop 0 datos.n (fun j (st : Matrix × Nat) =>
      let r := rand_r st.2
      (st.1.set i j (mod_c r.2 100), r.1)) st) (matriz, semilla)).1

/-- The function `multiplicar_matrices_hilo_optimizada`, with its constant
`BLOCK_SIZE` as a parameter. -/
def multiplicar_matrices_hilo_optimizada_bs (BLOCK_SIZE : Nat) (datos : DatosMultiplicacion)
    (C : Matrix) : Option Matrix :=
  let C := forLoop datos.fila_inicio datos.fila_fin (fun i C => memsetRow C i datos.n) C
  forStep datos.n BLOCK_SIZE (fun kk C =>
    let k_end := if kk + BLOCK_SIZE < datos.n then kk + BLOCK_SIZE else datos.n
    forStep datos.n BLOCK_SIZE (fun jj C =>
      let j_end := if jj + BLOCK_SIZE < datos.n then jj + BLOCK_SIZE else datos.n
      some (forLoop datos.fila_inicio datos.fila_fin (fun i C =>
        forLoop jj j_end (fun j C =>
          let sum := C i j
          let sum := acumular datos.A datos.B i j kk k_end sum
          C.set i j sum) C) C)) C) C

/-- The function `multiplicar_matrices_hilo_optimizada` (`BLOCK_SIZE = 32`). -/
def multiplicar_matrices_hilo_optimizada (datos : DatosMultiplicacion) (C : Matrix) :
    Option Matrix :=
  multiplicar_matrices_hilo_optimizada_bs 32 datos C

/-- The function `multiplicar_matrices_hilo_original`. -/
def multiplicar_matrices_hilo_original (datos : DatosMultiplicacion) (C : Matrix) : Matrix :=
  forLoop datos.fila_inicio datos.fila_fin (fun i C =>
    forLoop 0 datos.n (fun j C =>
      let C := C.set i j 0
      forLoop 0 datos.n (fun k C =>
        C.set i j (add32 (C i j) (mul32 (datos.A i k) (datos.B k j)))) C) C) C

/-- The loop of `main` that fills `datos_mult`: the state is the running
`fila_inicio` and the entries written so far.  (`main` reaches it with
`num_hilos_mult ≥ 1` only.) -/
def main_hilos_datos_mult (matriz_A matriz_B : Matrix) (n num_hilos_mult : Nat) :
    List DatosMultiplicacion :=
  let filas_por_hilo := n / num_hilos_mult
  let filas_restantes := n % num_hilos_mult
  (forLoop 0 num_hilos_mult (fun i (st : Nat × List DatosMultiplicacion) =>
    let fila_inicio := st.1
    let fila_fin := fila_inicio + filas_por_hilo
    let fila_fin := if i < filas_restantes then fila_fin + 1 else fila_fin
    (fila_fin, st.2 ++ [{ A := matriz_A, B := matriz_B, n := n, hilo_id := i,
                          fila_inicio := fila_inicio, fila_fin := fila_fin }]))
    (0, [])).2

/-- The two loops of `main` that create and join one thread per entry of
`datos_mult`, all on the same result matrix.  The threads are run one after
the other, in creation order. -/
def main_hilos_lanzar (hilo : DatosMultiplicacion → Matrix → Option Matrix)
    (datos_mult : List DatosMultiplicacion) (matriz_C : Matrix) : Option Matrix :=
  datos_mult.foldlM (fun C datos => hilo datos C) matriz_C

/-- The argument check of `main` and the adjustment of `num_hilos_mult` that
follows it: the exit code `1`, or the thread count that `main` goes on with. -/
def main_hilos_num_hilos (argc : Nat) (n num_hilos_mult : Int) : Except Int Int :=
  if argc ≠ 3 then Except.error 1
  else if n ≤ 0 ∨ num_hilos_mult ≤ 0 then Except.error 1
  else
    let num_hilos_mult := if num_hilos_mult > n then n else num_hilos_mult
    Except.ok num_hilos_mult

/-! ## `multiplicacion_procesos.c` -/

/-- The function `multiplicar_matrices_proceso_optimizada`, with its constant
`BLOCK_SIZE` as a parameter and with the offset `i * n + j` taken exactly: it
is what the C function computes as long as the offset is in the `int` range
(`n * n ≤ 2^31 - 1`); `multiplicar_matrices_proceso_optimizada_v` computes the
offset in `int`. -/
def multiplicar_matrices_proceso_optimizada_bs (BLOCK_SIZE : Nat) (A B : Matrix) (C : Buffer)
    (n fila_inicio fila_fin : Nat) (_proc_id : Nat) : Option Buffer :=
  let C := forLoop fila_inicio fila_fin (fun i C =>
    forLoop 0 n (fun j C => C.set (i * n + j) 0) C) C
  forStep n BLOCK_SIZE (fun kk C =>
    let k_end := if kk + BLOCK_SIZE < n then kk + BLOCK_SIZE else n
    forStep n BLOCK_SIZE (fun jj C =>
      let j_end := if jj + BLOCK_SIZE < n then jj + BLOCK_SIZE else n
      some (forLoop fila_inicio fila_fin (fun i C =>
        forLoop jj j_end (fun j C =>
          let sum := C (i * n + j)
          let sum := acumular A B i j kk k_end sum
          C.set (i * n + j) sum) C) C)) C) C

/-- The function `multiplicar_matrices_proceso_optimizada` (`BLOCK_SIZE = 32`). -/
def multiplicar_matrices_proceso_optimizada (A B : Matrix) (C : Buffer)
    (n fila_inicio fila_fin proc_id : Nat) : Option Buffer :=
  multiplicar_matrices_proceso_optimizada_bs 32 A B C n fila_inicio fila_fin proc_id

/-- The function `multiplicar_matrices_proceso_original`, with the offset
`i * n + j` taken exactly: it is what the C function computes as long as the
offset is in the `int` range (`n * n ≤ 2^31 - 1`);
`multiplicar_matrices_proceso_original_v` computes the offset in `int`. -/
def multiplicar_matrices_proceso_original (A B : Matrix) (C : Buffer)
    (n fila_inicio fila_fin : Nat) (_proc_id : Nat) : Buffer :=
  forLoop fila_inicio fila_fin (fun i C =>
    forLoop 0 n (fun j C =>
      let C := C.set (i * n + j) 0
      forLoop 0 n (fun k C =>
        C.set (i * n + j) (add32 (C (i * n + j)) (mul32 (A i k) (B k j)))) C) C) C

/-- The loop of `main` that fills `matriz_A` and `matriz_B`, with two calls of
`rand` per cell; the state is the two matrices and the number of calls of
`rand` made so far. -/
def main_procesos_generar (rand : Nat → Int) (matriz_A matriz_B : Matrix) (n : Nat)
    (llamadas : Nat) : Matrix × Matrix × Nat :=
  forLoop 0 n (fun i st =>
    forLoop 0 n (fun j (st : Matrix × Matrix × Nat) =>
      let st : Matrix × Matrix × Nat :=
        (st.1.set i j (mod_c (rand st.2.2) 100), st.2.1, st.2.2 + 1)
      (st.1, st.2.1.set i j (mod_c (rand st.2.2) 100), st.2.2 + 1)) st)
    (matriz_A, matriz_B, llamadas)

/-- The fork loop of `main`, followed by the wait loop: the state is the
running `fila_inicio` and the state `s` that the children act on; `hijo` is
what the child forked at index `i` does with its `fila_inicio` and `fila_fin`.
The children are run one after the other, in fork order.  (`main` reaches the
loop with `num_procesos ≥ 1` only.) -/
def main_procesos_bucle {σ : Type} (hijo : Nat → Nat → Nat → σ → σ)
    (n num_procesos : Nat) (s : σ) : σ :=
  let filas_por_proceso := n / num_procesos
  let filas_restantes := n % num_procesos
  (forLoop 0 num_procesos (fun i (st : Nat × σ) =>
    let fila_inicio := st.1
    let fila_fin := fila_inicio + filas_por_proceso
    let fila_fin := if i < filas_restantes then fila_fin + 1 else fila_fin
    (fila_fin, hijo fila_inicio fila_fin i st.2))
    (0, s)).2

/-- The row ranges `(fila_inicio, fila_fin)` that the fork loop of `main` hands
to its children, in fork order. -/
def main_procesos_rangos (n num_procesos : Nat) : List (Nat × Nat) :=
  main_procesos_bucle (fun fila_inicio fila_fin _ l => l ++ [(fila_inicio, fila_fin)])
    n num_procesos []

/-- The phase of `main` that multiplies with the original kernel. -/
def main_procesos_original (matriz_A matriz_B : Matrix) (matriz_C : Buffer)
    (n num_procesos : Nat) : Buffer :=
  main_procesos_bucle (fun fila_inicio fila_fin i C =>
    multiplicar_matrices_proceso_original matriz_A matriz_B C n fila_inicio fila_fin i)
    n num_procesos matriz_C

/-- The phase of `main` that multiplies with the blocked kernel. -/
def main_procesos_optimizada (matriz_A matriz_B : Matrix) (matriz_C : Buffer)
    (n num_procesos : Nat) : Option Buffer :=
  main_procesos_bucle (fun fila_inicio fila_fin i (C : Option Buffer) =>
    C.bind (fun C =>
      multiplicar_matrices_proceso_optimizada matriz_A matriz_B C n fila_inicio fila_fin i))
    n num_procesos (some matriz_C)

/-- The argument check of `main` and the adjustment of `num_procesos` that
follows it: the exit code `1`, or the process count that `main` goes on with. -/
def main_procesos_num_procesos (argc : Nat) (n num_procesos : Int) : Except Int Int :=
  if argc ≠ 3 then Except.error 1
  else if n ≤ 0 ∨ num_procesos ≤ 0 then Except.error 1
  else
    let num_procesos := if num_procesos > n then n else num_procesos
    Except.ok num_procesos

/-! ## `multiplicacion_openmp.c` -/

/-- The argument check of `main` and what follows `num_hilos` to its two uses:
the exit code `1`, or the pair of the argument of `omp_set_num_threads` and the
divisor in `eficiencia = speedup / num_hilos`. -/
def main_openmp_num_hilos (argc : Nat) (n num_hilos : Int) : Except Int (Int × Int) :=
  if argc ≠ 3 then Except.error 1
  else if n ≤ 0 ∨ num_hilos ≤ 0 then Except.error 1
  else Except.ok (num_hilos, num_hilos)

/-- The function `generar_matriz_aleatoria_paralela`.  The library function
`rand_r` maps a seed to the updated seed and the value returned;
`omp_get_thread_num i j` is the number of the thread that runs the iteration
`(i, j)` of the collapsed loop, and `time i j` is what `time(NULL)` returns in
that iteration.  The iterations are run one after the other. -/
def generar_matriz_aleatoria_paralela (rand_r : Nat → Nat × Int)
    (omp_get_thread_num : Nat → Nat → Nat) (time : Nat → Nat → Int)
    (matriz : Matrix) (n : Nat) : Matrix :=
  forLoop 0 n (fun i matriz =>
    forLoop 0 n (fun j matriz =>
      let seed := (((omp_get_thread_num i j : Nat) : Int) + time i j) % 4294967296
      matriz.set i j (mod_c (rand_r seed.toNat).2 100)) matriz) matriz

/-- The result matrix of the OpenMP blocked kernel together with a record of
the accesses made to it: the cells read by `int sum = C[i][j]` and the cells
written by `C[i][j] = sum`, in program order. -/
structure EstadoC where
  C : Matrix
  lecturas : List (Nat × Nat)
  escrituras : List (Nat × Nat)

/-- The body of the collapsed `(ii, jj)` loop nest of
`multiplicar_matrices_openmp_optimizada`: the unit of work that the dynamic
schedule hands to a thread (`BLOCK_SIZE = 64`). -/
def unidad_openmp (A B : Matrix) (n ii jj : Nat) (st : EstadoC) : Option EstadoC :=
  forStep n 64 (fun kk st =>
    let i_end := if ii + 64 < n then ii + 64 else n
    let j_end := if jj + 64 < n then jj + 64 else n
    let k_end := if kk + 64 < n then kk + 64 else n
    some (forLoop ii i_end (fun i st =>
      forLoop jj j_end (fun j (st : EstadoC) =>
        let sum := st.C i j
        let sum := acumular A B i j kk k_end sum
        { C := st.C.set i j sum,
          lecturas := st.lecturas ++ [(i, j)],
          escrituras := st.escrituras ++ [(i, j)] }) st) st)) st

/-- The units of work of `multiplicar_matrices_openmp_optimizada`: the pairs
`(ii, jj)` of the collapsed loop nest, in loop order. -/
def unidades_openmp (n : Nat) : Option (List (Nat × Nat)) :=
  forStep n 64 (fun ii l =>
    forStep n 64 (fun jj l => some (l ++ [(ii, jj)])) l) []

/-- The function `multiplicar_matrices_openmp_optimizada`, its units of work
run one after the other in the order `orden`. -/
def multiplicar_matrices_openmp_optimizada_orden (orden : List (Nat × Nat))
    (A B C : Matrix) (n : Nat) : Option EstadoC :=
  let C := forLoop 0 n (fun i C => memsetRow C i n) C
  orden.foldlM (fun st u => unidad_openmp A B n u.1 u.2 st)
    { C := C, lecturas := [], escrituras := [] }

/-- The function `multiplicar_matrices_openmp_optimizada`, its units of work
run in loop order. -/
def multiplicar_matrices_openmp_optimizada (A B C : Matrix) (n : Nat) : Option EstadoC :=
  let C := forLoop 0 n (fun i C => memsetRow C i n) C
  forStep n 64 (fun ii st =>
    forStep n 64 (fun jj st => unidad_openmp A B n ii jj st) st)
    { C := C, lecturas := [], escrituras := [] }

/-- The function `multiplicar_matrices_openmp_simple`, its rows run one after
the other. -/
def multiplicar_matrices_openmp_simple (A B C : Matrix) (n : Nat) : Matrix :=
  let C := forLoop 0 n (fun i C => memsetRow C i n) C
  forLoop 0 n (fun i C =>
    forLoop 0 n (fun j C =>
      forLoop 0 n (fun k C =>
        C.set i j (add32 (C i j) (mul32 (A i k) (B k j)))) C) C) C

/-! ## The programs -/

/-- What a run of a program gets from the system and from the C library:
`crear_matriz k` is the matrix that call number `k` of `crear_matriz` returns
(`none` when `malloc` fails), `mmap` the shared buffer (`none` for
`MAP_FAILED`), `rand k` the value of call number `k` of `rand`, `rand_r` the
library function on seeds, `time k` the value of call number `k` of
`time(NULL)`, `fork k` tells whether call number `k` of `fork` creates a
child (`false` when it returns a negative pid), and `omp_get_thread_num i j`
is the thread that the static schedule gives to the iteration `(i, j)` of a
collapsed loop. -/
structure Entorno where
  crear_matriz : Nat → Option Matrix
  mmap : Option Buffer
  rand : Nat → Int
  rand_r : Nat → Nat × Int
  time : Nat → Int
  fork : Nat → Bool
  omp_get_thread_num : Nat → Nat → Nat

/-- The end of a run: the exit code, and whether the line
`=== PROGRAMA COMPLETADO EXITOSAMENTE ===` was printed. -/
structure Salida where
  codigo : Int
  completado : Bool

/-- The argument check of `main` in `multiplicacion_matrices.c`: the exit code
`1`, or the size that `main` goes on with. -/
def main_matrices_n (argc : Nat) (n : Int) : Except Int Int :=
  if argc ≠ 2 then Except.error 1
  else if n ≤ 0 then Except.error 1
  else Except.ok n

/-- The function `main` of `multiplicacion_matrices.c`, on the argument count
and the parsed size; `none` stands for a run that does not end. -/
def main_matrices (argc : Nat) (n : Int) (e : Entorno) : Option Salida :=
  match main_matrices_n argc n with
  | Except.error codigo => some { codigo := codigo, completado := false }
  | Except.ok n =>
    let n := n.toNat
    match e.crear_matriz 0, e.crear_matriz 1, e.crear_matriz 2 with
    | some matriz_A, some matriz_B, some matriz_C =>
      let gen_A := generar_matriz_aleatoria e.rand matriz_A n 0
      let gen_B := generar_matriz_aleatoria e.rand matriz_B n gen_A.2
      let matriz_C := multiplicar_matrices_original gen_A.1 gen_B.1 matriz_C n
      let matriz_C := forLoop 0 n (fun i C => memsetRow C i n) matriz_C
      (multiplicar_matrices_optimizada gen_A.1 gen_B.1 matriz_C n).map
        (fun _ => { codigo := 0, completado := true })
    | _, _, _ => some { codigo := 1, completado := false }

/-- The function `main` of `multiplicación_hilos.c`, on the argument count and
the parsed size and thread count; every `pthread_create` creates its thread,
and `none` stands for a run that does not end. -/
def main_hilos (argc : Nat) (n num_hilos_mult : Int) (e : Entorno) : Option Salida :=
  match main_hilos_num_hilos argc n num_hilos_mult with
  | Except.error codigo => some { codigo := codigo, completado := false }
  | Except.ok num_hilos_mult =>
    let n := n.toNat
    let num_hilos_mult := num_hilos_mult.toNat
    match e.crear_matriz 0, e.crear_matriz 1, e.crear_matriz 2 with
    | some matriz_A, some matriz_B, some matriz_C =>
      let matriz_A := generar_matriz_aleatoria_hilo e.rand_r (e.time 0)
        { n := n, hilo_id := 1, nombre := 'A' } matriz_A
      let matriz_B := generar_matriz_aleatoria_hilo e.rand_r (e.time 1)
        { n := n, hilo_id := 2, nombre := 'B' } matriz_B
      let datos_mult := main_hilos_datos_mult matriz_A matriz_B n num_hilos_mult
      (main_hilos_lanzar
          (fun datos C => some (multiplicar_matrices_hilo_original datos C))
          datos_mult matriz_C).bind (fun matriz_C =>
        let matriz_C := forLoop 0 n (fun i C => memsetRow C i n) matriz_C
        (main_hilos_lanzar multiplicar_matrices_hilo_optimizada datos_mult matriz_C).map
          (fun _ => { codigo := 0, completado := true }))
    | _, _, _ => some { codigo := 1, completado := false }

/-- The call `memset(C, 0, len * sizeof(int))` on a flat buffer. -/
def memsetBuffer (C : Buffer) (len : Nat) : Buffer :=
  fun p => if p < len then 0 else C p

/-- The first fork loop of `main` in `multiplicacion_procesos.c` with its wait
loop, where `fork i` tells whether the fork at index `i` creates a child: a
child runs the original kernel on its rows and exits, and the parent goes on
to the next index whatever `fork` returned. -/
def main_procesos_original_fork (fork : Nat → Bool) (matriz_A matriz_B : Matrix)
    (matriz_C : Buffer) (n num_procesos : Nat) : Buffer :=
  main_procesos_bucle (fun fila_inicio fila_fin i C =>
    if fork i then
      multiplicar_matrices_proceso_original matriz_A matriz_B C n fila_inicio fila_fin i
    else C)
    n num_procesos matriz_C

/-- The second fork loop of `main` in `multiplicacion_procesos.c` with its
wait loop, where `fork i` tells whether the fork at index `i` creates a
child. -/
def main_procesos_optimizada_fork (fork : Nat → Bool) (matriz_A matriz_B : Matrix)
    (matriz_C : Buffer) (n num_procesos : Nat) : Option Buffer :=
  main_procesos_bucle (fun fila_inicio fila_fin i (C : Option Buffer) =>
    C.bind (fun C =>
      if fork i then
        multiplicar_matrices_proceso_optimizada matriz_A matriz_B C n fila_inicio fila_fin i
      else some C))
    n num_procesos (some matriz_C)

/-- The function `main` of `multiplicacion_procesos.c`, on the argument count
and the parsed size and process count; `none` stands for a run that does not
end. -/
def main_procesos (argc : Nat) (n num_procesos : Int) (e : Entorno) : Option Salida :=
  match main_procesos_num_procesos argc n num_procesos with
  | Except.error codigo => some { codigo := codigo, completado := false }
  | Except.ok num_procesos =>
    let n := n.toNat
    let num_procesos := num_procesos.toNat
    match e.crear_matriz 0, e.crear_matriz 1, e.mmap with
    | some matriz_A, some matriz_B, some matriz_C =>
      let gen := main_procesos_generar e.rand matriz_A matriz_B n 0
      let matriz_C := main_procesos_original_fork e.fork gen.1 gen.2.1 matriz_C n num_procesos
      let matriz_C := memsetBuffer matriz_C (n * n)
      (main_procesos_optimizada_fork (fun i => e.fork (num_procesos + i)) gen.1 gen.2.1
          matriz_C n num_procesos).map
        (fun _ => { codigo := 0, completado := true })
    | _, _, _ => some { codigo := 1, completado := false }

/-- The function `main` of `multiplicacion_openmp.c`, on the argument count and
the parsed size and thread count; the calls of `time(NULL)` in the two
generator loops are numbered in loop order, and `none` stands for a run that
does not end. -/
def main_openmp (argc : Nat) (n num_hilos : Int) (e : Entorno) : Option Salida :=
  match main_openmp_num_hilos argc n num_hilos with
  | Except.error codigo => some { codigo := codigo, completado := false }
  | Except.ok _ =>
    let n := n.toNat
    match e.crear_matriz 0, e.crear_matriz 1, e.crear_matriz 2 with
    | some matriz_A, some matriz_B, some matriz_C =>
      let matriz_A := generar_matriz_aleatoria_paralela e.rand_r e.omp_get_thread_num
        (fun i j => e.time (i * n + j)) matriz_A n
      let matriz_B := generar_matriz_aleatoria_paralela e.rand_r e.omp_get_thread_num
        (fun i j => e.time (n * n + i * n + j)) matriz_B n
      let matriz_C := multiplicar_matrices_openmp_simple matriz_A matriz_B matriz_C n
      let matriz_C := forLoop 0 n (fun i C => memsetRow C i n) matriz_C
      (multiplicar_matrices_openmp_optimizada matriz_A matriz_B matriz_C n).map
        (fun _ => { codigo := 0, completado := true })
    | _, _, _ => some { codigo := 1, completado := false }

/-! ## The kernels with a checked accumulator

The multiplication kernels once more, with the arithmetic on the accumulator
done exactly and checked: a cell holds `none` from the moment a product or a
value of the accumulator that went into it left `[0, 2^31 - 1]`. -/

/-- An exact value that has to lie in `[0, 2^31 - 1]`: `none` when it does
not. -/
def en_rango (v : Int) : Option Int :=
  if 0 ≤ v ∧ v ≤ 2147483647 then some v else none

/-- The statement `sum += a * b` with the product and the new value of the
accumulator computed exactly and checked. -/
def mas_producto_x (sum : Option Int) (a b : Int) : Option Int :=
  sum.bind (fun s => (en_rango (a * b)).bind (fun p => en_rango (s + p)))

/-- A result matrix with checked cells. -/
abbrev MatrizX := Nat → Nat → Option Int

/-- The assignment `C[i][j] = v` on checked cells. -/
def MatrizX.set (C : MatrizX) (i j : Nat) (v : Option Int) : MatrizX :=
  fun i' j' => if i' = i ∧ j' = j then v else C i' j'

/-- The call `memset(C[i], 0, n * sizeof(int))` on checked cells. -/
def memsetRowX (C : MatrizX) (i n : Nat) : MatrizX :=
  fun i' j' => if i' = i ∧ j' < n then some 0 else C i' j'

/-- The inner statement `sum += A[i][k] * B[k][j]` repeated for `k` in
`[kk, k_end)`, checked. -/
def acumular_x (A B : Matrix) (i j kk k_end : Nat) (sum : Option Int) : Option Int :=
  forLoop kk k_end (fun k sum => mas_producto_x sum (A i k) (B k j)) sum

/-- The function `multiplicar_matrices_original` with a checked accumulator. -/
def multiplicar_matrices_original_x (A B : Matrix) (C : MatrizX) (n : Nat) : MatrizX :=
  forLoop 0 n (fun i C =>
    forLoop 0 n (fun j C =>
      let C := C.set i j (some 0)
      forLoop 0 n (fun k C =>
        C.set i j (mas_producto_x (C i j) (A i k) (B k j))) C) C) C

/-- The function `multiplicar_matrices_optimizada` (`BLOCK_SIZE = 64`) with a
checked accumulator. -/
def multiplicar_matrices_optimizada_x (A B : Matrix) (C : MatrizX) (n : Nat) :
    Option MatrizX :=
  let C := forLoop 0 n (fun i C => memsetRowX C i n) C
  forStep n 64 (fun ii C =>
    forStep n 64 (fun jj C =>
      forStep n 64 (fun kk C =>
        let i_end := if ii + 64 < n then ii + 64 else n
        let j_end := if jj + 64 < n then jj + 64 else n
        let k_end := if kk + 64 < n then kk + 64 else n
        some (forLoop ii i_end (fun i C =>
          forLoop jj j_end (fun j (C : MatrizX) =>
            let sum := C i j
            let sum := acumular_x A B i j kk k_end sum
            C.set i j sum) C) C)) C) C) C

/-- The function `multiplicar_matrices_hilo_optimizada` (`BLOCK_SIZE = 32`)
with a checked accumulator. -/
def multiplicar_matrices_hilo_optimizada_x (datos : DatosMultiplicacion) (C : MatrizX) :
    Option MatrizX :=
  let C := forLoop datos.fila_inicio datos.fila_fin (fun i C => memsetRowX C i datos.n) C
  forStep datos.n 32 (fun kk C =>
    let k_end := if kk + 32 < datos.n then kk + 32 else datos.n
    forStep datos.n 32 (fun jj C =>
      let j_end := if jj + 32 < datos.n then jj + 32 else datos.n
      some (forLoop datos.fila_inicio datos.fila_fin (fun i C =>
        forLoop jj j_end (fun j (C : MatrizX) =>
          let sum := C i j
          let sum := acumular_x datos.A datos.B i j kk k_end sum
          C.set i j sum) C) C)) C) C

/-! ## The kernels with checked indices

The multiplication kernels once more, on allocated memory.  A matrix has a
number of rows and a number of cells per row, a flat buffer has a length, and
an access outside the allocation is a failure (`none`).  The `int`
expressions that make an offset or a loop bound (`i * n + j`,
`kk + BLOCK_SIZE`) are computed exactly and checked: a value above `2^31 - 1`
is a failure as well, since the C expression overflows there and the program
goes on with another value, if it goes on at all.  The arithmetic on the
entries wraps, as everywhere else. -/

/-- An allocated `int **` matrix: `filas` rows of `columnas` cells each, and
the content of the cells. -/
structure MatrizA where
  filas : Nat
  columnas : Nat
  dat : Matrix

/-- An allocated flat `int *` buffer: `len` cells, and their content. -/
structure BufferA where
  len : Nat
  dat : Buffer

/-- The value of an `int` expression on counters and sizes, given its exact
value: `none` when the exact value is above `INT_MAX`. -/
def como_int (v : Nat) : Option Nat :=
  if v ≤ 2147483647 then some v else none

/-- The C expression `i * n + j` on `int`. -/
def indice_plano (i n j : Nat) : Option Nat :=
  (como_int (i * n)).bind (fun p => como_int (p + j))

/-- The read `M[i][j]`. -/
def MatrizA.leer (M : MatrizA) (i j : Nat) : Option Int :=
  if i < M.filas ∧ j < M.columnas then some (M.dat i j) else none

/-- The assignment `M[i][j] = v`. -/
def MatrizA.escribir (M : MatrizA) (i j : Nat) (v : Int) : Option MatrizA :=
  if i < M.filas ∧ j < M.columnas then some { M with dat := M.dat.set i j v } else none

/-- The call `memset(M[i], 0, n * sizeof(int))`. -/
def MatrizA.memset_fila (M : MatrizA) (i n : Nat) : Option MatrizA :=
  if i < M.filas ∧ n ≤ M.columnas then some { M with dat := memsetRow M.dat i n } else none

/-- The read `C[p]` on a flat buffer. -/
def BufferA.leer (C : BufferA) (p : Nat) : Option Int :=
  if p < C.len then some (C.dat p) else none

/-- The assignment `C[p] = v` on a flat buffer. -/
def BufferA.escribir (C : BufferA) (p : Nat) (v : Int) : Option BufferA :=
  if p < C.len then some { C with dat := C.dat.set p v } else none

/-- Runs `body i` for `i = lo, lo+1, ...`, `cnt` times, as long as it does not
fail. -/
def forLoopAuxM {σ : Type} (body : Nat → σ → Option σ) : Nat → Nat → σ → Option σ
  | 0, _, s => some s
  | cnt + 1, i, s => (body i s).bind (forLoopAuxM body cnt (i + 1))

/-- The loop `for (int i = lo; i < hi; i++) body` with a body that can
fail. -/
def forLoopM {σ : Type} (lo hi : Nat) (body : Nat → σ → Option σ) (s : σ) : Option σ :=
  forLoopAuxM body (hi - lo) lo s

/-- The inner statement `sum += A[i][k] * B[k][j]` repeated for `k` in
`[kk, k_end)`, with checked reads. -/
def acumular_v (A B : MatrizA) (i j kk k_end : Nat) (sum : Int) : Option Int :=
  forLoopM kk k_end (fun k sum =>
    (A.leer i k).bind (fun a =>
    (B.leer k j).bind (fun b =>
    some (add32 sum (mul32 a b))))) sum

/-- The function `multiplicar_matrices_optimizada` (`BLOCK_SIZE = 64`) with
checked indices.  The increment `ii += BLOCK_SIZE` of a block loop has the
value of `ii + BLOCK_SIZE`, which the body has computed and checked before. -/
def multiplicar_matrices_optimizada_v (A B C : MatrizA) (n : Nat) : Option MatrizA :=
  (forLoopM 0 n (fun i (C : MatrizA) => C.memset_fila i n) C).bind (fun C =>
  forStep n 64 (fun ii C =>
    forStep n 64 (fun jj C =>
      forStep n 64 (fun kk C =>
        (como_int (ii + 64)).bind (fun ib =>
        (como_int (jj + 64)).bind (fun jb =>
        (como_int (kk + 64)).bind (fun kb =>
        let i_end := if ib < n then ib else n
        let j_end := if jb < n then jb else n
        let k_end := if kb < n then kb else n
        forLoopM ii i_end (fun i C =>
          forLoopM jj j_end (fun j (C : MatrizA) =>
            (C.leer i j).bind (fun sum =>
            (acumular_v A B i j kk k_end sum).bind (fun sum =>
            C.escribir i j sum))) C) C)))) C) C) C)

/-- The struct `DatosMultiplicacion` with allocated matrices `A` and `B`. -/
structure DatosMultiplicacionA where
  A : MatrizA
  B : MatrizA
  n : Nat
  fila_inicio : Nat
  fila_fin : Nat
  hilo_id : Nat

/-- The content of a `DatosMultiplicacionA`, without the sizes of the
allocations. -/
def DatosMultiplicacionA.datos (datos : DatosMultiplicacionA) : DatosMultiplicacion :=
  { A := datos.A.dat, B := datos.B.dat, n := datos.n, fila_inicio := datos.fila_inicio,
    fila_fin := datos.fila_fin, hilo_id := datos.hilo_id }

/-- The function `multiplicar_matrices_hilo_optimizada` (`BLOCK_SIZE = 32`)
with checked indices. -/
def multiplicar_matrices_hilo_optimizada_v (datos : DatosMultiplicacionA) (C : MatrizA) :
    Option MatrizA :=
  (forLoopM datos.fila_inicio datos.fila_fin
    (fun i (C : MatrizA) => C.memset_fila i datos.n) C).bind (fun C =>
  forStep datos.n 32 (fun kk C =>
    (como_int (kk + 32)).bind (fun kb =>
    let k_end := if kb < datos.n then kb else datos.n
    forStep datos.n 32 (fun jj C =>
      (como_int (jj + 32)).bind (fun jb =>
      let j_end := if jb < datos.n then jb else datos.n
      forLoopM datos.fila_inicio datos.fila_fin (fun i C =>
        forLoopM jj j_end (fun j (C : MatrizA) =>
          (C.leer i j).bind (fun sum =>
          (acumular_v datos.A datos.B i j kk k_end sum).bind (fun sum =>
          C.escribir i j sum))) C) C)) C)) C)

/-- The function `multiplicar_matrices_proceso_optimizada` (`BLOCK_SIZE = 32`)
with checked indices. -/
def multiplicar_matrices_proceso_optimizada_v (A B : MatrizA) (C : BufferA)
    (n fila_inicio fila_fin : Nat) (_proc_id : Nat) : Option BufferA :=
  (forLoopM fila_inicio fila_fin (fun i C =>
    forLoopM 0 n (fun j (C : BufferA) =>
      (indice_plano i n j).bind (fun p => C.escribir p 0)) C) C).bind (fun C =>
  forStep n 32 (fun kk C =>
    (como_int (kk + 32)).bind (fun kb =>
    let k_end := if kb < n then kb else n
    forStep n 32 (fun jj C =>
      (como_int (jj + 32)).bind (fun jb =>
      let j_end := if jb < n then jb else n
      forLoopM fila_inicio fila_fin (fun i C =>
        forLoopM jj j_end (fun j (C : BufferA) =>
          (indice_plano i n j).bind (fun p =>
          (C.leer p).bind (fun sum =>
          (acumular_v A B i j kk k_end sum).bind (fun sum =>
          (indice_plano i n j).bind (fun p =>
          C.escribir p sum))))) C) C)) C)) C)

/-- The function `multiplicar_matrices_proceso_original` with checked
indices. -/
def multiplicar_matrices_proceso_original_v (A B : MatrizA) (C : BufferA)
    (n fila_inicio fila_fin : Nat) (_proc_id : Nat) : Option BufferA :=
  forLoopM fila_inicio fila_fin (fun i C =>
    forLoopM 0 n (fun j (C : BufferA) =>
      (indice_plano i n j).bind (fun p =>
      (C.escribir p 0).bind (fun C =>
      forLoopM 0 n (fun k (C : BufferA) =>
        (indice_plano i n j).bind (fun p =>
        (C.leer p).bind (fun c =>
        (A.leer i k).bind (fun a =>
        (B.leer k j).bind (fun b =>
        C.escribir p (add32 c (mul32 a b))))))) C))) C) C

/-- The phase of `main` that multiplies with the original kernel, with checked
indices: the children run one after the other on the shared buffer, and the
phase fails when a child fails. -/
def main_procesos_original_v (matriz_A matriz_B : MatrizA) (matriz_C : BufferA)
    (n num_procesos : Nat) : Option BufferA :=
  main_procesos_bucle (fun fila_inicio fila_fin i (C : Option BufferA) =>
    C.bind (fun C =>
      multiplicar_matrices_proceso_original_v matriz_A matriz_B C n fila_inicio fila_fin i))
    n num_procesos (some matriz_C)

/-- The phase of `main` that multiplies with the blocked kernel, with checked
indices. -/
def main_procesos_optimizada_v (matriz_A matriz_B : MatrizA) (matriz_C : BufferA)
    (n num_procesos : Nat) : Option BufferA :=
  main_procesos_bucle (fun fila_inicio fila_fin i (C : Option BufferA) =>
    C.bind (fun C =>
      multiplicar_matrices_proceso_optimizada_v matriz_A matriz_B C n fila_inicio fila_fin i))
    n num_procesos (some matriz_C)

/-! ## Reference values -/

/-- The row range of worker `t` in closed form: it starts at
`t * (n / w) + min t (n % w)`. -/
def inicio (n w t : Nat) : Nat := t * (n / w) + min t (n % w)

/-! ## Sample data -/

/-- A sample left factor, with negative and large entries. -/
def A_ej : Matrix := fun i j => 65536 * (i : Int) - 3 * j + 1

/-- A sample right factor. -/
def B_ej : Matrix := fun i j => 40000 * (j : Int) + 7 * i - 2

/-- A sample initial content of the 2-D result matrix. -/
def C_ej : Matrix := fun i j => (i : Int) - j + 5

/-- A second sample initial content of the 2-D result matrix. -/
def D_ej : Matrix := fun _ _ => -1

/-- A sample initial content of the flat result buffer. -/
def F_ej : Buffer := fun p => 9 - (p : Int)

/-- A second sample initial content of the flat result buffer. -/
def G_ej : Buffer := fun _ => 0

/-- The left factor `[[1, 2], [3, 4]]`. -/
def A_2x2 : Matrix := fun i j =>
  match i, j with
  | 0, 0 => 1
  | 0, 1 => 2
  | 1, 0 => 3
  | 1, 1 => 4
  | _, _ => 0

/-- The right factor `[[5, 6], [7, 8]]`. -/
def B_2x2 : Matrix := fun i j =>
  match i, j with
  | 0, 0 => 5
  | 0, 1 => 6
  | 1, 0 => 7
  | 1, 1 => 8
  | _, _ => 0

/-- The 2-D matrix `C` holds `[[19, 22], [43, 50]]`. -/
def es_19_22_43_50 (C : Matrix) : Prop :=
  C 0 0 = 19 ∧ C 0 1 = 22 ∧ C 1 0 = 43 ∧ C 1 1 = 50

/-- The flat buffer `F` holds `[19, 22, 43, 50]`. -/
def es_19_22_43_50_plano (F : Buffer) : Prop :=
  F 0 = 19 ∧ F 1 = 22 ∧ F 2 = 43 ∧ F 3 = 50

/-- A sample `rand_r`: a linear congruential step on the seed, the result
taken from the high bits. -/
def rand_r_ej (seed : Nat) : Nat × Int :=
  ((1103515245 * seed + 12345) % 4294967296,
    (((1103515245 * seed + 12345) % 4294967296 / 65536 % 32768 : Nat) : Int))

/-- A sample `rand`: the results of `rand_r_ej` along its seeds, from seed `1`. -/
def rand_ej (k : Nat) : Int := (rand_r_ej (Nat.iterate (fun s => (rand_r_ej s).1) k 1)).2

/-- A sample environment: every allocation succeeds and every `fork` creates
its child. -/
def entorno_ej : Entorno :=
  { crear_matriz := fun _ => some C_ej
    mmap := some F_ej
    rand := rand_ej
    rand_r := rand_r_ej
    time := fun _ => 1700000000
    fork := fun _ => true
    omp_get_thread_num := fun i _ => i % 4 }

/-- The sample environment with every `fork` failing. -/
def entorno_sin_fork : Entorno := { entorno_ej with fork := fun _ => false }

/-- The matrix with `99` in every cell, the largest entry of a generated
matrix. -/
def M_99 : Matrix := fun _ _ => 99

/-- A sample generated matrix, with entries in `[0, 100)`. -/
def M_gen : Matrix := fun i j => (((7 * i + 13 * j + 5) % 100 : Nat) : Int)

/-- A sample initial content of a result matrix with checked cells. -/
def X_ej : MatrizX := fun i j => if i = j then none else some 3

/-- An allocation of 3 rows of 3 cells with the content of `M_gen`. -/
def A_3 : MatrizA := { filas := 3, columnas := 3, dat := M_gen }

/-- An allocation of 3 rows of 3 cells with the content of `C_ej`. -/
def C_3 : MatrizA := { filas := 3, columnas := 3, dat := C_ej }

/-- A flat allocation of 9 cells with the content of `F_ej`. -/
def F_9 : BufferA := { len := 9, dat := F_ej }

/-- An allocation of 46341 rows of 46341 cells with the content of `M_gen`. -/
def A_46341 : MatrizA := { filas := 46341, columnas := 46341, dat := M_gen }

/-- A flat allocation of `46341 * 46341` cells, all `0`. -/
def F_46341 : BufferA := { len := 46341 * 46341, dat := G_ej }

/-- A flat allocation of `46341 * 46341` cells with the content of `F_ej`. -/
def H_46341 : BufferA := { len := 46341 * 46341, dat := F_ej }

/-! ## Arithmetic of `wrap32` -/

theorem wrap32_wrap32 (x : Int) : wrap32 (wrap32 x) = wrap32 x := by
  unfold wrap32; omega

theorem wrap32_add_left (a b : Int) : wrap32 (wrap32 a + b) = wrap32 (a + b) := by
  unfold wrap32; omega

theorem wrap32_add_right (a b : Int) : wrap32 (a + wrap32 b) = wrap32 (a + b) := by
  unfold wrap32; omega

theorem wrap32_add_mid (a b c : Int) : wrap32 (a + wrap32 b + c) = wrap32 (a + b + c) := by
  unfold wrap32; omega

theorem wrap32_zero : wrap32 0 = 0 := by decide

theorem wrap32_of_range (x : Int) (h0 : -2147483648 ≤ x) (h1 : x < 2147483648) :
    wrap32 x = x := by
  unfold wrap32; omega

theorem wrap32_range (x : Int) : -2147483648 ≤ wrap32 x ∧ wrap32 x < 2147483648 := by
  unfold wrap32; omega

/-! ## Unit-step loops -/

theorem forLoopAux_proj {σ α : Type} (π : σ → α) (body : Nat → σ → σ) (g : Nat → α → α) :
    ∀ (cnt lo : Nat) (s : σ),
      (∀ t s, lo ≤ t → t < lo + cnt → π (body t s) = g t (π s)) →
      π (forLoopAux body cnt lo s) = forLoopAux g cnt lo (π s) := by
  intro cnt
  induction cnt with
  | zero => intro lo s _; rfl
  | succ c ih =>
    intro lo s h
    simp only [forLoopAux]
    rw [ih (lo + 1) (body lo s) (fun t s ht1 ht2 => h t s (by omega) (by omega)),
      h lo s (Nat.le_refl _) (by omega)]

/-- The view of a loop is the loop of the views, when every iteration acts on
the view by a function of the view alone. -/
theorem forLoop_proj {σ α : Type} (π : σ → α) (lo hi : Nat) (body : Nat → σ → σ)
    (g : Nat → α → α) (s : σ)
    (h : ∀ t s, lo ≤ t → t < hi → π (body t s) = g t (π s)) :
    π (forLoop lo hi body s) = forLoop lo hi g (π s) := by
  unfold forLoop
  exact forLoopAux_proj π body g (hi - lo) lo s (fun t s h1 h2 => h t s h1 (by omega))

theorem forLoopAux_single {α : Type} (c : Nat) (h : α → α) :
    ∀ (cnt lo : Nat) (x : α),
      forLoopAux (fun t x => if t = c then h x else x) cnt lo x
        = if lo ≤ c ∧ c < lo + cnt then h x else x := by
  intro cnt
  induction cnt with
  | zero =>
    intro lo x
    have hn : ¬ (lo ≤ c ∧ c < lo + 0) := by omega
    rw [if_neg hn]; rfl
  | succ n ih =>
    intro lo x
    simp only [forLoopAux]
    rw [ih (lo + 1)]
    by_cases hc : lo = c
    · subst hc
      have hn : ¬ (lo + 1 ≤ lo ∧ lo < lo + 1 + n) := by omega
      have hp : lo ≤ lo ∧ lo < lo + (n + 1) := by omega
      rw [if_neg hn, if_pos hp, if_pos rfl]
    · rw [if_neg hc]
      by_cases hr : lo ≤ c ∧ c < lo + (n + 1)
      · have hr2 : lo + 1 ≤ c ∧ c < lo + 1 + n := by omega
        rw [if_pos hr, if_pos hr2]
      · have hr2 : ¬ (lo + 1 ≤ c ∧ c < lo + 1 + n) := by omega
        rw [if_neg hr, if_neg hr2]

/-- A loop whose iterations leave the value alone except the one at `c`. -/
theorem forLoop_single {α : Type} (c : Nat) (h : α → α) (lo hi : Nat) (x : α) :
    forLoop lo hi (fun t x => if t = c then h x else x) x
      = if lo ≤ c ∧ c < hi then h x else x := by
  unfold forLoop
  rw [forLoopAux_single]
  by_cases hr : lo ≤ c ∧ c < hi
  · have hr2 : lo ≤ c ∧ c < lo + (hi - lo) := by omega
    rw [if_pos hr, if_pos hr2]
  · have hr2 : ¬ (lo ≤ c ∧ c < lo + (hi - lo)) := by omega
    rw [if_neg hr, if_neg hr2]

theorem forLoopAux_congr {α : Type} (g g' : Nat → α → α) :
    ∀ (cnt lo : Nat) (x : α),
      (∀ t x, lo ≤ t → t < lo + cnt → g t x = g' t x) →
      forLoopAux g cnt lo x = forLoopAux g' cnt lo x := by
  intro cnt
  induction cnt with
  | zero => intro lo x _; rfl
  | succ n ih =>
    intro lo x h
    simp only [forLoopAux]
    rw [h lo x (Nat.le_refl _) (by omega)]
    exact ih (lo + 1) _ (fun t x h1 h2 => h t x (by omega) (by omega))

theorem forLoop_congr {α : Type} (g g' : Nat → α → α) (lo hi : Nat) (x : α)
    (h : ∀ t x, lo ≤ t → t < hi → g t x = g' t x) :
    forLoop lo hi g x = forLoop lo hi g' x := by
  unfold forLoop
  exact forLoopAux_congr g g' (hi - lo) lo x (fun t x h1 h2 => h t x h1 (by omega))

theorem forLoopAux_split {α : Type} (g : Nat → α → α) :
    ∀ (a b lo : Nat) (x : α),
      forLoopAux g (a + b) lo x = forLoopAux g b (lo + a) (forLoopAux g a lo x) := by
  intro a
  induction a with
  | zero => intro b lo x; simp [forLoopAux]
  | succ n ih =>
    intro b lo x
    have e : n + 1 + b = (n + b) + 1 := by omega
    rw [e]
    simp only [forLoopAux]
    rw [ih b (lo + 1)]
    have e2 : lo + 1 + n = lo + (n + 1) := by omega
    rw [e2]

/-- A loop over `[lo, hi)` is the loop over `[lo, mid)` followed by the loop
over `[mid, hi)`. -/
theorem forLoop_split {α : Type} (g : Nat → α → α) (lo mid hi : Nat) (x : α)
    (h1 : lo ≤ mid) (h2 : mid ≤ hi) :
    forLoop lo hi g x = forLoop mid hi g (forLoop lo mid g x) := by
  unfold forLoop
  have e : hi - lo = (mid - lo) + (hi - mid) := by omega
  rw [e, forLoopAux_split]
  have e2 : lo + (mid - lo) = mid := by omega
  rw [e2]

theorem forLoop_empty {α : Type} (g : Nat → α → α) (lo hi : Nat) (x : α) (h : hi ≤ lo) :
    forLoop lo hi g x = x := by
  unfold forLoop
  have e : hi - lo = 0 := by omega
  rw [e]; rfl

theorem forLoop_id {α : Type} (lo hi : Nat) (x : α) :
    forLoop lo hi (fun _ x => x) x = x := by
  unfold forLoop
  generalize hi - lo = cnt
  induction cnt generalizing lo with
  | zero => rfl
  | succ n ih => simp only [forLoopAux]; exact ih (lo + 1)

/-! ## Block-step loops -/

/-- A block-step loop whose iteration at `t` acts on the view as the unit-step
loop over the block `[t, min (t + step) hi)` acts on the view as the unit-step
loop over `[i, hi)`; in particular it terminates. -/
theorem forStepAux_blocks {σ α : Type} (π : σ → α) (hi step : Nat) (hstep : 0 < step)
    (body : Nat → σ → Option σ) (f : Nat → α → α)
    (hb : ∀ t s, t < hi → ∃ s', body t s = some s' ∧
        π s' = forLoop t (if t + step < hi then t + step else hi) f (π s)) :
    ∀ (fuel i : Nat) (s : σ), hi ≤ i + fuel →
      ∃ s', forStepAux hi step body fuel i s = some s' ∧ π s' = forLoop i hi f (π s) := by
  intro fuel
  induction fuel with
  | zero =>
    intro i s h
    have hi' : ¬ i < hi := by omega
    exact ⟨s, by simp [forStepAux, hi'], by rw [forLoop_empty _ _ _ _ (by omega)]⟩
  | succ n ih =>
    intro i s h
    by_cases hlt : i < hi
    · obtain ⟨s1, hs1, hv1⟩ := hb i s hlt
      obtain ⟨s2, hs2, hv2⟩ := ih (i + step) s1 (by omega)
      refine ⟨s2, by simp [forStepAux, hlt, hs1, hs2], ?_⟩
      rw [hv2, hv1]
      by_cases hblk : i + step < hi
      · simp only [hblk, if_true]
        rw [← forLoop_split f i (i + step) hi _ (by omega) (by omega)]
      · simp only [hblk, if_false]
        rw [forLoop_empty f (i + step) hi _ (by omega)]
    · exact ⟨s, by simp [forStepAux, hlt], by rw [forLoop_empty _ _ _ _ (by omega)]⟩

theorem forStep_blocks {σ α : Type} (π : σ → α) (hi step : Nat) (hstep : 0 < step)
    (body : Nat → σ → Option σ) (f : Nat → α → α)
    (hb : ∀ t s, t < hi → ∃ s', body t s = some s' ∧
        π s' = forLoop t (if t + step < hi then t + step else hi) f (π s))
    (s : σ) :
    ∃ s', forStep hi step body s = some s' ∧ π s' = forLoop 0 hi f (π s) :=
  forStepAux_blocks π hi step hstep body f hb hi 0 s (by omega)

theorem forStep_blocks_eq {σ α : Type} (π : σ → α) (hi step : Nat) (hstep : 0 < step)
    (body : Nat → σ → Option σ) (f : Nat → α → α) (s : σ) (x : α)
    (hb : ∀ t s, t < hi → ∃ s', body t s = some s' ∧
        π s' = forLoop t (if t + step < hi then t + step else hi) f (π s))
    (hx : forLoop 0 hi f (π s) = x) :
    ∃ s', forStep hi step body s = some s' ∧ π s' = x := by
  obtain ⟨s', hs', hv⟩ := forStep_blocks π hi step hstep body f hb s
  exact ⟨s', hs', hv.trans hx⟩

/-! ## Views of a cell -/

theorem forLoop_cond {α : Type} (P : Prop) [Decidable P] (f : Nat → α → α) (lo hi : Nat)
    (x : α) :
    forLoop lo hi (fun k x => if P then f k x else x) x
      = if P then forLoop lo hi f x else x := by
  by_cases hP : P
  · simp only [hP, if_true]
  · simp only [hP, if_false]; exact forLoop_id lo hi x

/-- A double loop over rows `[r0, r1)` and columns `[c0, c1)` whose update at
`(i', j')` changes the view only when `(i', j')` is the viewed cell `(i, j)`,
and then by `h`, acts on the view by `h` when the cell is in range and leaves
it alone otherwise. -/
theorem tile_view {σ α : Type} (π : σ → α) (upd : Nat → Nat → σ → σ) (h : α → α)
    (i j r0 r1 c0 c1 : Nat)
    (hupd : ∀ i' j' s, c0 ≤ j' → j' < c1 →
      π (upd i' j' s) = if i' = i ∧ j' = j then h (π s) else π s) (s : σ) :
    π (forLoop r0 r1 (fun i' s => forLoop c0 c1 (fun j' s => upd i' j' s) s) s)
      = if (r0 ≤ i ∧ i < r1) ∧ (c0 ≤ j ∧ j < c1) then h (π s) else π s := by
  rw [forLoop_proj π r0 r1 _
    (fun i' x => if i' = i then (if c0 ≤ j ∧ j < c1 then h x else x) else x) s]
  · rw [forLoop_single]
    by_cases h1 : r0 ≤ i ∧ i < r1 <;> by_cases h2 : c0 ≤ j ∧ j < c1 <;> simp [h1, h2]
  · intro t s _ _
    show π (forLoop c0 c1 (fun j' s => upd t j' s) s) = _
    rw [forLoop_proj π c0 c1 _ (fun j' x => if j' = j then (if t = i then h x else x) else x) s]
    · rw [forLoop_single]
      by_cases h1 : t = i <;> by_cases h2 : c0 ≤ j ∧ j < c1 <;> simp [h1, h2]
    · intro t' s' ht1 ht2
      rw [hupd t t' s' ht1 ht2]
      by_cases h1 : t = i <;> by_cases h2 : t' = j <;> simp [h1, h2]

theorem matrix_set_apply (C : Matrix) (i j : Nat) (v : Int) (i' j' : Nat) :
    (C.set i j v) i' j' = if i' = i ∧ j' = j then v else C i' j' := rfl

theorem buffer_set_apply (C : Buffer) (p : Nat) (v : Int) (p' : Nat) :
    (C.set p v) p' = if p' = p then v else C p' := rfl

/-- Distinct cells of an `n`-column row-major layout have distinct offsets. -/
theorem flat_inj (n i j i' j' : Nat) (hj : j < n) (hj' : j' < n) :
    i' * n + j' = i * n + j ↔ i' = i ∧ j' = j := by
  constructor
  · intro h
    have hi : i' = i := by
      rcases Nat.lt_trichotomy i' i with hlt | heq | hgt
      · have := Nat.mul_le_mul_right n (Nat.succ_le_of_lt hlt)
        rw [Nat.succ_mul] at this
        omega
      · exact heq
      · have := Nat.mul_le_mul_right n (Nat.succ_le_of_lt hgt)
        rw [Nat.succ_mul] at this
        omega
    subst hi
    exact ⟨rfl, by omega⟩
  · rintro ⟨rfl, rfl⟩; rfl

/-- A write to the cell `(i', j')` of a matrix, seen from the cell `(i, j)`. -/
theorem matrix_set_view (C : Matrix) (i' j' : Nat) (v : Int) (i j : Nat) :
    (C.set i' j' v) i j = if i' = i ∧ j' = j then v else C i j := by
  rw [matrix_set_apply]
  by_cases h : i' = i ∧ j' = j
  · obtain ⟨rfl, rfl⟩ := h
    simp
  · have h' : ¬ (i = i' ∧ j = j') := fun hh => h ⟨hh.1.symm, hh.2.symm⟩
    rw [if_neg h, if_neg h']

/-- A write to the cell `(i', j')` of a flat buffer, seen from the offset of the
cell `(i, j)`. -/
theorem buffer_set_view (C : Buffer) (n i' j' : Nat) (v : Int) (i j : Nat)
    (hj : j < n) (hj' : j' < n) :
    (C.set (i' * n + j') v) (i * n + j) = if i' = i ∧ j' = j then v else C (i * n + j) := by
  rw [buffer_set_apply]
  by_cases h : i' = i ∧ j' = j
  · obtain ⟨rfl, rfl⟩ := h
    simp
  · have h' : ¬ (i * n + j = i' * n + j') := fun hh =>
      h ((flat_inj n i j i' j' hj hj').1 hh.symm)
    rw [if_neg h, if_neg h']

/-- The update of one cell by the accumulation over `[kk, k_end)`, seen from
the cell `(i, j)` of a matrix. -/
theorem set_acumular_view (A B : Matrix) (kk k_end i j i' j' : Nat) (C : Matrix) :
    (C.set i' j' (acumular A B i' j' kk k_end (C i' j'))) i j
      = if i' = i ∧ j' = j then acumular A B i j kk k_end (C i j) else C i j := by
  rw [matrix_set_apply]
  by_cases h : i' = i ∧ j' = j
  · obtain ⟨rfl, rfl⟩ := h
    simp
  · have h' : ¬ (i = i' ∧ j = j') := fun hh => h ⟨hh.1.symm, hh.2.symm⟩
    rw [if_neg h, if_neg h']

/-- The update of one cell by the accumulation over `[kk, k_end)`, seen from
the offset of cell `(i, j)` of a flat buffer. -/
theorem set_acumular_flat_view (A B : Matrix) (n kk k_end i j i' j' : Nat) (C : Buffer)
    (hj : j < n) (hj' : j' < n) :
    (C.set (i' * n + j') (acumular A B i' j' kk k_end (C (i' * n + j')))) (i * n + j)
      = if i' = i ∧ j' = j then acumular A B i j kk k_end (C (i * n + j))
        else C (i * n + j) := by
  rw [buffer_set_apply]
  by_cases h : i' = i ∧ j' = j
  · obtain ⟨rfl, rfl⟩ := h
    simp
  · have h' : ¬ (i * n + j = i' * n + j') := fun hh =>
      h ((flat_inj n i j i' j' hj hj').1 hh.symm)
    rw [if_neg h, if_neg h']

/-- The blocked loop nest of the row-range kernels (`kk` blocks, then `jj`
blocks, then the rows `[fi, ff)` and the columns of the block), seen from one
cell: it terminates, and it acts on the cell as the plain accumulation over
`k` in `[0, n)` when the cell lies in the rows `[fi, ff)` and the columns
`[0, n)`, and leaves it alone otherwise. -/
theorem bloques_filas_view {σ α : Type} (π : σ → α) (upd : Nat → Nat → Nat → Nat → σ → σ)
    (acc : Nat → α → α) (i j n bs fi ff : Nat) (hbs : 0 < bs)
    (hupd : ∀ kk k_end i' j' s, j' < n →
      π (upd kk k_end i' j' s)
        = if i' = i ∧ j' = j then forLoop kk k_end acc (π s) else π s)
    (s : σ) :
    ∃ s', forStep n bs (fun kk s =>
        forStep n bs (fun jj s =>
          some (forLoop fi ff (fun i' s =>
            forLoop jj (if jj + bs < n then jj + bs else n) (fun j' s =>
              upd kk (if kk + bs < n then kk + bs else n) i' j' s) s) s)) s) s = some s' ∧
      π s' = if (fi ≤ i ∧ i < ff) ∧ j < n then forLoop 0 n acc (π s) else π s := by
  refine forStep_blocks_eq π n bs hbs _
    (fun k x => if (fi ≤ i ∧ i < ff) ∧ j < n then acc k x else x) s _ ?_ ?_
  · intro kk s _
    refine forStep_blocks_eq π n bs hbs _
      (fun j' x => if j' = j then
        (if fi ≤ i ∧ i < ff then
          forLoop kk (if kk + bs < n then kk + bs else n) acc x else x) else x) s _ ?_ ?_
    · intro jj s hjj
      refine ⟨_, rfl, ?_⟩
      rw [tile_view π (fun i' j' s => upd kk (if kk + bs < n then kk + bs else n) i' j' s)
        (forLoop kk (if kk + bs < n then kk + bs else n) acc) i j fi ff jj
        (if jj + bs < n then jj + bs else n)
        (fun i' j' s _ h2 => hupd _ _ i' j' s (by split_ifs at h2 <;> omega)) s]
      rw [forLoop_single]
      by_cases h1 : fi ≤ i ∧ i < ff <;>
        by_cases h2 : jj ≤ j ∧ j < (if jj + bs < n then jj + bs else n) <;> simp [h1, h2]
    · rw [forLoop_single, forLoop_cond]
      by_cases h1 : fi ≤ i ∧ i < ff <;> by_cases h2 : j < n <;> simp [h1, h2]
  · rw [forLoop_cond]

/-- The blocked loop nest of `multiplicar_matrices_optimizada` (`ii` blocks,
then `jj` blocks, then `kk` blocks, then the rows and columns of the tile),
seen from one cell: it terminates, and it acts on the cell as the plain
accumulation over `k` in `[0, n)` when the cell lies in `[0, n) × [0, n)`, and
leaves it alone otherwise. -/
theorem bloques_view {σ α : Type} (π : σ → α) (upd : Nat → Nat → Nat → Nat → σ → σ)
    (acc : Nat → α → α) (i j n bs : Nat) (hbs : 0 < bs)
    (hupd : ∀ kk k_end i' j' s, j' < n →
      π (upd kk k_end i' j' s)
        = if i' = i ∧ j' = j then forLoop kk k_end acc (π s) else π s)
    (s : σ) :
    ∃ s', forStep n bs (fun ii s =>
        forStep n bs (fun jj s =>
          forStep n bs (fun kk s =>
            some (forLoop ii (if ii + bs < n then ii + bs else n) (fun i' s =>
              forLoop jj (if jj + bs < n then jj + bs else n) (fun j' s =>
                upd kk (if kk + bs < n then kk + bs else n) i' j' s) s) s)) s) s) s
        = some s' ∧
      π s' = if i < n ∧ j < n then forLoop 0 n acc (π s) else π s := by
  refine forStep_blocks_eq π n bs hbs _
    (fun i' x => if i' = i then (if j < n then forLoop 0 n acc x else x) else x) s _ ?_ ?_
  · intro ii s _
    refine forStep_blocks_eq π n bs hbs _
      (fun j' x => if j' = j then
        (if ii ≤ i ∧ i < (if ii + bs < n then ii + bs else n) then
          forLoop 0 n acc x else x) else x) s _ ?_ ?_
    · intro jj s _
      refine forStep_blocks_eq π n bs hbs _
        (fun k x => if (ii ≤ i ∧ i < (if ii + bs < n then ii + bs else n)) ∧
            (jj ≤ j ∧ j < (if jj + bs < n then jj + bs else n)) then acc k x else x) s _ ?_ ?_
      · intro kk s _
        refine ⟨_, rfl, ?_⟩
        rw [tile_view π (fun i' j' s => upd kk (if kk + bs < n then kk + bs else n) i' j' s)
          (forLoop kk (if kk + bs < n then kk + bs else n) acc) i j ii
          (if ii + bs < n then ii + bs else n) jj (if jj + bs < n then jj + bs else n)
          (fun i' j' s _ h2 => hupd _ _ i' j' s (by split_ifs at h2 <;> omega)) s]
        rw [forLoop_cond]
      · rw [forLoop_single, forLoop_cond]
        by_cases h1 : ii ≤ i ∧ i < (if ii + bs < n then ii + bs else n) <;>
          by_cases h2 : jj ≤ j ∧ j < (if jj + bs < n then jj + bs else n) <;> simp [h1, h2]
    · rw [forLoop_single, forLoop_single]
      by_cases h1 : ii ≤ i ∧ i < (if ii + bs < n then ii + bs else n) <;>
        by_cases h2 : j < n <;> simp [h1, h2]
  · rw [forLoop_single]
    by_cases h1 : i < n <;> by_cases h2 : j < n <;> simp [h1, h2]

/-- The naive loop nest of the original kernels, over the rows `[fi, ff)`, seen
from one cell through a write `wr` and a read `rd` of the result: a cell in the
rows `[fi, ff)` and the columns `[0, n)` ends as the accumulation from `0` over
`k` in `[0, n)`, any other cell is left alone. -/
theorem original_view {σ : Type} (π : σ → Int) (wr : Nat → Nat → Int → σ → σ)
    (rd : Nat → Nat → σ → Int) (A B : Matrix) (i j n fi ff : Nat)
    (hwr : ∀ i' j' v s, j' < n → π (wr i' j' v s) = if i' = i ∧ j' = j then v else π s)
    (hrd : ∀ s, rd i j s = π s) (s : σ) :
    π (forLoop fi ff (fun i' s =>
        forLoop 0 n (fun j' s =>
          forLoop 0 n (fun k s =>
            wr i' j' (add32 (rd i' j' s) (mul32 (A i' k) (B k j'))) s) (wr i' j' 0 s)) s) s)
      = if (fi ≤ i ∧ i < ff) ∧ j < n then acumular A B i j 0 n 0 else π s := by
  rw [tile_view π (fun i' j' s => forLoop 0 n (fun k s =>
        wr i' j' (add32 (rd i' j' s) (mul32 (A i' k) (B k j'))) s) (wr i' j' 0 s))
      (fun _ => acumular A B i j 0 n 0) i j fi ff 0 n ?_ s]
  · by_cases h1 : fi ≤ i ∧ i < ff <;> by_cases h2 : j < n <;> simp [h1, h2]
  · intro i' j' s _ hj'
    show π (forLoop 0 n (fun k s =>
        wr i' j' (add32 (rd i' j' s) (mul32 (A i' k) (B k j'))) s) (wr i' j' 0 s)) = _
    rw [forLoop_proj π 0 n _
      (fun k x => if i' = i ∧ j' = j then add32 x (mul32 (A i k) (B k j)) else x)]
    · rw [forLoop_cond, hwr i' j' 0 s hj']
      by_cases h : i' = i ∧ j' = j
      · simp only [h, and_self, if_true]; rfl
      · simp only [h, if_false]
    · intro k s _ _
      rw [hwr i' j' _ s hj']
      by_cases h : i' = i ∧ j' = j
      · obtain ⟨rfl, rfl⟩ := h
        simp only [and_self, if_true, hrd]
      · simp only [h, if_false]

/-- Results on every cell come from one result per cell: the kernel returns
one state. -/
theorem exists_of_cells {σ : Type} (r : Option σ) (P : Nat → Nat → σ → Prop)
    (h : ∀ i j, ∃ s', r = some s' ∧ P i j s') :
    ∃ s', r = some s' ∧ ∀ i j, P i j s' := by
  obtain ⟨s0, hs0, _⟩ := h 0 0
  refine ⟨s0, hs0, fun i j => ?_⟩
  obtain ⟨s1, hs1, hP⟩ := h i j
  rw [hs0] at hs1
  cases hs1
  exact hP

/-! ## The kernels, cell by cell -/

/-- The zeroing loop of the 2-D blocked kernels. -/
theorem memset_filas (C : Matrix) (n fi ff i j : Nat) :
    (forLoop fi ff (fun i C => memsetRow C i n) C) i j
      = if (fi ≤ i ∧ i < ff) ∧ j < n then 0 else C i j := by
  rw [forLoop_proj (fun (C : Matrix) => C i j) fi ff _
    (fun i' x => if i' = i then (if j < n then 0 else x) else x) C]
  · rw [forLoop_single]
    by_cases h1 : fi ≤ i ∧ i < ff <;> by_cases h2 : j < n <;> simp [h1, h2]
  · intro t s _ _
    show memsetRow s t n i j = _
    unfold memsetRow
    by_cases h1 : t = i
    · subst h1; simp
    · have h1' : ¬ i = t := fun h => h1 h.symm
      simp [h1, h1']

/-- The function `multiplicar_matrices_original`, cell by cell. -/
theorem original_cell (A B C : Matrix) (n i j : Nat) :
    multiplicar_matrices_original A B C n i j
      = if i < n ∧ j < n then acumular A B i j 0 n 0 else C i j := by
  have h := original_view (fun (C : Matrix) => C i j) (fun i' j' v C => C.set i' j' v)
    (fun i' j' C => C i' j') A B i j n 0 n
    (fun i' j' v s _ => matrix_set_view s i' j' v i j)
    (fun _ => rfl) C
  simp only [Nat.zero_le, true_and] at h
  exact h

/-- The function `multiplicar_matrices_hilo_original`, cell by cell. -/
theorem hilo_original_cell (datos : DatosMultiplicacion) (C : Matrix) (i j : Nat) :
    multiplicar_matrices_hilo_original datos C i j
      = if (datos.fila_inicio ≤ i ∧ i < datos.fila_fin) ∧ j < datos.n then
          acumular datos.A datos.B i j 0 datos.n 0 else C i j :=
  original_view (fun (C : Matrix) => C i j) (fun i' j' v C => C.set i' j' v)
    (fun i' j' C => C i' j') datos.A datos.B i j datos.n datos.fila_inicio datos.fila_fin
    (fun i' j' v s _ => matrix_set_view s i' j' v i j)
    (fun _ => rfl) C

/-- The function `multiplicar_matrices_proceso_original`, cell by cell. -/
theorem proceso_original_cell (A B : Matrix) (C : Buffer) (n fi ff id i j : Nat)
    (hj : j < n) :
    multiplicar_matrices_proceso_original A B C n fi ff id (i * n + j)
      = if fi ≤ i ∧ i < ff then acumular A B i j 0 n 0 else C (i * n + j) := by
  have h := original_view (fun (C : Buffer) => C (i * n + j))
    (fun i' j' v C => C.set (i' * n + j') v)
    (fun i' j' C => C (i' * n + j')) A B i j n fi ff
    (fun i' j' v s hj' => buffer_set_view s n i' j' v i j hj hj')
    (fun _ => rfl) C
  simp only [hj, and_true] at h
  exact h

/-- The function `multiplicar_matrices_optimizada`, for any block size `≥ 1`:
it returns, and cell by cell its result is the accumulation from `0` inside
`[0, n) × [0, n)` and the initial content outside. -/
theorem optimizada_bs_cells (bs : Nat) (hbs : 0 < bs) (A B C : Matrix) (n : Nat) :
    ∃ C', multiplicar_matrices_optimizada_bs bs A B C n = some C' ∧
      ∀ i j, C' i j = if i < n ∧ j < n then acumular A B i j 0 n 0 else C i j := by
  apply exists_of_cells
  intro i j
  obtain ⟨C', hC', hv⟩ := bloques_view (fun (C : Matrix) => C i j)
    (fun kk k_end i' j' C => C.set i' j' (acumular A B i' j' kk k_end (C i' j')))
    (fun k x => add32 x (mul32 (A i k) (B k j))) i j n bs hbs
    (fun kk k_end i' j' s _ => set_acumular_view A B kk k_end i j i' j' s)
    (forLoop 0 n (fun i C => memsetRow C i n) C)
  refine ⟨C', hC', ?_⟩
  rw [hv]
  show (if i < n ∧ j < n then
      acumular A B i j 0 n ((forLoop 0 n (fun i C => memsetRow C i n) C) i j)
    else (forLoop 0 n (fun i C => memsetRow C i n) C) i j) = _
  rw [memset_filas]
  by_cases h : i < n ∧ j < n
  · simp [h]
  · have h' : ¬ ((0 ≤ i ∧ i < n) ∧ j < n) := fun hh => h ⟨hh.1.2, hh.2⟩
    rw [if_neg h, if_neg h, if_neg h']

/-- The function `multiplicar_matrices_hilo_optimizada`, for any block size
`≥ 1`: it returns, and cell by cell its result is the accumulation from `0`
inside the rows `[fila_inicio, fila_fin)` and the columns `[0, n)`, and the
initial content outside. -/
theorem hilo_optimizada_bs_cells (bs : Nat) (hbs : 0 < bs) (datos : DatosMultiplicacion)
    (C : Matrix) :
    ∃ C', multiplicar_matrices_hilo_optimizada_bs bs datos C = some C' ∧
      ∀ i j, C' i j
        = if (datos.fila_inicio ≤ i ∧ i < datos.fila_fin) ∧ j < datos.n then
            acumular datos.A datos.B i j 0 datos.n 0 else C i j := by
  apply exists_of_cells
  intro i j
  obtain ⟨C', hC', hv⟩ := bloques_filas_view (fun (C : Matrix) => C i j)
    (fun kk k_end i' j' C =>
      C.set i' j' (acumular datos.A datos.B i' j' kk k_end (C i' j')))
    (fun k x => add32 x (mul32 (datos.A i k) (datos.B k j))) i j datos.n bs
    datos.fila_inicio datos.fila_fin hbs
    (fun kk k_end i' j' s _ => set_acumular_view datos.A datos.B kk k_end i j i' j' s)
    (forLoop datos.fila_inicio datos.fila_fin (fun i C => memsetRow C i datos.n) C)
  refine ⟨C', hC', ?_⟩
  rw [hv]
  show (if (datos.fila_inicio ≤ i ∧ i < datos.fila_fin) ∧ j < datos.n then
      acumular datos.A datos.B i j 0 datos.n
        ((forLoop datos.fila_inicio datos.fila_fin (fun i C => memsetRow C i datos.n) C) i j)
    else (forLoop datos.fila_inicio datos.fila_fin
        (fun i C => memsetRow C i datos.n) C) i j) = _
  rw [memset_filas]
  by_cases h : (datos.fila_inicio ≤ i ∧ i < datos.fila_fin) ∧ j < datos.n
  · simp [h]
  · rw [if_neg h, if_neg h, if_neg h]

/-- The zeroing loop nest of the flat blocked kernel. -/
theorem cero_filas_flat (C : Buffer) (n fi ff i j : Nat) (hj : j < n) :
    (forLoop fi ff (fun i C => forLoop 0 n (fun j C => C.set (i * n + j) 0) C) C) (i * n + j)
      = if fi ≤ i ∧ i < ff then 0 else C (i * n + j) := by
  have h := tile_view (fun (C : Buffer) => C (i * n + j))
    (fun i' j' C => C.set (i' * n + j') 0) (fun _ => 0) i j fi ff 0 n
    (fun i' j' s _ hj' => buffer_set_view s n i' j' 0 i j hj hj') C
  simp only [Nat.zero_le, true_and, hj, and_true] at h
  exact h

/-- The function `multiplicar_matrices_proceso_optimizada`, for any block size
`≥ 1`: it returns, and cell by cell its result is the accumulation from `0`
inside the rows `[fila_inicio, fila_fin)` and the initial content in the other
rows. -/
theorem proceso_optimizada_bs_cells (bs : Nat) (hbs : 0 < bs) (A B : Matrix) (C : Buffer)
    (n fi ff id : Nat) :
    ∃ C', multiplicar_matrices_proceso_optimizada_bs bs A B C n fi ff id = some C' ∧
      ∀ i j, j < n → C' (i * n + j)
        = if fi ≤ i ∧ i < ff then acumular A B i j 0 n 0 else C (i * n + j) := by
  apply exists_of_cells _ (fun i j (C' : Buffer) => j < n → C' (i * n + j)
        = if fi ≤ i ∧ i < ff then acumular A B i j 0 n 0 else C (i * n + j))
  intro i j
  by_cases hj : j < n
  · obtain ⟨C', hC', hv⟩ := bloques_filas_view (fun (C : Buffer) => C (i * n + j))
      (fun kk k_end i' j' C =>
        C.set (i' * n + j') (acumular A B i' j' kk k_end (C (i' * n + j'))))
      (fun k x => add32 x (mul32 (A i k) (B k j))) i j n bs fi ff hbs
      (fun kk k_end i' j' s hj' => set_acumular_flat_view A B n kk k_end i j i' j' s hj hj')
      (forLoop fi ff (fun i C => forLoop 0 n (fun j C => C.set (i * n + j) 0) C) C)
    refine ⟨C', hC', fun _ => ?_⟩
    rw [hv]
    show (if (fi ≤ i ∧ i < ff) ∧ j < n then
        acumular A B i j 0 n
          ((forLoop fi ff (fun i C => forLoop 0 n (fun j C => C.set (i * n + j) 0) C) C)
            (i * n + j))
      else (forLoop fi ff (fun i C => forLoop 0 n (fun j C => C.set (i * n + j) 0) C) C)
        (i * n + j)) = _
    rw [cero_filas_flat C n fi ff i j hj]
    by_cases h : fi ≤ i ∧ i < ff
    · simp [h, hj]
    · simp [h]
  · obtain ⟨C', hC', _⟩ := bloques_filas_view (fun (_ : Buffer) => (0 : Int))
      (fun kk k_end i' j' C =>
        C.set (i' * n + j') (acumular A B i' j' kk k_end (C (i' * n + j'))))
      (fun _ x => x) 0 0 n bs fi ff hbs
      (fun kk k_end i' j' s hj' => by
        show (0 : Int) = if i' = 0 ∧ j' = 0 then forLoop kk k_end (fun _ x => x) 0 else 0
        rw [forLoop_id, ite_self])
      (forLoop fi ff (fun i C => forLoop 0 n (fun j C => C.set (i * n + j) 0) C) C)
    exact ⟨C', hC', fun h => absurd h hj⟩

/-! ## The accumulation as a sum -/

theorem acumular_aux_eq (A B : Matrix) (i j : Nat) :
    ∀ (cnt lo : Nat) (x : Int), wrap32 x = x →
      forLoopAux (fun k sum => add32 sum (mul32 (A i k) (B k j))) cnt lo x
        = wrap32 (x + ∑ t in Finset.range cnt, A i (lo + t) * B (lo + t) j) := by
  intro cnt
  induction cnt with
  | zero => intro lo x hx; simp [forLoopAux, hx]
  | succ c ih =>
    intro lo x _
    simp only [forLoopAux]
    rw [ih (lo + 1) _ (by unfold add32; exact wrap32_wrap32 _), Finset.sum_range_succ']
    unfold add32 mul32
    rw [wrap32_add_left, wrap32_add_mid]
    have e : ∀ t, lo + 1 + t = lo + (t + 1) := fun t => by omega
    simp only [e, Nat.add_zero]
    congr 1
    ring

/-- The accumulation from `0` over `k` in `[0, n)` is the exact sum of the
products, reduced to 32 bits. -/
theorem acumular_eq_sum (A B : Matrix) (i j n : Nat) :
    acumular A B i j 0 n 0 = wrap32 (∑ k in Finset.range n, A i k * B k j) := by
  unfold acumular forLoop
  rw [acumular_aux_eq A B i j (n - 0) 0 0 wrap32_zero]
  simp

/-! ## The process kernels, offset by offset -/

theorem offset_div_mod (n p : Nat) : p / n * n + p % n = p := Nat.div_add_mod' p n

theorem forStep_zero {σ : Type} (step : Nat) (body : Nat → σ → Option σ) (s : σ) :
    forStep 0 step body s = some s := rfl

/-- With `n = 0` the blocked process kernel returns the buffer as it is. -/
theorem proceso_optimizada_bs_n0 (bs : Nat) (A B : Matrix) (C : Buffer) (fi ff id : Nat) :
    multiplicar_matrices_proceso_optimizada_bs bs A B C 0 fi ff id = some C := by
  unfold multiplicar_matrices_proceso_optimizada_bs
  show forStep 0 bs _ (forLoop fi ff (fun _ C => C) C) = some C
  rw [forStep_zero, forLoop_id]

/-- With `n = 0` the original process kernel returns the buffer as it is. -/
theorem proceso_original_n0 (A B : Matrix) (C : Buffer) (fi ff id : Nat) :
    multiplicar_matrices_proceso_original A B C 0 fi ff id = C := by
  unfold multiplicar_matrices_proceso_original
  show forLoop fi ff (fun _ C => C) C = C
  rw [forLoop_id]

/-- The function `multiplicar_matrices_proceso_original`, offset by offset. -/
theorem proceso_original_offsets (A B : Matrix) (C : Buffer) (n fi ff id p : Nat) :
    multiplicar_matrices_proceso_original A B C n fi ff id p
      = if 0 < n ∧ fi ≤ p / n ∧ p / n < ff then acumular A B (p / n) (p % n) 0 n 0
        else C p := by
  rcases Nat.eq_zero_or_pos n with h0 | hpos
  · subst h0
    rw [proceso_original_n0]
    simp
  · have h := proceso_original_cell A B C n fi ff id (p / n) (p % n) (Nat.mod_lt _ hpos)
    rw [offset_div_mod] at h
    rw [h]
    simp [hpos]

/-- The function `multiplicar_matrices_proceso_optimizada`, offset by offset,
for any block size `≥ 1`. -/
theorem proceso_optimizada_bs_offsets (bs : Nat) (hbs : 0 < bs) (A B : Matrix) (C : Buffer)
    (n fi ff id : Nat) :
    ∃ C', multiplicar_matrices_proceso_optimizada_bs bs A B C n fi ff id = some C' ∧
      ∀ p, C' p = if 0 < n ∧ fi ≤ p / n ∧ p / n < ff then
          acumular A B (p / n) (p % n) 0 n 0 else C p := by
  rcases Nat.eq_zero_or_pos n with h0 | hpos
  · subst h0
    exact ⟨C, proceso_optimizada_bs_n0 bs A B C fi ff id, fun p => by simp⟩
  · obtain ⟨C', hC', hv⟩ := proceso_optimizada_bs_cells bs hbs A B C n fi ff id
    refine ⟨C', hC', fun p => ?_⟩
    have h := hv (p / n) (p % n) (Nat.mod_lt _ hpos)
    rw [offset_div_mod] at h
    rw [h]
    simp [hpos]

/-! ## The row ranges in closed form -/

theorem forLoopAux_snoc {α : Type} (g : Nat → α → α) (cnt lo : Nat) (x : α) :
    forLoopAux g (cnt + 1) lo x = g (lo + cnt) (forLoopAux g cnt lo x) := by
  rw [forLoopAux_split g cnt 1 lo x]; rfl

theorem inicio_zero (n w : Nat) : inicio n w 0 = 0 := by simp [inicio]

theorem inicio_succ (n w t : Nat) :
    inicio n w (t + 1)
      = if t < n % w then inicio n w t + n / w + 1 else inicio n w t + n / w := by
  unfold inicio
  rw [Nat.succ_mul]
  split_ifs <;> omega

theorem inicio_total (n w : Nat) (hw : 0 < w) : inicio n w w = n := by
  unfold inicio
  have h := Nat.mod_lt n hw
  rw [Nat.min_eq_right (Nat.le_of_lt h)]
  exact Nat.div_add_mod n w

theorem inicio_le_succ (n w t : Nat) : inicio n w t ≤ inicio n w (t + 1) := by
  rw [inicio_succ]
  generalize n / w = q
  split_ifs <;> omega

theorem inicio_mono (n w : Nat) {a b : Nat} (h : a ≤ b) : inicio n w a ≤ inicio n w b := by
  induction b with
  | zero => have : a = 0 := by omega
            subst this; exact Nat.le_refl _
  | succ k ih =>
    rcases Nat.eq_or_lt_of_le h with heq | hlt
    · rw [heq]
    · exact Nat.le_trans (ih (by omega)) (inicio_le_succ n w k)

/-- The fork loop of `main` runs its children on the row ranges
`[inicio t, inicio (t + 1))`, for `t = 0, 1, ...` in this order. -/
theorem main_procesos_bucle_eq {σ : Type} (hijo : Nat → Nat → Nat → σ → σ)
    (n w : Nat) (s : σ) :
    main_procesos_bucle hijo n w s
      = (List.range w).foldl (fun s t => hijo (inicio n w t) (inicio n w (t + 1)) t s) s := by
  have key : ∀ c, forLoopAux (fun i (st : Nat × σ) =>
        ((if i < n % w then st.1 + n / w + 1 else st.1 + n / w),
          hijo st.1 (if i < n % w then st.1 + n / w + 1 else st.1 + n / w) i st.2))
        c 0 (0, s)
      = (inicio n w c, (List.range c).foldl
          (fun s t => hijo (inicio n w t) (inicio n w (t + 1)) t s) s) := by
    intro c
    induction c with
    | zero => simp [forLoopAux, inicio_zero]
    | succ k ih =>
      rw [forLoopAux_snoc, ih, List.range_succ, List.foldl_append]
      simp only [Nat.zero_add, List.foldl_cons, List.foldl_nil]
      rw [← inicio_succ]
  have h := key w
  unfold main_procesos_bucle forLoop
  exact congrArg Prod.snd h

theorem foldl_snoc_map {α : Type} (f : Nat → α) (l : List Nat) (acc : List α) :
    l.foldl (fun acc t => acc ++ [f t]) acc = acc ++ l.map f := by
  induction l generalizing acc with
  | nil => simp
  | cons a t ih => simp [ih]

/-- The row ranges handed out by the fork loop of `main`. -/
theorem main_procesos_rangos_eq (n w : Nat) :
    main_procesos_rangos n w
      = (List.range w).map (fun t => (inicio n w t, inicio n w (t + 1))) := by
  unfold main_procesos_rangos
  rw [main_procesos_bucle_eq, foldl_snoc_map]
  rfl

/-- The entries of `datos_mult` written by `main`. -/
theorem main_hilos_datos_mult_eq (A B : Matrix) (n w : Nat) :
    main_hilos_datos_mult A B n w
      = (List.range w).map (fun t =>
          ({ A := A, B := B, n := n, fila_inicio := inicio n w t,
             fila_fin := inicio n w (t + 1), hilo_id := t } : DatosMultiplicacion)) := by
  have h : main_hilos_datos_mult A B n w
      = main_procesos_bucle (fun fila_inicio fila_fin i l =>
          l ++ [({ A := A, B := B, n := n, fila_inicio := fila_inicio,
                   fila_fin := fila_fin, hilo_id := i } : DatosMultiplicacion)]) n w [] := rfl
  rw [h, main_procesos_bucle_eq, foldl_snoc_map]
  rfl

/-! ## The kernels -/

/-- C1. For every `n ≥ 1`, all `A`, `B`, every initial content of `C` and every
block size `≥ 1` (dividing `n` or not, `1`, or `≥ n`), the blocked kernel
`multiplicar_matrices_optimizada` returns and leaves in `C` exactly the matrix
that the naive triple loop `multiplicar_matrices_original` leaves, with 32-bit
wraparound arithmetic; so does the kernel with the block size 64 of the
source, and any two block sizes `≥ 1` give the same result. -/
theorem C1_optimizada_eq_original (n bs bs' : Nat) (hn : 1 ≤ n) (hbs : 1 ≤ bs)
    (hbs' : 1 ≤ bs') (A B C : Matrix) :
    multiplicar_matrices_optimizada_bs bs A B C n
        = some (multiplicar_matrices_original A B C n) ∧
      multiplicar_matrices_optimizada A B C n
        = some (multiplicar_matrices_original A B C n) ∧
      multiplicar_matrices_optimizada_bs bs A B C n
        = multiplicar_matrices_optimizada_bs bs' A B C n := by
  have key : ∀ b, 1 ≤ b → multiplicar_matrices_optimizada_bs b A B C n
      = some (multiplicar_matrices_original A B C n) := by
    intro b hb
    obtain ⟨C', hC', hv⟩ := optimizada_bs_cells b hb A B C n
    rw [hC']
    congr 1
    funext i j
    rw [hv, original_cell]
  have _ := hn
  exact ⟨key bs hbs, key 64 (by decide), by rw [key bs hbs, key bs' hbs']⟩

/-- C1, on a 100 × 100 product with the block sizes 32 and 128. -/
theorem C1_optimizada_eq_original_witness :
    (1 ≤ 100 ∧ 1 ≤ 32 ∧ 1 ≤ 128) ∧
      multiplicar_matrices_optimizada_bs 32 A_ej B_ej C_ej 100
        = some (multiplicar_matrices_original A_ej B_ej C_ej 100) ∧
      multiplicar_matrices_optimizada A_ej B_ej C_ej 100
        = some (multiplicar_matrices_original A_ej B_ej C_ej 100) ∧
      multiplicar_matrices_optimizada_bs 32 A_ej B_ej C_ej 100
        = multiplicar_matrices_optimizada_bs 128 A_ej B_ej C_ej 100 :=
  ⟨by decide, C1_optimizada_eq_original 100 32 128 (by decide) (by decide) (by decide)
    A_ej B_ej C_ej⟩

/-! ## The row partition -/

/-- The row ranges of the thread program and of the process program are the
same list, `[inicio t, inicio (t + 1))` for `t < w`. -/
theorem rangos_eq (n w : Nat) (A B : Matrix) (ps : List (Nat × Nat))
    (hps : ps = (main_hilos_datos_mult A B n w).map (fun d => (d.fila_inicio, d.fila_fin)) ∨
      ps = main_procesos_rangos n w) :
    ps = (List.range w).map (fun t => (inicio n w t, inicio n w (t + 1))) := by
  rcases hps with h | h
  · rw [h, main_hilos_datos_mult_eq, List.map_map]
    rfl
  · rw [h, main_procesos_rangos_eq]

theorem rangos_getD (n w i : Nat) (hi : i < w) :
    ((List.range w).map (fun t => (inicio n w t, inicio n w (t + 1)))).getD i (0, 0)
      = (inicio n w i, inicio n w (i + 1)) := by
  simp [List.getD_eq_getElem?_getD, List.getElem?_range, hi]

theorem inicio_find (n w r : Nat) :
    ∀ k, r < inicio n w k → ∃ i, i < k ∧ inicio n w i ≤ r ∧ r < inicio n w (i + 1) := by
  intro k
  induction k with
  | zero => intro h; rw [inicio_zero] at h; omega
  | succ k ih =>
    intro h
    by_cases hk : r < inicio n w k
    · obtain ⟨i, hi, h1, h2⟩ := ih hk
      exact ⟨i, by omega, h1, h2⟩
    · exact ⟨k, by omega, by omega, h⟩

theorem rangos_sum (n w : Nat) :
    ∀ k, ((List.range k).map (fun t => inicio n w (t + 1) - inicio n w t)).sum
      = inicio n w k := by
  intro k
  induction k with
  | zero => simp [inicio_zero]
  | succ k ih =>
    rw [List.range_succ, List.map_append, List.sum_append, ih]
    have := inicio_le_succ n w k
    simp only [List.map_cons, List.map_nil, List.sum_cons, List.sum_nil]
    omega

/-- C4. For every `n ≥ 1` and every worker count `w` with `1 ≤ w ≤ n`, the row
ranges computed by the partition loop of `main` (thread program and process
program) are `w` ranges that cover `[0, n)` exactly once: every row of
`[0, n)` lies in the range of exactly one worker index of `[0, w)`, the first
range starts at `0`, each range starts where the previous one ends, and the
last range ends at `n`. -/
theorem C4_particion_cubre (n w : Nat) (hn : 1 ≤ n) (hw1 : 1 ≤ w) (hwn : w ≤ n)
    (A B : Matrix) (ps : List (Nat × Nat))
    (hps : ps = (main_hilos_datos_mult A B n w).map (fun d => (d.fila_inicio, d.fila_fin)) ∨
      ps = main_procesos_rangos n w) :
    ps.length = w ∧
      (∀ r, r < n → ∃! i, i < w ∧ (ps.getD i (0, 0)).1 ≤ r ∧ r < (ps.getD i (0, 0)).2) ∧
      (ps.getD 0 (0, 0)).1 = 0 ∧
      (∀ i, i + 1 < w → (ps.getD (i + 1) (0, 0)).1 = (ps.getD i (0, 0)).2) ∧
      (ps.getD (w - 1) (0, 0)).2 = n := by
  have _ := hn
  have _ := hwn
  rw [rangos_eq n w A B ps hps]
  refine ⟨by simp, fun r hr => ?_, ?_, fun i hi => ?_, ?_⟩
  · obtain ⟨i, hi, h1, h2⟩ := inicio_find n w r w (by rw [inicio_total n w hw1]; exact hr)
    refine ⟨i, ⟨hi, by rw [rangos_getD n w i hi]; exact ⟨h1, h2⟩⟩, fun y hy => ?_⟩
    obtain ⟨hy, hy12⟩ := hy
    rw [rangos_getD n w y hy] at hy12
    obtain ⟨hy1, hy2⟩ := hy12
    rcases Nat.lt_trichotomy y i with hlt | heq | hgt
    · have := inicio_mono n w (Nat.succ_le_of_lt hlt)
      simp only [Nat.succ_eq_add_one] at this
      omega
    · exact heq
    · have := inicio_mono n w (Nat.succ_le_of_lt hgt)
      simp only [Nat.succ_eq_add_one] at this
      omega
  · rw [rangos_getD n w 0 hw1]
    exact inicio_zero n w
  · rw [rangos_getD n w (i + 1) hi, rangos_getD n w i (by omega)]
  · rw [rangos_getD n w (w - 1) (by omega)]
    have e : w - 1 + 1 = w := by omega
    show inicio n w (w - 1 + 1) = n
    rw [e, inicio_total n w hw1]

/-- C4, on 10 rows and 4 workers, thread program. -/
theorem C4_particion_cubre_witness :
    (1 ≤ 10 ∧ 1 ≤ 4 ∧ 4 ≤ 10) ∧
      ((main_hilos_datos_mult A_ej B_ej 10 4).map
          (fun d => (d.fila_inicio, d.fila_fin))).length = 4 ∧
      (∀ r, r < 10 → ∃! i, i < 4 ∧
        (((main_hilos_datos_mult A_ej B_ej 10 4).map
          (fun d => (d.fila_inicio, d.fila_fin))).getD i (0, 0)).1 ≤ r ∧
        r < (((main_hilos_datos_mult A_ej B_ej 10 4).map
          (fun d => (d.fila_inicio, d.fila_fin))).getD i (0, 0)).2) ∧
      (((main_hilos_datos_mult A_ej B_ej 10 4).map
          (fun d => (d.fila_inicio, d.fila_fin))).getD 0 (0, 0)).1 = 0 ∧
      (∀ i, i + 1 < 4 →
        (((main_hilos_datos_mult A_ej B_ej 10 4).map
          (fun d => (d.fila_inicio, d.fila_fin))).getD (i + 1) (0, 0)).1
        = (((main_hilos_datos_mult A_ej B_ej 10 4).map
          (fun d => (d.fila_inicio, d.fila_fin))).getD i (0, 0)).2) ∧
      (((main_hilos_datos_mult A_ej B_ej 10 4).map
          (fun d => (d.fila_inicio, d.fila_fin))).getD (4 - 1) (0, 0)).2 = 10 :=
  ⟨by decide, C4_particion_cubre 10 4 (by decide) (by decide) (by decide) A_ej B_ej _
    (Or.inl rfl)⟩

/-- C5. For every `n ≥ 1` and every worker count `w ≥ 1`, the range of worker
`i` computed by `main` (thread program and process program) has exactly
`n / w + 1` rows when `i < n % w` and exactly `n / w` rows otherwise; so a
later range is never larger than an earlier one and is at most one row
smaller, and the sizes of the `w` ranges sum to `n`. -/
theorem C5_tamanos (n w : Nat) (hn : 1 ≤ n) (hw1 : 1 ≤ w)
    (A B : Matrix) (ps : List (Nat × Nat))
    (hps : ps = (main_hilos_datos_mult A B n w).map (fun d => (d.fila_inicio, d.fila_fin)) ∨
      ps = main_procesos_rangos n w) :
    (∀ i, i < w → (ps.getD i (0, 0)).2
        = (ps.getD i (0, 0)).1 + (if i < n % w then n / w + 1 else n / w)) ∧
      (∀ i i', i ≤ i' → i' < w →
        (ps.getD i' (0, 0)).2 - (ps.getD i' (0, 0)).1
            ≤ (ps.getD i (0, 0)).2 - (ps.getD i (0, 0)).1 ∧
          (ps.getD i (0, 0)).2 - (ps.getD i (0, 0)).1
            ≤ (ps.getD i' (0, 0)).2 - (ps.getD i' (0, 0)).1 + 1) ∧
      (ps.map (fun p => p.2 - p.1)).sum = n := by
  have _ := hn
  rw [rangos_eq n w A B ps hps]
  have size : ∀ i, inicio n w (i + 1)
      = inicio n w i + (if i < n % w then n / w + 1 else n / w) := by
    intro i
    rw [inicio_succ]
    split_ifs <;> rfl
  refine ⟨fun i hi => ?_, fun i i' hii hi' => ?_, ?_⟩
  · rw [rangos_getD n w i hi]
    exact size i
  · rw [rangos_getD n w i (by omega), rangos_getD n w i' hi']
    have s1 := size i
    have s2 := size i'
    generalize inicio n w (i + 1) = a1 at s1 ⊢
    generalize inicio n w (i' + 1) = a2 at s2 ⊢
    generalize inicio n w i = b1 at s1 ⊢
    generalize inicio n w i' = b2 at s2 ⊢
    generalize n / w = q at s1 s2 ⊢
    show a2 - b2 ≤ a1 - b1 ∧ a1 - b1 ≤ a2 - b2 + 1
    split_ifs at s1 s2 <;> omega
  · rw [List.map_map]
    have h := rangos_sum n w w
    rw [inicio_total n w hw1] at h
    exact h

/-- C5, on 10 rows and 4 workers, process program. -/
theorem C5_tamanos_witness :
    (1 ≤ 10 ∧ 1 ≤ 4) ∧
      (∀ i, i < 4 → ((main_procesos_rangos 10 4).getD i (0, 0)).2
        = ((main_procesos_rangos 10 4).getD i (0, 0)).1
          + (if i < 10 % 4 then 10 / 4 + 1 else 10 / 4)) ∧
      (∀ i i', i ≤ i' → i' < 4 →
        ((main_procesos_rangos 10 4).getD i' (0, 0)).2
            - ((main_procesos_rangos 10 4).getD i' (0, 0)).1
            ≤ ((main_procesos_rangos 10 4).getD i (0, 0)).2
              - ((main_procesos_rangos 10 4).getD i (0, 0)).1 ∧
          ((main_procesos_rangos 10 4).getD i (0, 0)).2
            - ((main_procesos_rangos 10 4).getD i (0, 0)).1
            ≤ ((main_procesos_rangos 10 4).getD i' (0, 0)).2
              - ((main_procesos_rangos 10 4).getD i' (0, 0)).1 + 1) ∧
      ((main_procesos_rangos 10 4).map (fun p => p.2 - p.1)).sum = 10 :=
  ⟨by decide, C5_tamanos 10 4 (by decide) (by decide) A_ej B_ej _ (Or.inr rfl)⟩

/-- C6. For every `n ≥ 1` and every worker count `w` with `1 ≤ w ≤ n`, the row
range that `main` computes for each worker index of `[0, w)` is non-empty:
`fila_inicio < fila_fin` (thread program and process program). -/
theorem C6_rangos_no_vacios (n w : Nat) (hn : 1 ≤ n) (hw1 : 1 ≤ w) (hwn : w ≤ n)
    (A B : Matrix) (ps : List (Nat × Nat))
    (hps : ps = (main_hilos_datos_mult A B n w).map (fun d => (d.fila_inicio, d.fila_fin)) ∨
      ps = main_procesos_rangos n w) :
    ∀ i, i < w → (ps.getD i (0, 0)).1 < (ps.getD i (0, 0)).2 := by
  have _ := hn
  rw [rangos_eq n w A B ps hps]
  intro i hi
  rw [rangos_getD n w i hi]
  show inicio n w i < inicio n w (i + 1)
  rw [inicio_succ]
  have hq : 0 < n / w := Nat.div_pos hwn hw1
  split_ifs <;> omega

/-- C6, on 10 rows and 4 workers, thread program. -/
theorem C6_rangos_no_vacios_witness :
    (1 ≤ 10 ∧ 1 ≤ 4 ∧ 4 ≤ 10) ∧
      ∀ i, i < 4 →
        (((main_hilos_datos_mult A_ej B_ej 10 4).map
          (fun d => (d.fila_inicio, d.fila_fin))).getD i (0, 0)).1
        < (((main_hilos_datos_mult A_ej B_ej 10 4).map
          (fun d => (d.fila_inicio, d.fila_fin))).getD i (0, 0)).2 :=
  ⟨by decide, C6_rangos_no_vacios 10 4 (by decide) (by decide) (by decide) A_ej B_ej _
    (Or.inl rfl)⟩

/-! ## All workers against one result -/

/-- The threads created for the first `k` ranges, run on one result matrix:
they all return, and they leave the product in the rows below `inicio k` and
the initial content elsewhere. -/
theorem lanzar_cells (hilo : DatosMultiplicacion → Matrix → Option Matrix)
    (hspec : ∀ d C, ∃ C', hilo d C = some C' ∧
      ∀ i j, C' i j = if (d.fila_inicio ≤ i ∧ i < d.fila_fin) ∧ j < d.n then
        acumular d.A d.B i j 0 d.n 0 else C i j)
    (A B : Matrix) (n w : Nat) (C : Matrix) :
    ∀ k, ∃ C', main_hilos_lanzar hilo ((List.range k).map (fun t =>
          ({ A := A, B := B, n := n, fila_inicio := inicio n w t,
             fila_fin := inicio n w (t + 1), hilo_id := t } : DatosMultiplicacion))) C
        = some C' ∧
      ∀ i j, C' i j
        = if i < inicio n w k ∧ j < n then acumular A B i j 0 n 0 else C i j := by
  intro k
  induction k with
  | zero =>
    refine ⟨C, rfl, fun i j => ?_⟩
    rw [inicio_zero, if_neg (by omega)]
  | succ k ih =>
    obtain ⟨C1, hC1, hv1⟩ := ih
    obtain ⟨C2, hC2, hv2⟩ := hspec
      { A := A, B := B, n := n, fila_inicio := inicio n w k,
        fila_fin := inicio n w (k + 1), hilo_id := k } C1
    unfold main_hilos_lanzar at hC1 ⊢
    refine ⟨C2, ?_, fun i j => ?_⟩
    · rw [List.range_succ, List.map_append, List.foldlM_append, hC1]
      simpa using hC2
    · rw [hv2, hv1]
      have hm := inicio_le_succ n w k
      show (if (inicio n w k ≤ i ∧ i < inicio n w (k + 1)) ∧ j < n then
          acumular A B i j 0 n 0
        else if i < inicio n w k ∧ j < n then acumular A B i j 0 n 0 else C i j) = _
      by_cases hj : j < n
      · by_cases h1 : i < inicio n w k
        · have h2 : i < inicio n w (k + 1) := by omega
          have h3 : ¬ (inicio n w k ≤ i ∧ i < inicio n w (k + 1)) := by omega
          simp [hj, h1, h2, h3]
        · by_cases h2 : i < inicio n w (k + 1)
          · have h3 : inicio n w k ≤ i := by omega
            simp [hj, h2, h3]
          · simp [hj, h1, h2]
      · simp [hj]

/-- The children forked for the first `k` ranges with the original kernel, run
on one result buffer. -/
theorem bucle_original_offsets (A B : Matrix) (F : Buffer) (n w : Nat) :
    ∀ k p, ((List.range k).foldl (fun C t =>
        multiplicar_matrices_proceso_original A B C n (inicio n w t) (inicio n w (t + 1)) t)
        F) p
      = if 0 < n ∧ p / n < inicio n w k then acumular A B (p / n) (p % n) 0 n 0
        else F p := by
  intro k
  induction k with
  | zero =>
    intro p
    rw [inicio_zero, if_neg (fun h => Nat.not_lt_zero _ h.2)]
    rfl
  | succ k ih =>
    intro p
    rw [List.range_succ, List.foldl_append]
    simp only [List.foldl_cons, List.foldl_nil]
    rw [proceso_original_offsets, ih]
    have hm := inicio_le_succ n w k
    by_cases hn : 0 < n
    · by_cases h1 : p / n < inicio n w k
      · have h2 : p / n < inicio n w (k + 1) := by omega
        have h3 : ¬ (inicio n w k ≤ p / n ∧ p / n < inicio n w (k + 1)) := by omega
        simp [hn, h1, h2, h3]
      · by_cases h2 : p / n < inicio n w (k + 1)
        · have h3 : inicio n w k ≤ p / n := by omega
          simp [hn, h2, h3]
        · simp [hn, h1, h2]
    · simp [hn]

/-- The children forked for the first `k` ranges with the blocked kernel, run
on one result buffer: they all return. -/
theorem bucle_optimizada_offsets (A B : Matrix) (F : Buffer) (n w : Nat) :
    ∀ k, ∃ F', (List.range k).foldl (fun (C : Option Buffer) t =>
          C.bind (fun C => multiplicar_matrices_proceso_optimizada A B C n
            (inicio n w t) (inicio n w (t + 1)) t)) (some F) = some F' ∧
      ∀ p, F' p = if 0 < n ∧ p / n < inicio n w k then
          acumular A B (p / n) (p % n) 0 n 0 else F p := by
  intro k
  induction k with
  | zero =>
    refine ⟨F, rfl, fun p => ?_⟩
    rw [inicio_zero, if_neg (fun h => Nat.not_lt_zero _ h.2)]
  | succ k ih =>
    obtain ⟨F1, hF1, hv1⟩ := ih
    obtain ⟨F2, hF2, hv2⟩ := proceso_optimizada_bs_offsets 32 (by decide) A B F1 n
      (inicio n w k) (inicio n w (k + 1)) k
    refine ⟨F2, ?_, fun p => ?_⟩
    · rw [List.range_succ, List.foldl_append, hF1]
      simp only [List.foldl_cons, List.foldl_nil, Option.some_bind]
      exact hF2
    · rw [hv2, hv1]
      have hm := inicio_le_succ n w k
      by_cases hn : 0 < n
      · by_cases h1 : p / n < inicio n w k
        · have h2 : p / n < inicio n w (k + 1) := by omega
          have h3 : ¬ (inicio n w k ≤ p / n ∧ p / n < inicio n w (k + 1)) := by omega
          simp [hn, h1, h2, h3]
        · by_cases h2 : p / n < inicio n w (k + 1)
          · have h3 : inicio n w k ≤ p / n := by omega
            simp [hn, h2, h3]
          · simp [hn, h1, h2]
      · simp [hn]

/-! ## The worker count -/

/-- C9. In the thread program and in the process program, for every parsed
`n ≥ 1` and worker count `w ≥ 1` (two arguments given), `main` goes on to the
partition with the worker count `min w n`: a count above `n` becomes `n` and
is not rejected, a count of at most `n` is kept. -/
theorem C9_ajuste_a_n (n w : Int) (hn : 1 ≤ n) (hw : 1 ≤ w) :
    main_hilos_num_hilos 3 n w = Except.ok (min w n) ∧
      main_procesos_num_procesos 3 n w = Except.ok (min w n) ∧
      (n < w → main_hilos_num_hilos 3 n w = Except.ok n ∧
        main_procesos_num_procesos 3 n w = Except.ok n) ∧
      (w ≤ n → main_hilos_num_hilos 3 n w = Except.ok w ∧
        main_procesos_num_procesos 3 n w = Except.ok w) := by
  have h0 : ¬ (n ≤ 0 ∨ w ≤ 0) := by omega
  have e1 : main_hilos_num_hilos 3 n w = Except.ok (if w > n then n else w) := by
    unfold main_hilos_num_hilos
    rw [if_neg (by decide), if_neg h0]
  have e2 : main_procesos_num_procesos 3 n w = Except.ok (if w > n then n else w) := by
    unfold main_procesos_num_procesos
    rw [if_neg (by decide), if_neg h0]
  rw [e1, e2]
  refine ⟨?_, ?_, fun h => ?_, fun h => ?_⟩
  · congr 1; split_ifs <;> omega
  · congr 1; split_ifs <;> omega
  · rw [if_pos h]; exact ⟨rfl, rfl⟩
  · rw [if_neg (by omega)]; exact ⟨rfl, rfl⟩

/-- C9, on `n = 3` and a requested worker count of `4`. -/
theorem C9_ajuste_a_n_witness :
    ((1 : Int) ≤ 3 ∧ (1 : Int) ≤ 4) ∧
      main_hilos_num_hilos 3 3 4 = Except.ok (min 4 3) ∧
      main_procesos_num_procesos 3 3 4 = Except.ok (min 4 3) ∧
      ((3 : Int) < 4 → main_hilos_num_hilos 3 3 4 = Except.ok 3 ∧
        main_procesos_num_procesos 3 3 4 = Except.ok 3) ∧
      ((4 : Int) ≤ 3 → main_hilos_num_hilos 3 3 4 = Except.ok 4 ∧
        main_procesos_num_procesos 3 3 4 = Except.ok 4) :=
  ⟨by decide, C9_ajuste_a_n 3 4 (by decide) (by decide)⟩

/-- C10, as stated, fails: with `n = 3` and `num_hilos = 4 > n`, the OpenMP
program passes `4`, not `3`, to `omp_set_num_threads` and divides the speedup
by `4`. -/
theorem C10_counterexample :
    (1 : Int) ≤ 3 ∧ (3 : Int) < 4 ∧
      main_openmp_num_hilos 3 3 4 = Except.ok (4, 4) ∧
      main_openmp_num_hilos 3 3 4 ≠ Except.ok (3, 3) := by
  refine ⟨by decide, by decide, rfl, ?_⟩
  intro h
  have h' : main_openmp_num_hilos 3 3 4 = Except.ok (4, 4) := rfl
  rw [h'] at h
  injection h with h
  injection h with h1 _
  exact absurd h1 (by decide)

/-- C10, amended. In the OpenMP program the worker count is not adjusted to the
matrix size: for every parsed `n ≥ 1` and `num_hilos ≥ 1` (two arguments
given), also when `num_hilos > n`, the count passed to `omp_set_num_threads`
and the divisor of the efficiency are both `num_hilos` as parsed. -/
theorem C10_openmp_sin_ajuste (n num_hilos : Int) (hn : 1 ≤ n) (hw : 1 ≤ num_hilos) :
    main_openmp_num_hilos 3 n num_hilos = Except.ok (num_hilos, num_hilos) := by
  have h0 : ¬ (n ≤ 0 ∨ num_hilos ≤ 0) := by omega
  unfold main_openmp_num_hilos
  rw [if_neg (by decide), if_neg h0]

/-- C10 amended, on `n = 3` and `num_hilos = 4`. -/
theorem C10_openmp_sin_ajuste_witness :
    ((1 : Int) ≤ 3 ∧ (1 : Int) ≤ 4) ∧ main_openmp_num_hilos 3 3 4 = Except.ok (4, 4) :=
  ⟨by decide, C10_openmp_sin_ajuste 3 4 (by decide) (by decide)⟩

/-! ## The order of the workers -/

theorem foldl_bind_none {α β : Type} (f : β → α → Option β) (l : List α) :
    l.foldl (fun (o : Option β) d => o.bind (fun b => f b d)) none = none := by
  induction l with
  | nil => rfl
  | cons a t ih => simpa using ih

/-- The threads of `main`, run one after the other, as a fold over the
optional result. -/
theorem main_hilos_lanzar_eq_foldl (hilo : DatosMultiplicacion → Matrix → Option Matrix)
    (l : List DatosMultiplicacion) (C : Matrix) :
    main_hilos_lanzar hilo l C
      = l.foldl (fun (o : Option Matrix) d => o.bind (fun C => hilo d C)) (some C) := by
  unfold main_hilos_lanzar
  induction l generalizing C with
  | nil => rfl
  | cons d t ih =>
    rw [List.foldlM_cons, List.foldl_cons]
    cases h : hilo d C with
    | none =>
      simp only [Option.some_bind, h]
      rw [foldl_bind_none]
      rfl
    | some C' =>
      simp only [Option.some_bind, h]
      exact ih C'

/-- Two runs of the original thread kernel with the same `A`, `B` and `n`
commute. -/
theorem hilo_original_conmuta (d1 d2 : DatosMultiplicacion) (hA : d1.A = d2.A)
    (hB : d1.B = d2.B) (hn : d1.n = d2.n) (C : Matrix) :
    multiplicar_matrices_hilo_original d2 (multiplicar_matrices_hilo_original d1 C)
      = multiplicar_matrices_hilo_original d1 (multiplicar_matrices_hilo_original d2 C) := by
  funext i j
  simp only [hilo_original_cell, hA, hB, hn]
  split_ifs <;> rfl

/-- Two runs of the blocked thread kernel with the same `A`, `B` and `n`
return and commute. -/
theorem hilo_optimizada_conmuta (d1 d2 : DatosMultiplicacion) (hA : d1.A = d2.A)
    (hB : d1.B = d2.B) (hn : d1.n = d2.n) (C : Matrix) :
    ∃ R, (multiplicar_matrices_hilo_optimizada d1 C).bind
          (multiplicar_matrices_hilo_optimizada d2) = some R ∧
      (multiplicar_matrices_hilo_optimizada d2 C).bind
          (multiplicar_matrices_hilo_optimizada d1) = some R := by
  obtain ⟨C1, hC1, hv1⟩ := hilo_optimizada_bs_cells 32 (by decide) d1 C
  obtain ⟨C2, hC2, hv2⟩ := hilo_optimizada_bs_cells 32 (by decide) d2 C
  obtain ⟨C12, hC12, hv12⟩ := hilo_optimizada_bs_cells 32 (by decide) d2 C1
  obtain ⟨C21, hC21, hv21⟩ := hilo_optimizada_bs_cells 32 (by decide) d1 C2
  have e : C21 = C12 := by
    funext i j
    simp only [hv21, hv12, hv1, hv2, hA, hB, hn]
    split_ifs <;> rfl
  refine ⟨C12, ?_, ?_⟩
  · unfold multiplicar_matrices_hilo_optimizada
    rw [hC1, Option.some_bind, hC12]
  · unfold multiplicar_matrices_hilo_optimizada
    rw [hC2, Option.some_bind, hC21, e]

/-- Two runs of the original process kernel commute. -/
theorem proceso_original_conmuta (A B : Matrix) (n a1 b1 a2 b2 id1 id2 : Nat) (F : Buffer) :
    multiplicar_matrices_proceso_original A B
        (multiplicar_matrices_proceso_original A B F n a1 b1 id1) n a2 b2 id2
      = multiplicar_matrices_proceso_original A B
        (multiplicar_matrices_proceso_original A B F n a2 b2 id2) n a1 b1 id1 := by
  funext p
  simp only [proceso_original_offsets]
  split_ifs <;> rfl

/-- Two runs of the blocked process kernel return and commute. -/
theorem proceso_optimizada_conmuta (A B : Matrix) (n a1 b1 a2 b2 id1 id2 : Nat)
    (F : Buffer) :
    ∃ R, (multiplicar_matrices_proceso_optimizada A B F n a1 b1 id1).bind
          (fun F => multiplicar_matrices_proceso_optimizada A B F n a2 b2 id2) = some R ∧
      (multiplicar_matrices_proceso_optimizada A B F n a2 b2 id2).bind
          (fun F => multiplicar_matrices_proceso_optimizada A B F n a1 b1 id1) = some R := by
  obtain ⟨F1, hF1, hv1⟩ := proceso_optimizada_bs_offsets 32 (by decide) A B F n a1 b1 id1
  obtain ⟨F2, hF2, hv2⟩ := proceso_optimizada_bs_offsets 32 (by decide) A B F n a2 b2 id2
  obtain ⟨F12, hF12, hv12⟩ := proceso_optimizada_bs_offsets 32 (by decide) A B F1 n a2 b2 id2
  obtain ⟨F21, hF21, hv21⟩ := proceso_optimizada_bs_offsets 32 (by decide) A B F2 n a1 b1 id1
  have e : F21 = F12 := by
    funext p
    simp only [hv21, hv12, hv1, hv2]
    split_ifs <;> rfl
  refine ⟨F12, ?_, ?_⟩
  · unfold multiplicar_matrices_proceso_optimizada
    rw [hF1, Option.some_bind, hF12]
  · unfold multiplicar_matrices_proceso_optimizada
    rw [hF2, Option.some_bind, hF21, e]

/-- The entries of `datos_mult` all carry the `A`, `B` and `n` of `main`. -/
theorem main_hilos_datos_mult_mem (A B : Matrix) (n w : Nat) (d : DatosMultiplicacion)
    (hd : d ∈ main_hilos_datos_mult A B n w) : d.A = A ∧ d.B = B ∧ d.n = n := by
  rw [main_hilos_datos_mult_eq, List.mem_map] at hd
  obtain ⟨t, _, rfl⟩ := hd
  exact ⟨rfl, rfl, rfl⟩

/-- The threads of `main` give the same result in any order of execution. -/
theorem main_hilos_lanzar_perm (hilo : DatosMultiplicacion → Matrix → Option Matrix)
    (hcom : ∀ d1 d2 : DatosMultiplicacion, d1.A = d2.A → d1.B = d2.B → d1.n = d2.n →
      ∀ C, (hilo d1 C).bind (hilo d2) = (hilo d2 C).bind (hilo d1))
    (A B : Matrix) (n w : Nat) (orden : List DatosMultiplicacion)
    (hp : orden.Perm (main_hilos_datos_mult A B n w)) (C : Matrix) :
    main_hilos_lanzar hilo orden C
      = main_hilos_lanzar hilo (main_hilos_datos_mult A B n w) C := by
  rw [main_hilos_lanzar_eq_foldl, main_hilos_lanzar_eq_foldl]
  refine (List.Perm.foldl_eq' hp.symm ?_ (some C)).symm
  intro x hx y hy z
  obtain ⟨hxA, hxB, hxn⟩ := main_hilos_datos_mult_mem A B n w x hx
  obtain ⟨hyA, hyB, hyn⟩ := main_hilos_datos_mult_mem A B n w y hy
  cases z with
  | none => rfl
  | some C =>
    simp only [Option.some_bind]
    exact hcom x y (hxA.trans hyA.symm) (hxB.trans hyB.symm) (hxn.trans hyn.symm) C

/-- The first fork loop of `main` as a fold over the row ranges. -/
theorem main_procesos_original_eq_foldl (A B : Matrix) (F : Buffer) (n w : Nat) :
    main_procesos_original A B F n w
      = (main_procesos_rangos n w).foldl (fun C r =>
          multiplicar_matrices_proceso_original A B C n r.1 r.2 0) F := by
  unfold main_procesos_original
  rw [main_procesos_bucle_eq, main_procesos_rangos_eq, List.foldl_map]
  rfl

/-- The second fork loop of `main` as a fold over the row ranges. -/
theorem main_procesos_optimizada_eq_foldl (A B : Matrix) (F : Buffer) (n w : Nat) :
    main_procesos_optimizada A B F n w
      = (main_procesos_rangos n w).foldl (fun (C : Option Buffer) r =>
          C.bind (fun C => multiplicar_matrices_proceso_optimizada A B C n r.1 r.2 0))
          (some F) := by
  unfold main_procesos_optimizada
  rw [main_procesos_bucle_eq, main_procesos_rangos_eq, List.foldl_map]
  rfl

/-! ## The worked examples -/

/-- C12. For `n = 2`, `A = [[1, 2], [3, 4]]` and `B = [[5, 6], [7, 8]]`, and every
initial content of the result, the result is `[[19, 22], [43, 50]]` for the
naive kernel, for the blocked kernel, and for the original and blocked thread
kernels run over the partitions for 1 and for 2 workers; the original and
blocked process kernels run over the same partitions leave
`[19, 22, 43, 50]` in the flat buffer. -/
theorem C12_ejemplo_2x2 (C : Matrix) (F : Buffer) :
    es_19_22_43_50 (multiplicar_matrices_original A_2x2 B_2x2 C 2) ∧
    (∃ C', multiplicar_matrices_optimizada A_2x2 B_2x2 C 2 = some C' ∧ es_19_22_43_50 C') ∧
    (∃ C', main_hilos_lanzar
        (fun datos C => some (multiplicar_matrices_hilo_original datos C))
        (main_hilos_datos_mult A_2x2 B_2x2 2 1) C = some C' ∧ es_19_22_43_50 C') ∧
    (∃ C', main_hilos_lanzar
        (fun datos C => some (multiplicar_matrices_hilo_original datos C))
        (main_hilos_datos_mult A_2x2 B_2x2 2 2) C = some C' ∧ es_19_22_43_50 C') ∧
    (∃ C', main_hilos_lanzar multiplicar_matrices_hilo_optimizada
        (main_hilos_datos_mult A_2x2 B_2x2 2 1) C = some C' ∧ es_19_22_43_50 C') ∧
    (∃ C', main_hilos_lanzar multiplicar_matrices_hilo_optimizada
        (main_hilos_datos_mult A_2x2 B_2x2 2 2) C = some C' ∧ es_19_22_43_50 C') ∧
    es_19_22_43_50_plano (main_procesos_original A_2x2 B_2x2 F 2 1) ∧
    es_19_22_43_50_plano (main_procesos_original A_2x2 B_2x2 F 2 2) ∧
    (∃ F', main_procesos_optimizada A_2x2 B_2x2 F 2 1 = some F' ∧
      es_19_22_43_50_plano F') ∧
    (∃ F', main_procesos_optimizada A_2x2 B_2x2 F 2 2 = some F' ∧
      es_19_22_43_50_plano F') :=
  ⟨⟨rfl, rfl, rfl, rfl⟩, ⟨_, rfl, rfl, rfl, rfl, rfl⟩, ⟨_, rfl, rfl, rfl, rfl, rfl⟩,
    ⟨_, rfl, rfl, rfl, rfl, rfl⟩, ⟨_, rfl, rfl, rfl, rfl, rfl⟩, ⟨_, rfl, rfl, rfl, rfl, rfl⟩,
    ⟨rfl, rfl, rfl, rfl⟩, ⟨rfl, rfl, rfl, rfl⟩, ⟨_, rfl, rfl, rfl, rfl, rfl⟩,
    ⟨_, rfl, rfl, rfl, rfl, rfl⟩⟩

/-- C13. For `n = 3` and a requested worker count of `4`, the thread program
and the process program go on with `3` workers, and the partition loop for
`n = 3` and `3` workers computes exactly the three one-row ranges `[0, 1)`,
`[1, 2)`, `[2, 3)`. -/
theorem C13_ejemplo_3_4 (A B : Matrix) :
    main_hilos_num_hilos 3 3 4 = Except.ok 3 ∧
    main_procesos_num_procesos 3 3 4 = Except.ok 3 ∧
    (main_hilos_datos_mult A B 3 3).map (fun d => (d.fila_inicio, d.fila_fin))
      = [(0, 1), (1, 2), (2, 3)] ∧
    (main_hilos_datos_mult A B 3 3).map (fun d => d.hilo_id) = [0, 1, 2] ∧
    main_procesos_rangos 3 3 = [(0, 1), (1, 2), (2, 3)] :=
  ⟨rfl, rfl, rfl, rfl, rfl⟩

/-! ## The generators -/

theorem forLoopAux_draw {α S : Type} (F : S → S) (h : S → α) (c : Nat) :
    ∀ (cnt lo : Nat) (v : α) (s : S),
      forLoopAux (fun t (x : α × S) => (if t = c then h x.2 else x.1, F x.2)) cnt lo (v, s)
        = (if lo ≤ c ∧ c < lo + cnt then h (F^[c - lo] s) else v, F^[cnt] s) := by
  intro cnt
  induction cnt with
  | zero =>
    intro lo v s
    have hn : ¬ (lo ≤ c ∧ c < lo + 0) := by omega
    rw [if_neg hn]; rfl
  | succ k ih =>
    intro lo v s
    simp only [forLoopAux]
    rw [ih (lo + 1), Function.iterate_succ_apply]
    by_cases hc : lo = c
    · subst hc
      have hn : ¬ (lo + 1 ≤ lo ∧ lo < lo + 1 + k) := by omega
      have hp : lo ≤ lo ∧ lo < lo + (k + 1) := by omega
      rw [if_neg hn, if_pos hp, if_pos rfl, Nat.sub_self]
      rfl
    · rw [if_neg hc]
      by_cases hr : lo ≤ c ∧ c < lo + (k + 1)
      · have hr2 : lo + 1 ≤ c ∧ c < lo + 1 + k := by omega
        have e : c - lo = (c - (lo + 1)) + 1 := by omega
        rw [if_pos hr, if_pos hr2, e, Function.iterate_succ_apply]
      · have hr2 : ¬ (lo + 1 ≤ c ∧ c < lo + 1 + k) := by omega
        rw [if_neg hr, if_neg hr2]

/-- A loop that draws from a generator state at every iteration and keeps the
draw of iteration `c` only: the value kept is the draw after `c - lo` steps of
the state. -/
theorem forLoop_draw {α S : Type} (F : S → S) (h : S → α) (c lo hi : Nat) (v : α) (s : S) :
    forLoop lo hi (fun t (x : α × S) => (if t = c then h x.2 else x.1, F x.2)) (v, s)
      = (if lo ≤ c ∧ c < hi then h (F^[c - lo] s) else v, F^[hi - lo] s) := by
  unfold forLoop
  rw [forLoopAux_draw]
  by_cases hr : lo ≤ c ∧ c < hi
  · have hr2 : lo ≤ c ∧ c < lo + (hi - lo) := by omega
    rw [if_pos hr, if_pos hr2]
  · have hr2 : ¬ (lo ≤ c ∧ c < lo + (hi - lo)) := by omega
    rw [if_neg hr, if_neg hr2]

/-- A loop that draws from a generator state at every iteration and keeps no
draw. -/
theorem forLoop_advance {α S : Type} (F : S → S) (lo hi : Nat) (v : α) (s : S) :
    forLoop lo hi (fun _ (x : α × S) => (x.1, F x.2)) (v, s) = (v, F^[hi - lo] s) := by
  unfold forLoop
  generalize hi - lo = cnt
  induction cnt generalizing lo s with
  | zero => rfl
  | succ k ih =>
    simp only [forLoopAux]
    rw [ih, Function.iterate_succ_apply]

/-- The filling loop nest of the generators, seen from one cell `(i, j)` and
the generator state: each cell of `[0, n) × [0, n)` ends with a draw `h` from
a state reached from the first one, whatever it held before, and the other
cells are left alone. -/
theorem llenar_view {σ α S : Type} (val : σ → α) (est : σ → S) (upd : Nat → Nat → σ → σ)
    (F : S → S) (h : S → α) (i j n : Nat)
    (hval : ∀ i' j' s, val (upd i' j' s) = if i' = i ∧ j' = j then h (est s) else val s)
    (hest : ∀ i' j' s, est (upd i' j' s) = F (est s)) (s : σ) :
    val (forLoop 0 n (fun i' s => forLoop 0 n (fun j' s => upd i' j' s) s) s)
      = if i < n ∧ j < n then h (F^[j] ((F^[n])^[i] (est s))) else val s := by
  have inner : ∀ i' s, (fun s => (val s, est s)) (forLoop 0 n (fun j' s => upd i' j' s) s)
      = (if i' = i then (if j < n then h (F^[j] (est s)) else val s) else val s,
          F^[n] (est s)) := by
    intro i' s
    have key := forLoop_proj (fun s => (val s, est s)) 0 n (fun j' s => upd i' j' s)
      (fun j' (x : α × S) => (if i' = i ∧ j' = j then h x.2 else x.1, F x.2)) s
      (fun t s _ _ => by
        show (val (upd i' t s), est (upd i' t s)) = _
        rw [hval, hest])
    refine key.trans ?_
    show forLoop 0 n _ (val s, est s) = _
    by_cases hi : i' = i
    · simp only [hi, true_and]
      rw [forLoop_draw]
      simp
    · simp only [hi, false_and, if_false]
      rw [forLoop_advance]
      simp
  have outer := forLoop_proj (fun s => (val s, est s)) 0 n
    (fun i' s => forLoop 0 n (fun j' s => upd i' j' s) s)
    (fun i' (x : α × S) =>
      (if i' = i then (if j < n then h (F^[j] x.2) else x.1) else x.1, F^[n] x.2)) s
    (fun t s _ _ => inner t s)
  have hfst := congrArg Prod.fst outer
  refine hfst.trans ?_
  show (forLoop 0 n _ (val s, est s)).1 = _
  by_cases hj : j < n
  · simp only [hj, if_true, and_true]
    rw [forLoop_draw (F^[n]) (fun s => h (F^[j] s)) i 0 n]
    simp
  · simp only [hj, if_false, ite_self, and_false]
    rw [forLoop_advance]

/-- A non-negative value reduced by `% 100` lies in `[0, 100)`. -/
theorem mod_c_rango (v : Int) (hv : 0 ≤ v) : 0 ≤ mod_c v 100 ∧ mod_c v 100 < 100 :=
  ⟨Int.tmod_nonneg 100 hv, Int.tmod_lt_of_pos v (by decide)⟩

/-- The function `generar_matriz_aleatoria`, cell by cell. -/
theorem generar_matriz_aleatoria_cell (rand : Nat → Int) (M : Matrix) (n c i j : Nat) :
    (generar_matriz_aleatoria rand M n c).1 i j
      = if i < n ∧ j < n then
          mod_c (rand ((fun k => k + 1)^[j] (((fun k => k + 1)^[n])^[i] c))) 100
        else M i j :=
  llenar_view (fun (st : Matrix × Nat) => st.1 i j) (fun st => st.2)
    (fun i' j' st => (st.1.set i' j' (mod_c (rand st.2) 100), st.2 + 1))
    (fun k => k + 1) (fun k => mod_c (rand k) 100) i j n
    (fun i' j' st => matrix_set_view st.1 i' j' _ i j) (fun _ _ _ => rfl) (M, c)

/-- The function `generar_matriz_aleatoria_hilo`, cell by cell. -/
theorem generar_matriz_aleatoria_hilo_cell (rand_r : Nat → Nat × Int) (time : Int)
    (datos : DatosMatriz) (M : Matrix) (i j : Nat) :
    generar_matriz_aleatoria_hilo rand_r time datos M i j
      = if i < datos.n ∧ j < datos.n then
          mod_c (rand_r ((fun s => (rand_r s).1)^[j] (((fun s => (rand_r s).1)^[datos.n])^[i]
            ((time + (datos.hilo_id : Int) * 1000) % 4294967296).toNat))).2 100
        else M i j :=
  llenar_view (fun (st : Matrix × Nat) => st.1 i j) (fun st => st.2)
    (fun i' j' st => (st.1.set i' j' (mod_c (rand_r st.2).2 100), (rand_r st.2).1))
    (fun s => (rand_r s).1) (fun s => mod_c (rand_r s).2 100) i j datos.n
    (fun i' j' st => matrix_set_view st.1 i' j' _ i j) (fun _ _ _ => rfl)
    (M, ((time + (datos.hilo_id : Int) * 1000) % 4294967296).toNat)

/-- The generating loop of `main` in the process program, cell by cell of
`matriz_A`. -/
theorem main_procesos_generar_cell_A (rand : Nat → Int) (M N : Matrix) (n c i j : Nat) :
    (main_procesos_generar rand M N n c).1 i j
      = if i < n ∧ j < n then
          mod_c (rand ((fun k => k + 1 + 1)^[j] (((fun k => k + 1 + 1)^[n])^[i] c))) 100
        else M i j :=
  llenar_view (fun (st : Matrix × Matrix × Nat) => st.1 i j) (fun st => st.2.2)
    (fun i' j' st => (st.1.set i' j' (mod_c (rand st.2.2) 100),
      st.2.1.set i' j' (mod_c (rand (st.2.2 + 1)) 100), st.2.2 + 1 + 1))
    (fun k => k + 1 + 1) (fun k => mod_c (rand k) 100) i j n
    (fun i' j' st => matrix_set_view st.1 i' j' _ i j) (fun _ _ _ => rfl) (M, N, c)

/-- The generating loop of `main` in the process program, cell by cell of
`matriz_B`. -/
theorem main_procesos_generar_cell_B (rand : Nat → Int) (M N : Matrix) (n c i j : Nat) :
    (main_procesos_generar rand M N n c).2.1 i j
      = if i < n ∧ j < n then
          mod_c (rand ((fun k => k + 1 + 1)^[j] (((fun k => k + 1 + 1)^[n])^[i] c) + 1)) 100
        else N i j :=
  llenar_view (fun (st : Matrix × Matrix × Nat) => st.2.1 i j) (fun st => st.2.2)
    (fun i' j' st => (st.1.set i' j' (mod_c (rand st.2.2) 100),
      st.2.1.set i' j' (mod_c (rand (st.2.2 + 1)) 100), st.2.2 + 1 + 1))
    (fun k => k + 1 + 1) (fun k => mod_c (rand (k + 1)) 100) i j n
    (fun i' j' st => matrix_set_view st.2.1 i' j' _ i j) (fun _ _ _ => rfl) (M, N, c)

/-- C17. For every `n ≥ 1` and every stream of non-negative outputs of `rand`
and of `rand_r`, after the matrix generator has run, every cell of
`[0, n) × [0, n)` has been written (it holds the same value whatever the
matrix held before) and holds a value `v` with `0 ≤ v < 100`; this for
`generar_matriz_aleatoria`, for `generar_matriz_aleatoria_hilo` and for both
matrices of the generating loop of `main` in the process program. -/
theorem C17_generador_en_rango (n i j : Nat) (hn : 1 ≤ n) (hi : i < n) (hj : j < n)
    (rand : Nat → Int) (rand_r : Nat → Nat × Int) (hrand : ∀ k, 0 ≤ rand k)
    (hrand_r : ∀ s, 0 ≤ (rand_r s).2) (time : Int) (hilo_id llamadas : Nat) (nombre : Char)
    (M M' N N' : Matrix) :
    (0 ≤ (generar_matriz_aleatoria rand M n llamadas).1 i j ∧
      (generar_matriz_aleatoria rand M n llamadas).1 i j < 100 ∧
      (generar_matriz_aleatoria rand M n llamadas).1 i j
        = (generar_matriz_aleatoria rand M' n llamadas).1 i j) ∧
    (0 ≤ generar_matriz_aleatoria_hilo rand_r time
          { n := n, hilo_id := hilo_id, nombre := nombre } M i j ∧
      generar_matriz_aleatoria_hilo rand_r time
          { n := n, hilo_id := hilo_id, nombre := nombre } M i j < 100 ∧
      generar_matriz_aleatoria_hilo rand_r time
          { n := n, hilo_id := hilo_id, nombre := nombre } M i j
        = generar_matriz_aleatoria_hilo rand_r time
          { n := n, hilo_id := hilo_id, nombre := nombre } M' i j) ∧
    (0 ≤ (main_procesos_generar rand M N n llamadas).1 i j ∧
      (main_procesos_generar rand M N n llamadas).1 i j < 100 ∧
      (main_procesos_generar rand M N n llamadas).1 i j
        = (main_procesos_generar rand M' N' n llamadas).1 i j) ∧
    (0 ≤ (main_procesos_generar rand M N n llamadas).2.1 i j ∧
      (main_procesos_generar rand M N n llamadas).2.1 i j < 100 ∧
      (main_procesos_generar rand M N n llamadas).2.1 i j
        = (main_procesos_generar rand M' N' n llamadas).2.1 i j) := by
  have _ := hn
  have hij : i < n ∧ j < n := ⟨hi, hj⟩
  refine ⟨?_, ?_, ?_, ?_⟩
  · rw [generar_matriz_aleatoria_cell, generar_matriz_aleatoria_cell, if_pos hij, if_pos hij]
    exact ⟨(mod_c_rango _ (hrand _)).1, (mod_c_rango _ (hrand _)).2, rfl⟩
  · rw [generar_matriz_aleatoria_hilo_cell, generar_matriz_aleatoria_hilo_cell, if_pos hij, if_pos hij]
    exact ⟨(mod_c_rango _ (hrand_r _)).1, (mod_c_rango _ (hrand_r _)).2, rfl⟩
  · rw [main_procesos_generar_cell_A, main_procesos_generar_cell_A, if_pos hij, if_pos hij]
    exact ⟨(mod_c_rango _ (hrand _)).1, (mod_c_rango _ (hrand _)).2, rfl⟩
  · rw [main_procesos_generar_cell_B, main_procesos_generar_cell_B, if_pos hij, if_pos hij]
    exact ⟨(mod_c_rango _ (hrand _)).1, (mod_c_rango _ (hrand _)).2, rfl⟩

theorem rand_r_ej_nonneg (s : Nat) : 0 ≤ (rand_r_ej s).2 := Int.ofNat_zero_le _

theorem rand_ej_nonneg (k : Nat) : 0 ≤ rand_ej k := rand_r_ej_nonneg _

/-- C17, on the cell `(1, 2)` of a 3 × 3 matrix, with a linear congruential
generator. -/
theorem C17_generador_en_rango_witness :
    (1 ≤ 3 ∧ 1 < 3 ∧ 2 < 3 ∧ (∀ k, 0 ≤ rand_ej k) ∧ (∀ s, 0 ≤ (rand_r_ej s).2)) ∧
    (0 ≤ (generar_matriz_aleatoria rand_ej C_ej 3 0).1 1 2 ∧
      (generar_matriz_aleatoria rand_ej C_ej 3 0).1 1 2 < 100 ∧
      (generar_matriz_aleatoria rand_ej C_ej 3 0).1 1 2
        = (generar_matriz_aleatoria rand_ej D_ej 3 0).1 1 2) ∧
    (0 ≤ generar_matriz_aleatoria_hilo rand_r_ej 1700000000
          { n := 3, hilo_id := 1, nombre := 'A' } C_ej 1 2 ∧
      generar_matriz_aleatoria_hilo rand_r_ej 1700000000
          { n := 3, hilo_id := 1, nombre := 'A' } C_ej 1 2 < 100 ∧
      generar_matriz_aleatoria_hilo rand_r_ej 1700000000
          { n := 3, hilo_id := 1, nombre := 'A' } C_ej 1 2
        = generar_matriz_aleatoria_hilo rand_r_ej 1700000000
          { n := 3, hilo_id := 1, nombre := 'A' } D_ej 1 2) ∧
    (0 ≤ (main_procesos_generar rand_ej C_ej D_ej 3 0).1 1 2 ∧
      (main_procesos_generar rand_ej C_ej D_ej 3 0).1 1 2 < 100 ∧
      (main_procesos_generar rand_ej C_ej D_ej 3 0).1 1 2
        = (main_procesos_generar rand_ej D_ej C_ej 3 0).1 1 2) ∧
    (0 ≤ (main_procesos_generar rand_ej C_ej D_ej 3 0).2.1 1 2 ∧
      (main_procesos_generar rand_ej C_ej D_ej 3 0).2.1 1 2 < 100 ∧
      (main_procesos_generar rand_ej C_ej D_ej 3 0).2.1 1 2
        = (main_procesos_generar rand_ej D_ej C_ej 3 0).2.1 1 2) :=
  ⟨⟨by decide, by decide, by decide, rand_ej_nonneg, rand_r_ej_nonneg⟩,
    C17_generador_en_rango 3 1 2 (by decide) (by decide) (by decide) rand_ej rand_r_ej
      rand_ej_nonneg rand_r_ej_nonneg 1700000000 1 0 'A' C_ej D_ej D_ej C_ej⟩

/-- The function `generar_matriz_aleatoria_paralela`, cell by cell. -/
theorem generar_matriz_aleatoria_paralela_cell (rand_r : Nat → Nat × Int)
    (hilo : Nat → Nat → Nat) (time : Nat → Nat → Int) (M : Matrix) (n i j : Nat) :
    generar_matriz_aleatoria_paralela rand_r hilo time M n i j
      = if i < n ∧ j < n then
          mod_c (rand_r ((((hilo i j : Nat) : Int) + time i j) % 4294967296).toNat).2 100
        else M i j := by
  have h := tile_view (fun (M : Matrix) => M i j)
    (fun i' j' M => M.set i' j'
      (mod_c (rand_r ((((hilo i' j' : Nat) : Int) + time i' j') % 4294967296).toNat).2 100))
    (fun _ => mod_c (rand_r ((((hilo i j : Nat) : Int) + time i j) % 4294967296).toNat).2 100)
    i j 0 n 0 n
    (fun i' j' s _ _ => by
      show (s.set i' j' _) i j = _
      rw [matrix_set_view]
      by_cases hh : i' = i ∧ j' = j
      · obtain ⟨rfl, rfl⟩ := hh
        simp
      · rw [if_neg hh, if_neg hh]) M
  simp only [Nat.zero_le, true_and] at h
  exact h

/-- C20. In the OpenMP matrix generator the seed is rebuilt from the thread
number and the current time for every cell and used for one draw of `rand_r`:
the value stored in a cell of `[0, n) × [0, n)` is a function of the sum of
the thread number and the time of its iteration only.  So two cells filled by
the same thread while `time(NULL)` returns the same second receive the same
value, and with one thread and a constant clock all cells of the matrix
receive the same value. -/
theorem C20_misma_semilla_mismo_valor (n i j i' j' : Nat) (hi : i < n) (hj : j < n)
    (hi' : i' < n) (hj' : j' < n) (rand_r : Nat → Nat × Int)
    (omp_get_thread_num : Nat → Nat → Nat) (time : Nat → Nat → Int) (M : Matrix) :
    generar_matriz_aleatoria_paralela rand_r omp_get_thread_num time M n i j
        = mod_c (rand_r ((((omp_get_thread_num i j : Nat) : Int) + time i j)
            % 4294967296).toNat).2 100 ∧
      (omp_get_thread_num i j = omp_get_thread_num i' j' → time i j = time i' j' →
        generar_matriz_aleatoria_paralela rand_r omp_get_thread_num time M n i j
          = generar_matriz_aleatoria_paralela rand_r omp_get_thread_num time M n i' j') ∧
      ((∀ a b, omp_get_thread_num a b = 0) → (∀ a b c d, time a b = time c d) →
        generar_matriz_aleatoria_paralela rand_r omp_get_thread_num time M n i j
          = generar_matriz_aleatoria_paralela rand_r omp_get_thread_num time M n i' j') := by
  have e1 := generar_matriz_aleatoria_paralela_cell rand_r omp_get_thread_num time M n i j
  have e2 := generar_matriz_aleatoria_paralela_cell rand_r omp_get_thread_num time M n i' j'
  rw [if_pos ⟨hi, hj⟩] at e1
  rw [if_pos ⟨hi', hj'⟩] at e2
  refine ⟨e1, fun h1 h2 => ?_, fun h1 h2 => ?_⟩
  · rw [e1, e2, h1, h2]
  · rw [e1, e2, h1 i j, h1 i' j', h2 i j i' j']

/-- C20, on the cells `(0, 1)` and `(2, 2)` of a 3 × 3 matrix filled by one
thread within one second. -/
theorem C20_misma_semilla_mismo_valor_witness :
    (0 < 3 ∧ 1 < 3 ∧ 2 < 3 ∧ 2 < 3) ∧
    generar_matriz_aleatoria_paralela rand_r_ej (fun _ _ => 0) (fun _ _ => 1700000000)
        C_ej 3 0 1
      = mod_c (rand_r_ej ((((0 : Nat) : Int) + 1700000000) % 4294967296).toNat).2 100 ∧
    generar_matriz_aleatoria_paralela rand_r_ej (fun _ _ => 0) (fun _ _ => 1700000000)
        C_ej 3 0 1
      = generar_matriz_aleatoria_paralela rand_r_ej (fun _ _ => 0)
        (fun _ _ => 1700000000) C_ej 3 2 2 :=
  have h := C20_misma_semilla_mismo_valor 3 0 1 2 2 (by decide) (by decide) (by decide)
    (by decide) rand_r_ej (fun _ _ => 0) (fun _ _ => 1700000000) C_ej
  ⟨by decide, h.1, h.2.2 (fun _ _ => rfl) (fun _ _ _ _ => rfl)⟩

/-! ## The OpenMP blocked kernel -/

theorem forLoop_const {α : Type} (c : α) (lo hi : Nat) (x : α) (h : lo < hi) :
    forLoop lo hi (fun _ _ => c) x = c := by
  unfold forLoop
  obtain ⟨k, hk⟩ : ∃ k, hi - lo = k + 1 := ⟨hi - lo - 1, by omega⟩
  rw [hk, forLoopAux_snoc]

/-- One unit of work of the blocked loop nest (the `kk` blocks, then the rows
and columns of the tile of `(ii, jj)`), seen through a view of one cell: it
terminates, and it acts on the view as the plain loop over `k` in `[0, n)`
when the cell lies in the tile, and leaves it alone otherwise. -/
theorem unidad_view {σ α : Type} (π : σ → α) (upd : Nat → Nat → Nat → Nat → σ → σ)
    (acc : Nat → α → α) (i j n bs ii jj : Nat) (hbs : 0 < bs)
    (hupd : ∀ kk k_end i' j' s, kk < k_end →
      π (upd kk k_end i' j' s)
        = if i' = i ∧ j' = j then forLoop kk k_end acc (π s) else π s)
    (s : σ) :
    ∃ s', forStep n bs (fun kk s =>
          some (forLoop ii (if ii + bs < n then ii + bs else n) (fun i' s =>
            forLoop jj (if jj + bs < n then jj + bs else n) (fun j' s =>
              upd kk (if kk + bs < n then kk + bs else n) i' j' s) s) s)) s = some s' ∧
      π s' = if (ii ≤ i ∧ i < (if ii + bs < n then ii + bs else n)) ∧
          (jj ≤ j ∧ j < (if jj + bs < n then jj + bs else n)) then
        forLoop 0 n acc (π s) else π s := by
  refine forStep_blocks_eq π n bs hbs _
    (fun k x => if (ii ≤ i ∧ i < (if ii + bs < n then ii + bs else n)) ∧
        (jj ≤ j ∧ j < (if jj + bs < n then jj + bs else n)) then acc k x else x) s _ ?_ ?_
  · intro kk s hkk
    refine ⟨_, rfl, ?_⟩
    rw [tile_view π (fun i' j' s => upd kk (if kk + bs < n then kk + bs else n) i' j' s)
      (forLoop kk (if kk + bs < n then kk + bs else n) acc) i j ii
      (if ii + bs < n then ii + bs else n) jj (if jj + bs < n then jj + bs else n)
      (fun i' j' s _ _ => hupd _ _ i' j' s (by split_ifs <;> omega)) s]
    rw [forLoop_cond]
  · rw [forLoop_cond]

/-- One unit of work of the OpenMP blocked kernel, seen from one cell of the
result. -/
theorem unidad_openmp_cell (A B : Matrix) (n ii jj i j : Nat) (st : EstadoC) :
    ∃ st', unidad_openmp A B n ii jj st = some st' ∧
      st'.C i j = if (ii ≤ i ∧ i < (if ii + 64 < n then ii + 64 else n)) ∧
          (jj ≤ j ∧ j < (if jj + 64 < n then jj + 64 else n)) then
        acumular A B i j 0 n (st.C i j) else st.C i j :=
  unidad_view (fun (st : EstadoC) => st.C i j)
    (fun kk k_end i' j' (st : EstadoC) =>
      { C := st.C.set i' j' (acumular A B i' j' kk k_end (st.C i' j')),
        lecturas := st.lecturas ++ [(i', j')],
        escrituras := st.escrituras ++ [(i', j')] })
    (fun k x => add32 x (mul32 (A i k) (B k j))) i j n 64 ii jj (by decide)
    (fun kk k_end i' j' s _ => set_acumular_view A B kk k_end i j i' j' s.C) st

theorem decide_mem_snoc (c c' : Nat × Nat) (l : List (Nat × Nat)) (b : Bool)
    (hb : b = true) :
    decide (c ∈ l ++ [c']) = if c'.1 = c.1 ∧ c'.2 = c.2 then b else decide (c ∈ l) := by
  subst hb
  by_cases h : c'.1 = c.1 ∧ c'.2 = c.2
  · have e : c' = c := Prod.ext h.1 h.2
    simp [e]
  · have e : ¬ c = c' := fun hh => h ⟨by rw [hh], by rw [hh]⟩
    simp [h, e]

/-- One unit of work of the OpenMP blocked kernel, started with empty records:
it reads and writes exactly the cells of its tile. -/
theorem unidad_openmp_accesos (A B : Matrix) (n ii jj i j : Nat) (C : Matrix) :
    ∃ st', unidad_openmp A B n ii jj { C := C, lecturas := [], escrituras := [] }
        = some st' ∧
      ((i, j) ∈ st'.lecturas ↔
        (ii ≤ i ∧ i < (if ii + 64 < n then ii + 64 else n)) ∧
          (jj ≤ j ∧ j < (if jj + 64 < n then jj + 64 else n))) ∧
      ((i, j) ∈ st'.escrituras ↔
        (ii ≤ i ∧ i < (if ii + 64 < n then ii + 64 else n)) ∧
          (jj ≤ j ∧ j < (if jj + 64 < n then jj + 64 else n))) := by
  obtain ⟨s1, hs1, hv1⟩ := unidad_view (fun (st : EstadoC) => decide ((i, j) ∈ st.lecturas))
    (fun kk k_end i' j' (st : EstadoC) =>
      { C := st.C.set i' j' (acumular A B i' j' kk k_end (st.C i' j')),
        lecturas := st.lecturas ++ [(i', j')],
        escrituras := st.escrituras ++ [(i', j')] })
    (fun _ _ => true) i j n 64 ii jj (by decide)
    (fun kk k_end i' j' s hk =>
      decide_mem_snoc (i, j) (i', j') s.lecturas _ (forLoop_const true kk k_end _ hk))
    { C := C, lecturas := [], escrituras := [] }
  obtain ⟨s2, hs2, hv2⟩ := unidad_view (fun (st : EstadoC) => decide ((i, j) ∈ st.escrituras))
    (fun kk k_end i' j' (st : EstadoC) =>
      { C := st.C.set i' j' (acumular A B i' j' kk k_end (st.C i' j')),
        lecturas := st.lecturas ++ [(i', j')],
        escrituras := st.escrituras ++ [(i', j')] })
    (fun _ _ => true) i j n 64 ii jj (by decide)
    (fun kk k_end i' j' s hk =>
      decide_mem_snoc (i, j) (i', j') s.escrituras _ (forLoop_const true kk k_end _ hk))
    { C := C, lecturas := [], escrituras := [] }
  have e : s2 = s1 := by
    have h := hs2.symm.trans hs1
    cases h; rfl
  subst e
  refine ⟨s2, hs1, ?_, ?_⟩
  · by_cases ht : (ii ≤ i ∧ i < (if ii + 64 < n then ii + 64 else n)) ∧
        (jj ≤ j ∧ j < (if jj + 64 < n then jj + 64 else n))
    · have hn : 0 < n := by
        have := ht.1.2
        split_ifs at this <;> omega
      rw [if_pos ht, forLoop_const true 0 n _ hn] at hv1
      exact ⟨fun _ => ht, fun _ => of_decide_eq_true hv1⟩
    · rw [if_neg ht] at hv1
      have hno : ¬ (i, j) ∈ s2.lecturas := by
        intro hm
        have hd := decide_eq_true hm
        rw [hv1] at hd
        simp at hd
      exact ⟨fun hm => absurd hm hno, fun h => absurd h ht⟩
  · by_cases ht : (ii ≤ i ∧ i < (if ii + 64 < n then ii + 64 else n)) ∧
        (jj ≤ j ∧ j < (if jj + 64 < n then jj + 64 else n))
    · have hn : 0 < n := by
        have := ht.1.2
        split_ifs at this <;> omega
      rw [if_pos ht, forLoop_const true 0 n _ hn] at hv2
      exact ⟨fun _ => ht, fun _ => of_decide_eq_true hv2⟩
    · rw [if_neg ht] at hv2
      have hno : ¬ (i, j) ∈ s2.escrituras := by
        intro hm
        have hd := decide_eq_true hm
        rw [hv2] at hd
        simp at hd
      exact ⟨fun hm => absurd hm hno, fun h => absurd h ht⟩

/-- A block-step loop from `0` keeps an invariant that its body keeps at the
multiples of the step, and terminates. -/
theorem forStepAux_inv {σ : Type} (Inv : σ → Prop) (hi step : Nat) (hstep : 0 < step)
    (body : Nat → σ → Option σ)
    (hb : ∀ t s, t < hi → step ∣ t → Inv s → ∃ s', body t s = some s' ∧ Inv s') :
    ∀ (fuel i : Nat) (s : σ), step ∣ i → hi ≤ i + fuel → Inv s →
      ∃ s', forStepAux hi step body fuel i s = some s' ∧ Inv s' := by
  intro fuel
  induction fuel with
  | zero =>
    intro i s _ h hs
    have hi' : ¬ i < hi := by omega
    exact ⟨s, by simp [forStepAux, hi'], hs⟩
  | succ k ih =>
    intro i s hdiv h hs
    by_cases hlt : i < hi
    · obtain ⟨s1, hs1, hI1⟩ := hb i s hlt hdiv hs
      obtain ⟨s2, hs2, hI2⟩ := ih (i + step) s1 (Dvd.dvd.add hdiv (dvd_refl step))
        (by omega) hI1
      exact ⟨s2, by simp [forStepAux, hlt, hs1, hs2], hI2⟩
    · exact ⟨s, by simp [forStepAux, hlt], hs⟩

theorem forStep_inv {σ : Type} (Inv : σ → Prop) (hi step : Nat) (hstep : 0 < step)
    (body : Nat → σ → Option σ)
    (hb : ∀ t s, t < hi → step ∣ t → Inv s → ∃ s', body t s = some s' ∧ Inv s')
    (s : σ) (hs : Inv s) :
    ∃ s', forStep hi step body s = some s' ∧ Inv s' :=
  forStepAux_inv Inv hi step hstep body hb hi 0 s (dvd_zero step) (by omega) hs

/-- The units of work of the OpenMP blocked kernel start at multiples of 64. -/
theorem unidades_openmp_alineadas (n : Nat) :
    ∃ U, unidades_openmp n = some U ∧ ∀ u ∈ U, 64 ∣ u.1 ∧ 64 ∣ u.2 := by
  unfold unidades_openmp
  refine forStep_inv (fun (l : List (Nat × Nat)) => ∀ u ∈ l, 64 ∣ u.1 ∧ 64 ∣ u.2) n 64
    (by decide) _ (fun ii l _ hii hl => ?_) [] (fun u hu => by simp at hu)
  refine forStep_inv (fun (l : List (Nat × Nat)) => ∀ u ∈ l, 64 ∣ u.1 ∧ 64 ∣ u.2) n 64
    (by decide) _ (fun jj l _ hjj hl => ?_) l hl
  refine ⟨_, rfl, fun u hu => ?_⟩
  rcases List.mem_append.mp hu with h | h
  · exact hl u h
  · rw [List.mem_singleton] at h
    subst h
    exact ⟨hii, hjj⟩

/-- Exactly one unit of work has a given cell of `[0, n) × [0, n)` in its tile,
and none has a cell outside. -/
theorem unidades_openmp_cuenta (n i j : Nat) :
    ∃ U, unidades_openmp n = some U ∧
      U.countP (fun u => decide ((u.1 ≤ i ∧ i < (if u.1 + 64 < n then u.1 + 64 else n)) ∧
          (u.2 ≤ j ∧ j < (if u.2 + 64 < n then u.2 + 64 else n))))
        = if i < n ∧ j < n then 1 else 0 := by
  unfold unidades_openmp
  refine forStep_blocks_eq
    (fun (l : List (Nat × Nat)) => l.countP (fun u =>
      decide ((u.1 ≤ i ∧ i < (if u.1 + 64 < n then u.1 + 64 else n)) ∧
        (u.2 ≤ j ∧ j < (if u.2 + 64 < n then u.2 + 64 else n))))) n 64 (by decide) _
    (fun i' x => if i' = i then (if j < n then x + 1 else x) else x) [] _ ?_ ?_
  · intro ii l _
    refine forStep_blocks_eq
      (fun (l : List (Nat × Nat)) => l.countP (fun u =>
        decide ((u.1 ≤ i ∧ i < (if u.1 + 64 < n then u.1 + 64 else n)) ∧
          (u.2 ≤ j ∧ j < (if u.2 + 64 < n then u.2 + 64 else n))))) n 64 (by decide) _
      (fun j' x => if j' = j then
        (if ii ≤ i ∧ i < (if ii + 64 < n then ii + 64 else n) then x + 1 else x) else x)
      l _ ?_ ?_
    · intro jj l _
      refine ⟨_, rfl, ?_⟩
      rw [forLoop_single]
      simp only [List.countP_append, List.countP_cons, List.countP_nil]
      by_cases h1 : ii ≤ i ∧ i < (if ii + 64 < n then ii + 64 else n) <;>
        by_cases h2 : jj ≤ j ∧ j < (if jj + 64 < n then jj + 64 else n) <;> simp [h1, h2]
    · rw [forLoop_single, forLoop_single]
      by_cases h1 : ii ≤ i ∧ i < (if ii + 64 < n then ii + 64 else n) <;>
        by_cases h2 : j < n <;> simp [h1, h2]
  · rw [forLoop_single]
    by_cases h1 : i < n <;> by_cases h2 : j < n <;> simp [h1, h2]

/-- A sequence of steps that each act on a view by `h` or leave it alone acts
on the view by `h` iterated as many times as there are acting steps. -/
theorem foldlM_view {σ α β : Type} (π : σ → α) (act : β → σ → Option σ) (p : β → Bool)
    (h : α → α)
    (hact : ∀ u s, ∃ s', act u s = some s' ∧ π s' = if p u then h (π s) else π s)
    (L : List β) :
    ∀ s, ∃ s', L.foldlM (fun s u => act u s) s = some s' ∧
      π s' = h^[L.countP p] (π s) := by
  induction L with
  | nil => intro s; exact ⟨s, rfl, rfl⟩
  | cons u t ih =>
    intro s
    obtain ⟨s1, hs1, hv1⟩ := hact u s
    obtain ⟨s2, hs2, hv2⟩ := ih s1
    refine ⟨s2, ?_, ?_⟩
    · rw [List.foldlM_cons, hs1]
      exact hs2
    · rw [hv2, hv1, List.countP_cons]
      by_cases hp : p u = true
      · simp only [hp, if_true]
        rw [Function.iterate_succ_apply]
      · simp only [hp, if_false]
        rfl

/-- The function `multiplicar_matrices_openmp_simple`, cell by cell. -/
theorem openmp_simple_cell (A B C : Matrix) (n i j : Nat) :
    multiplicar_matrices_openmp_simple A B C n i j
      = if i < n ∧ j < n then acumular A B i j 0 n 0 else C i j := by
  have h := tile_view (fun (C : Matrix) => C i j)
    (fun i' j' C => forLoop 0 n (fun k C =>
      C.set i' j' (add32 (C i' j') (mul32 (A i' k) (B k j')))) C)
    (fun x => acumular A B i j 0 n x) i j 0 n 0 n
    (fun i' j' s _ _ => by
      show (forLoop 0 n (fun k C =>
        C.set i' j' (add32 (C i' j') (mul32 (A i' k) (B k j')))) s) i j = _
      rw [forLoop_proj (fun (C : Matrix) => C i j) 0 n _
        (fun k x => if i' = i ∧ j' = j then add32 x (mul32 (A i k) (B k j)) else x) s
        (fun k s _ _ => by
          show (s.set i' j' _) i j = _
          beta_reduce
          rw [matrix_set_view]
          by_cases hh : i' = i ∧ j' = j
          · obtain ⟨rfl, rfl⟩ := hh
            simp
          · rw [if_neg hh, if_neg hh])]
      rw [forLoop_cond]
      rfl)
    (forLoop 0 n (fun i C => memsetRow C i n) C)
  simp only [Nat.zero_le, true_and] at h
  unfold multiplicar_matrices_openmp_simple
  refine h.trans ?_
  rw [memset_filas]
  by_cases hij : i < n ∧ j < n
  · simp [hij]
  · have h' : ¬ ((0 ≤ i ∧ i < n) ∧ j < n) := fun hh => hij ⟨hh.1.2, hh.2⟩
    rw [if_neg hij, if_neg hij, if_neg h']

/-- The function `multiplicar_matrices_openmp_optimizada`, its units in loop
order: it returns, and cell by cell its result is the accumulation from `0`
inside `[0, n) × [0, n)` and the initial content outside. -/
theorem openmp_optimizada_cells (A B C : Matrix) (n : Nat) :
    ∃ st, multiplicar_matrices_openmp_optimizada A B C n = some st ∧
      ∀ i j, st.C i j = if i < n ∧ j < n then acumular A B i j 0 n 0 else C i j := by
  apply exists_of_cells _ (fun i j (st : EstadoC) =>
    st.C i j = if i < n ∧ j < n then acumular A B i j 0 n 0 else C i j)
  intro i j
  obtain ⟨st, hst, hv⟩ := bloques_view (fun (st : EstadoC) => st.C i j)
    (fun kk k_end i' j' (st : EstadoC) =>
      { C := st.C.set i' j' (acumular A B i' j' kk k_end (st.C i' j')),
        lecturas := st.lecturas ++ [(i', j')],
        escrituras := st.escrituras ++ [(i', j')] })
    (fun k x => add32 x (mul32 (A i k) (B k j))) i j n 64 (by decide)
    (fun kk k_end i' j' s _ => set_acumular_view A B kk k_end i j i' j' s.C)
    { C := forLoop 0 n (fun i C => memsetRow C i n) C, lecturas := [], escrituras := [] }
  refine ⟨st, hst, ?_⟩
  rw [hv]
  show (if i < n ∧ j < n then
      acumular A B i j 0 n ((forLoop 0 n (fun i C => memsetRow C i n) C) i j)
    else (forLoop 0 n (fun i C => memsetRow C i n) C) i j) = _
  rw [memset_filas]
  by_cases h : i < n ∧ j < n
  · simp [h]
  · have h' : ¬ ((0 ≤ i ∧ i < n) ∧ j < n) := fun hh => h ⟨hh.1.2, hh.2⟩
    rw [if_neg h, if_neg h, if_neg h']

/-- The function `multiplicar_matrices_openmp_optimizada` with its units of
work in any order `orden`: it returns, and each cell has gone through the
accumulation once for every unit of `orden` that has the cell in its tile. -/
theorem openmp_orden_cells (orden : List (Nat × Nat)) (A B C : Matrix) (n : Nat) :
    ∃ st, multiplicar_matrices_openmp_optimizada_orden orden A B C n = some st ∧
      ∀ i j, st.C i j
        = (fun x => acumular A B i j 0 n x)^[orden.countP (fun u =>
            decide ((u.1 ≤ i ∧ i < (if u.1 + 64 < n then u.1 + 64 else n)) ∧
              (u.2 ≤ j ∧ j < (if u.2 + 64 < n then u.2 + 64 else n))))]
          (if i < n ∧ j < n then 0 else C i j) := by
  apply exists_of_cells _ (fun i j (st : EstadoC) => st.C i j
    = (fun x => acumular A B i j 0 n x)^[orden.countP (fun u =>
        decide ((u.1 ≤ i ∧ i < (if u.1 + 64 < n then u.1 + 64 else n)) ∧
          (u.2 ≤ j ∧ j < (if u.2 + 64 < n then u.2 + 64 else n))))]
      (if i < n ∧ j < n then 0 else C i j))
  intro i j
  obtain ⟨st, hst, hv⟩ := foldlM_view (fun (st : EstadoC) => st.C i j)
    (fun (u : Nat × Nat) st => unidad_openmp A B n u.1 u.2 st)
    (fun u => decide ((u.1 ≤ i ∧ i < (if u.1 + 64 < n then u.1 + 64 else n)) ∧
      (u.2 ≤ j ∧ j < (if u.2 + 64 < n then u.2 + 64 else n))))
    (fun x => acumular A B i j 0 n x)
    (fun u s => by
      obtain ⟨s', hs', hv'⟩ := unidad_openmp_cell A B n u.1 u.2 i j s
      refine ⟨s', hs', ?_⟩
      beta_reduce
      rw [hv']
      by_cases ht : (u.1 ≤ i ∧ i < (if u.1 + 64 < n then u.1 + 64 else n)) ∧
          (u.2 ≤ j ∧ j < (if u.2 + 64 < n then u.2 + 64 else n))
      · rw [if_pos ht, if_pos (decide_eq_true ht)]
      · rw [if_neg ht, if_neg (by simpa using ht)])
    orden { C := forLoop 0 n (fun i C => memsetRow C i n) C, lecturas := [], escrituras := [] }
  refine ⟨st, hst, ?_⟩
  rw [hv]
  show _ = _
  congr 1
  show (forLoop 0 n (fun i C => memsetRow C i n) C) i j = _
  rw [memset_filas]
  by_cases h : i < n ∧ j < n
  · have h' : (0 ≤ i ∧ i < n) ∧ j < n := ⟨⟨Nat.zero_le _, h.1⟩, h.2⟩
    rw [if_pos h, if_pos h']
  · have h' : ¬ ((0 ≤ i ∧ i < n) ∧ j < n) := fun hh => h ⟨hh.1.2, hh.2⟩
    rw [if_neg h, if_neg h']

/-- Every cell that a unit of work reads or writes lies in its tile. -/
theorem unidad_openmp_en_tile (A B : Matrix) (n ii jj : Nat) (C0 : Matrix) (st : EstadoC)
    (h : unidad_openmp A B n ii jj { C := C0, lecturas := [], escrituras := [] } = some st)
    (c : Nat × Nat) (hc : c ∈ st.lecturas ∨ c ∈ st.escrituras) :
    (ii ≤ c.1 ∧ c.1 < min (ii + 64) n) ∧ (jj ≤ c.2 ∧ c.2 < min (jj + 64) n) := by
  obtain ⟨st', hst', hl, he⟩ := unidad_openmp_accesos A B n ii jj c.1 c.2 C0
  have e : st' = st := by
    have hh := hst'.symm.trans h
    cases hh; rfl
  subst e
  have ht : (ii ≤ c.1 ∧ c.1 < (if ii + 64 < n then ii + 64 else n)) ∧
      (jj ≤ c.2 ∧ c.2 < (if jj + 64 < n then jj + 64 else n)) := by
    rcases hc with hc | hc
    · exact hl.1 hc
    · exact he.1 hc
  obtain ⟨⟨h1, h2⟩, h3, h4⟩ := ht
  refine ⟨⟨h1, ?_⟩, h3, ?_⟩
  · split_ifs at h2 <;> omega
  · split_ifs at h4 <;> omega

/-- The result of the OpenMP blocked kernel with its units of work in an order
that is a permutation of the loop order. -/
theorem openmp_orden_perm (n : Nat) (A B C : Matrix) (U orden : List (Nat × Nat))
    (hU : unidades_openmp n = some U) (hp : orden.Perm U) :
    ∃ st, multiplicar_matrices_openmp_optimizada_orden orden A B C n = some st ∧
      ∀ i j, st.C i j = if i < n ∧ j < n then acumular A B i j 0 n 0 else C i j := by
  obtain ⟨st, hst, hv⟩ := openmp_orden_cells orden A B C n
  refine ⟨st, hst, fun i j => ?_⟩
  obtain ⟨U', hU', hcount⟩ := unidades_openmp_cuenta n i j
  have e : U' = U := by
    have hh := hU'.symm.trans hU
    cases hh; rfl
  subst e
  rw [hv, List.Perm.countP_eq _ hp, hcount]
  by_cases h : i < n ∧ j < n
  · rw [if_pos h, if_pos h, if_pos h]
    rfl
  · rw [if_neg h, if_neg h, if_neg h]
    rfl

/-- Two units of work of the loop nest that have a cell in both tiles are the
same unit. -/
theorem unidades_openmp_tiles_disjuntos (n : Nat) (u u' c c' : Nat × Nat)
    (hu : 64 ∣ u.1 ∧ 64 ∣ u.2) (hu' : 64 ∣ u'.1 ∧ 64 ∣ u'.2)
    (hc : (u.1 ≤ c.1 ∧ c.1 < min (u.1 + 64) n) ∧ (u.2 ≤ c.2 ∧ c.2 < min (u.2 + 64) n))
    (hc' : (u'.1 ≤ c'.1 ∧ c'.1 < min (u'.1 + 64) n) ∧
      (u'.2 ≤ c'.2 ∧ c'.2 < min (u'.2 + 64) n)) :
    (c.1 = c'.1 → u.1 = u'.1) ∧ (c.2 = c'.2 → u.2 = u'.2) := by
  obtain ⟨⟨a, ha⟩, ⟨b, hb⟩⟩ := hu
  obtain ⟨⟨a', ha'⟩, ⟨b', hb'⟩⟩ := hu'
  constructor
  · intro h; omega
  · intro h; omega

/-- C19. In the OpenMP blocked multiply, each unit of work `(ii, jj)` of the
collapsed loop nest reads and writes only cells `C[i][j]` with
`ii ≤ i < min (ii + 64) n` and `jj ≤ j < min (jj + 64) n`; two distinct units
of the loop nest touch no cell in common; and running the units one after the
other in any order that is a permutation of the loop order, after the zeroing
phase, returns and leaves in `C` the matrix that
`multiplicar_matrices_openmp_simple` leaves, the naive product of `A` and `B`
in every entry; so does the loop order itself. -/
theorem C19_unidades_en_cualquier_orden (n : Nat) (A B C : Matrix) :
    ∃ U, unidades_openmp n = some U ∧
      (∀ ii jj C0, ∃ st,
        unidad_openmp A B n ii jj { C := C0, lecturas := [], escrituras := [] } = some st ∧
        ∀ c, (c ∈ st.lecturas ∨ c ∈ st.escrituras) →
          (ii ≤ c.1 ∧ c.1 < min (ii + 64) n) ∧ (jj ≤ c.2 ∧ c.2 < min (jj + 64) n)) ∧
      (∀ u ∈ U, ∀ u' ∈ U, u ≠ u' → ∀ C0 C0' st st',
        unidad_openmp A B n u.1 u.2 { C := C0, lecturas := [], escrituras := [] }
          = some st →
        unidad_openmp A B n u'.1 u'.2 { C := C0', lecturas := [], escrituras := [] }
          = some st' →
        ∀ c, ¬ ((c ∈ st.lecturas ∨ c ∈ st.escrituras) ∧
          (c ∈ st'.lecturas ∨ c ∈ st'.escrituras))) ∧
      (∀ orden : List (Nat × Nat), orden.Perm U →
        ∃ st, multiplicar_matrices_openmp_optimizada_orden orden A B C n = some st ∧
          st.C = multiplicar_matrices_openmp_simple A B C n) ∧
      (∃ st, multiplicar_matrices_openmp_optimizada A B C n = some st ∧
        st.C = multiplicar_matrices_openmp_simple A B C n) ∧
      multiplicar_matrices_openmp_simple A B C n = multiplicar_matrices_original A B C n := by
  obtain ⟨U, hU, hal⟩ := unidades_openmp_alineadas n
  refine ⟨U, hU, fun ii jj C0 => ?_, fun u hu u' hu' hne C0 C0' st st' hst hst' c hc => ?_,
    fun orden hp => ?_, ?_, ?_⟩
  · obtain ⟨st, hst, _⟩ := unidad_openmp_cell A B n ii jj 0 0
      { C := C0, lecturas := [], escrituras := [] }
    exact ⟨st, hst, fun c hc => unidad_openmp_en_tile A B n ii jj C0 st hst c hc⟩
  · have t1 := unidad_openmp_en_tile A B n u.1 u.2 C0 st hst c hc.1
    have t2 := unidad_openmp_en_tile A B n u'.1 u'.2 C0' st' hst' c hc.2
    obtain ⟨e1, e2⟩ := unidades_openmp_tiles_disjuntos n u u' c c (hal u hu) (hal u' hu')
      t1 t2
    exact hne (Prod.ext (e1 rfl) (e2 rfl))
  · obtain ⟨st, hst, hv⟩ := openmp_orden_perm n A B C U orden hU hp
    refine ⟨st, hst, ?_⟩
    funext i j
    rw [hv, openmp_simple_cell]
  · obtain ⟨st, hst, hv⟩ := openmp_optimizada_cells A B C n
    refine ⟨st, hst, ?_⟩
    funext i j
    rw [hv, openmp_simple_cell]
  · funext i j
    rw [openmp_simple_cell, original_cell]

/-- C15, as stated, fails: for `n = 65` the units of work `(0, 0)` and `(0, 64)`
of the collapsed loop nest are distinct, and both write row `0` of `C`. -/
theorem C15_counterexample :
    unidades_openmp 65 = some [(0, 0), (0, 64), (64, 0), (64, 64)] ∧
      ((0, 0) : Nat × Nat) ≠ (0, 64) ∧
      ∃ st st',
        unidad_openmp A_ej B_ej 65 0 0 { C := C_ej, lecturas := [], escrituras := [] }
          = some st ∧
        unidad_openmp A_ej B_ej 65 0 64 { C := C_ej, lecturas := [], escrituras := [] }
          = some st' ∧
        0 ∈ st.escrituras.map Prod.fst ∧ 0 ∈ st'.escrituras.map Prod.fst := by
  obtain ⟨st, hst, _, he⟩ := unidad_openmp_accesos A_ej B_ej 65 0 0 0 0 C_ej
  obtain ⟨st', hst', _, he'⟩ := unidad_openmp_accesos A_ej B_ej 65 0 64 0 64 C_ej
  refine ⟨rfl, by decide, st, st', hst, hst', ?_, ?_⟩
  · exact List.mem_map.mpr ⟨(0, 0), he.2 (by decide), rfl⟩
  · exact List.mem_map.mpr ⟨(0, 64), he'.2 (by decide), rfl⟩

/-- C15, amended. In the OpenMP blocked multiply, for every `n`, two units of
work of the collapsed loop nest with different `ii` write disjoint sets of rows
of `C`, and any two distinct units write disjoint sets of cells of `C`. -/
theorem C15_filas_por_ii (n : Nat) (A B : Matrix) :
    ∃ U, unidades_openmp n = some U ∧
      ∀ u ∈ U, ∀ u' ∈ U, ∀ C0 C0' st st',
        unidad_openmp A B n u.1 u.2 { C := C0, lecturas := [], escrituras := [] }
          = some st →
        unidad_openmp A B n u'.1 u'.2 { C := C0', lecturas := [], escrituras := [] }
          = some st' →
        (u.1 ≠ u'.1 → ∀ r, ¬ (r ∈ st.escrituras.map Prod.fst ∧
          r ∈ st'.escrituras.map Prod.fst)) ∧
        (u ≠ u' → ∀ c, ¬ (c ∈ st.escrituras ∧ c ∈ st'.escrituras)) := by
  obtain ⟨U, hU, hal⟩ := unidades_openmp_alineadas n
  refine ⟨U, hU, fun u hu u' hu' C0 C0' st st' hst hst' => ⟨fun hne r hr => ?_,
    fun hne c hc => ?_⟩⟩
  · obtain ⟨c, hc, hcr⟩ := List.mem_map.mp hr.1
    obtain ⟨c', hc', hcr'⟩ := List.mem_map.mp hr.2
    have t1 := unidad_openmp_en_tile A B n u.1 u.2 C0 st hst c (Or.inr hc)
    have t2 := unidad_openmp_en_tile A B n u'.1 u'.2 C0' st' hst' c' (Or.inr hc')
    exact hne ((unidades_openmp_tiles_disjuntos n u u' c c' (hal u hu) (hal u' hu')
      t1 t2).1 (hcr.trans hcr'.symm))
  · have t1 := unidad_openmp_en_tile A B n u.1 u.2 C0 st hst c (Or.inr hc.1)
    have t2 := unidad_openmp_en_tile A B n u'.1 u'.2 C0' st' hst' c (Or.inr hc.2)
    obtain ⟨e1, e2⟩ := unidades_openmp_tiles_disjuntos n u u' c c (hal u hu) (hal u' hu')
      t1 t2
    exact hne (Prod.ext (e1 rfl) (e2 rfl))

/-! ## The exit codes -/

theorem main_matrices_n_iff (argc : Nat) (n : Int) :
    main_matrices_n argc n = Except.error 1 ↔ (argc ≠ 2 ∨ n ≤ 0) := by
  unfold main_matrices_n
  by_cases h1 : argc ≠ 2
  · simp [h1]
  · by_cases h2 : n ≤ 0
    · simp [h2]
    · simp [h1, h2]

theorem main_hilos_num_hilos_iff (argc : Nat) (n w : Int) :
    main_hilos_num_hilos argc n w = Except.error 1 ↔ (argc ≠ 3 ∨ n ≤ 0 ∨ w ≤ 0) := by
  unfold main_hilos_num_hilos
  by_cases h1 : argc ≠ 3
  · simp [h1]
  · by_cases h2 : n ≤ 0 ∨ w ≤ 0
    · simp [h2]
    · simp [h1, h2]

theorem main_procesos_num_procesos_iff (argc : Nat) (n w : Int) :
    main_procesos_num_procesos argc n w = Except.error 1 ↔ (argc ≠ 3 ∨ n ≤ 0 ∨ w ≤ 0) := by
  unfold main_procesos_num_procesos
  by_cases h1 : argc ≠ 3
  · simp [h1]
  · by_cases h2 : n ≤ 0 ∨ w ≤ 0
    · simp [h2]
    · simp [h1, h2]

theorem main_matrices_n_ok (argc : Nat) (n : Int) (h : ¬ (argc ≠ 2 ∨ n ≤ 0)) :
    main_matrices_n argc n = Except.ok n := by
  unfold main_matrices_n
  rw [if_neg (fun h1 => h (Or.inl h1)), if_neg (fun h2 => h (Or.inr h2))]

theorem main_hilos_num_hilos_ok (argc : Nat) (n w : Int) (h : ¬ (argc ≠ 3 ∨ n ≤ 0 ∨ w ≤ 0)) :
    main_hilos_num_hilos argc n w = Except.ok (if w > n then n else w) := by
  unfold main_hilos_num_hilos
  rw [if_neg (fun h1 => h (Or.inl h1)), if_neg (fun h2 => h (Or.inr h2))]

theorem main_procesos_num_procesos_ok (argc : Nat) (n w : Int)
    (h : ¬ (argc ≠ 3 ∨ n ≤ 0 ∨ w ≤ 0)) :
    main_procesos_num_procesos argc n w = Except.ok (if w > n then n else w) := by
  unfold main_procesos_num_procesos
  rw [if_neg (fun h1 => h (Or.inl h1)), if_neg (fun h2 => h (Or.inr h2))]

/-- The threads of `main` all return, with either kernel. -/
theorem main_hilos_lanzar_some (A B : Matrix) (n w : Nat) (C : Matrix) :
    (∃ C', main_hilos_lanzar
        (fun datos C => some (multiplicar_matrices_hilo_original datos C))
        (main_hilos_datos_mult A B n w) C = some C') ∧
      (∃ C', main_hilos_lanzar multiplicar_matrices_hilo_optimizada
        (main_hilos_datos_mult A B n w) C = some C') := by
  constructor
  · obtain ⟨C', hC', _⟩ := lanzar_cells
      (fun datos C => some (multiplicar_matrices_hilo_original datos C))
      (fun d C => ⟨_, rfl, fun i j => hilo_original_cell d C i j⟩) A B n w C w
    exact ⟨C', by rw [main_hilos_datos_mult_eq]; exact hC'⟩
  · obtain ⟨C', hC', _⟩ := lanzar_cells multiplicar_matrices_hilo_optimizada
      (fun d C => hilo_optimizada_bs_cells 32 (by decide) d C) A B n w C w
    exact ⟨C', by rw [main_hilos_datos_mult_eq]; exact hC'⟩

/-- The second fork loop of `main` returns, whichever forks fail. -/
theorem main_procesos_optimizada_fork_some (fork : Nat → Bool) (A B : Matrix) (F : Buffer)
    (n w : Nat) : ∃ F', main_procesos_optimizada_fork fork A B F n w = some F' := by
  unfold main_procesos_optimizada_fork
  rw [main_procesos_bucle_eq]
  generalize List.range w = l
  induction l generalizing F with
  | nil => exact ⟨F, rfl⟩
  | cons t tl ih =>
    rw [List.foldl_cons, Option.some_bind]
    by_cases hf : fork t = true
    · obtain ⟨F1, hF1, _⟩ := proceso_optimizada_bs_cells 32 (by decide) A B F n
        (inicio n w t) (inicio n w (t + 1)) t
      rw [if_pos hf]
      unfold multiplicar_matrices_proceso_optimizada
      rw [hF1]
      exact ih F1
    · rw [if_neg hf]
      exact ih F

/-- With valid arguments and successful allocations, `main` of the sequential
program runs to its end. -/
theorem main_matrices_fin (argc : Nat) (n : Int) (e : Entorno)
    (h : ¬ (argc ≠ 2 ∨ n ≤ 0)) (hA : (e.crear_matriz 0).isSome)
    (hB : (e.crear_matriz 1).isSome) (hC : (e.crear_matriz 2).isSome) :
    main_matrices argc n e = some { codigo := 0, completado := true } := by
  obtain ⟨A0, hA0⟩ := Option.isSome_iff_exists.mp hA
  obtain ⟨B0, hB0⟩ := Option.isSome_iff_exists.mp hB
  obtain ⟨C0, hC0⟩ := Option.isSome_iff_exists.mp hC
  simp only [main_matrices, main_matrices_n_ok argc n h, hA0, hB0, hC0]
  obtain ⟨C', hC', _⟩ := optimizada_bs_cells 64 (by decide)
    (generar_matriz_aleatoria e.rand A0 n.toNat 0).1
    (generar_matriz_aleatoria e.rand B0 n.toNat
      (generar_matriz_aleatoria e.rand A0 n.toNat 0).2).1
    (forLoop 0 n.toNat (fun i C => memsetRow C i n.toNat)
      (multiplicar_matrices_original (generar_matriz_aleatoria e.rand A0 n.toNat 0).1
        (generar_matriz_aleatoria e.rand B0 n.toNat
          (generar_matriz_aleatoria e.rand A0 n.toNat 0).2).1 C0 n.toNat)) n.toNat
  unfold multiplicar_matrices_optimizada
  rw [hC']
  rfl

/-- With valid arguments and successful allocations, `main` of the thread
program runs to its end. -/
theorem main_hilos_fin (argc : Nat) (n w : Int) (e : Entorno)
    (h : ¬ (argc ≠ 3 ∨ n ≤ 0 ∨ w ≤ 0)) (hA : (e.crear_matriz 0).isSome)
    (hB : (e.crear_matriz 1).isSome) (hC : (e.crear_matriz 2).isSome) :
    main_hilos argc n w e = some { codigo := 0, completado := true } := by
  obtain ⟨A0, hA0⟩ := Option.isSome_iff_exists.mp hA
  obtain ⟨B0, hB0⟩ := Option.isSome_iff_exists.mp hB
  obtain ⟨C0, hC0⟩ := Option.isSome_iff_exists.mp hC
  simp only [main_hilos, main_hilos_num_hilos_ok argc n w h, hA0, hB0, hC0]
  obtain ⟨C1, hC1⟩ := (main_hilos_lanzar_some
    (generar_matriz_aleatoria_hilo e.rand_r (e.time 0)
      { n := n.toNat, hilo_id := 1, nombre := 'A' } A0)
    (generar_matriz_aleatoria_hilo e.rand_r (e.time 1)
      { n := n.toNat, hilo_id := 2, nombre := 'B' } B0)
    n.toNat (if w > n then n else w).toNat C0).1
  rw [hC1, Option.some_bind]
  obtain ⟨C2, hC2⟩ := (main_hilos_lanzar_some
    (generar_matriz_aleatoria_hilo e.rand_r (e.time 0)
      { n := n.toNat, hilo_id := 1, nombre := 'A' } A0)
    (generar_matriz_aleatoria_hilo e.rand_r (e.time 1)
      { n := n.toNat, hilo_id := 2, nombre := 'B' } B0)
    n.toNat (if w > n then n else w).toNat
    (forLoop 0 n.toNat (fun i C => memsetRow C i n.toNat) C1)).2
  rw [hC2]
  rfl

/-- With valid arguments and successful allocations, `main` of the process
program runs to its end, whichever forks fail. -/
theorem main_procesos_fin (argc : Nat) (n w : Int) (e : Entorno)
    (h : ¬ (argc ≠ 3 ∨ n ≤ 0 ∨ w ≤ 0)) (hA : (e.crear_matriz 0).isSome)
    (hB : (e.crear_matriz 1).isSome) (hC : e.mmap.isSome) :
    main_procesos argc n w e = some { codigo := 0, completado := true } := by
  obtain ⟨A0, hA0⟩ := Option.isSome_iff_exists.mp hA
  obtain ⟨B0, hB0⟩ := Option.isSome_iff_exists.mp hB
  obtain ⟨C0, hC0⟩ := Option.isSome_iff_exists.mp hC
  simp only [main_procesos, main_procesos_num_procesos_ok argc n w h, hA0, hB0, hC0]
  obtain ⟨F', hF'⟩ := main_procesos_optimizada_fork_some
    (fun i => e.fork ((if w > n then n else w).toNat + i))
    (main_procesos_generar e.rand A0 B0 n.toNat 0).1
    (main_procesos_generar e.rand A0 B0 n.toNat 0).2.1
    (memsetBuffer (main_procesos_original_fork e.fork
      (main_procesos_generar e.rand A0 B0 n.toNat 0).1
      (main_procesos_generar e.rand A0 B0 n.toNat 0).2.1 C0 n.toNat
      (if w > n then n else w).toNat) (n.toNat * n.toNat))
    n.toNat (if w > n then n else w).toNat
  rw [hF']
  rfl

theorem main_openmp_num_hilos_iff (argc : Nat) (n w : Int) :
    main_openmp_num_hilos argc n w = Except.error 1 ↔ (argc ≠ 3 ∨ n ≤ 0 ∨ w ≤ 0) := by
  unfold main_openmp_num_hilos
  by_cases h1 : argc ≠ 3
  · simp [h1]
  · by_cases h2 : n ≤ 0 ∨ w ≤ 0
    · simp [h2]
    · simp [h1, h2]

/-- With valid arguments and successful allocations, `main` of the OpenMP
program runs to its end. -/
theorem main_openmp_fin (argc : Nat) (n w : Int) (e : Entorno)
    (h : ¬ (argc ≠ 3 ∨ n ≤ 0 ∨ w ≤ 0)) (hA : (e.crear_matriz 0).isSome)
    (hB : (e.crear_matriz 1).isSome) (hC : (e.crear_matriz 2).isSome) :
    main_openmp argc n w e = some { codigo := 0, completado := true } := by
  obtain ⟨A0, hA0⟩ := Option.isSome_iff_exists.mp hA
  obtain ⟨B0, hB0⟩ := Option.isSome_iff_exists.mp hB
  obtain ⟨C0, hC0⟩ := Option.isSome_iff_exists.mp hC
  have hok : main_openmp_num_hilos argc n w = Except.ok (w, w) := by
    unfold main_openmp_num_hilos
    rw [if_neg (fun h1 => h (Or.inl h1)), if_neg (fun h2 => h (Or.inr h2))]
  simp only [main_openmp, hok, hA0, hB0, hC0]
  obtain ⟨st, hst, _⟩ := openmp_optimizada_cells
    (generar_matriz_aleatoria_paralela e.rand_r e.omp_get_thread_num
      (fun i j => e.time (i * n.toNat + j)) A0 n.toNat)
    (generar_matriz_aleatoria_paralela e.rand_r e.omp_get_thread_num
      (fun i j => e.time (n.toNat * n.toNat + i * n.toNat + j)) B0 n.toNat)
    (forLoop 0 n.toNat (fun i C => memsetRow C i n.toNat)
      (multiplicar_matrices_openmp_simple
        (generar_matriz_aleatoria_paralela e.rand_r e.omp_get_thread_num
          (fun i j => e.time (i * n.toNat + j)) A0 n.toNat)
        (generar_matriz_aleatoria_paralela e.rand_r e.omp_get_thread_num
          (fun i j => e.time (n.toNat * n.toNat + i * n.toNat + j)) B0 n.toNat)
        C0 n.toNat)) n.toNat
  rw [hst]
  rfl

/-- With invalid arguments every `main` ends with the exit code `1`. -/
theorem main_codigo_uno (argc : Nat) (n w : Int) (e : Entorno) :
    ((argc ≠ 2 ∨ n ≤ 0) →
        main_matrices argc n e = some { codigo := 1, completado := false }) ∧
      ((argc ≠ 3 ∨ n ≤ 0 ∨ w ≤ 0) →
        main_hilos argc n w e = some { codigo := 1, completado := false }) ∧
      ((argc ≠ 3 ∨ n ≤ 0 ∨ w ≤ 0) →
        main_procesos argc n w e = some { codigo := 1, completado := false }) ∧
      ((argc ≠ 3 ∨ n ≤ 0 ∨ w ≤ 0) →
        main_openmp argc n w e = some { codigo := 1, completado := false }) := by
  refine ⟨fun h => ?_, fun h => ?_, fun h => ?_, fun h => ?_⟩
  · simp only [main_matrices, (main_matrices_n_iff argc n).2 h]
  · simp only [main_hilos, (main_hilos_num_hilos_iff argc n w).2 h]
  · simp only [main_procesos, (main_procesos_num_procesos_iff argc n w).2 h]
  · simp only [main_openmp, (main_openmp_num_hilos_iff argc n w).2 h]

/-- C11. The argument check of each matrix program returns the exit code `1`
if and only if the argument count is wrong (not one size argument for the
sequential program, not a size and a worker count for the thread, process and
OpenMP programs), or the parsed size is `≤ 0`, or, in the parallel programs,
the parsed worker count is `≤ 0`; in that case the program ends with the exit
code `1`, and for every other input, when the allocations succeed, the program
runs to its end and returns the exit code `0`. -/
theorem C11_codigos_de_salida (argc : Nat) (n w : Int) (e : Entorno)
    (hA : (e.crear_matriz 0).isSome) (hB : (e.crear_matriz 1).isSome)
    (hC : (e.crear_matriz 2).isSome) (hm : e.mmap.isSome) :
    ((main_matrices_n argc n = Except.error 1 ↔ (argc ≠ 2 ∨ n ≤ 0)) ∧
      (main_hilos_num_hilos argc n w = Except.error 1 ↔ (argc ≠ 3 ∨ n ≤ 0 ∨ w ≤ 0)) ∧
      (main_procesos_num_procesos argc n w = Except.error 1
        ↔ (argc ≠ 3 ∨ n ≤ 0 ∨ w ≤ 0)) ∧
      (main_openmp_num_hilos argc n w = Except.error 1
        ↔ (argc ≠ 3 ∨ n ≤ 0 ∨ w ≤ 0))) ∧
    (((argc ≠ 2 ∨ n ≤ 0) → (main_matrices argc n e).map Salida.codigo = some 1) ∧
      ((argc ≠ 3 ∨ n ≤ 0 ∨ w ≤ 0) → (main_hilos argc n w e).map Salida.codigo = some 1) ∧
      ((argc ≠ 3 ∨ n ≤ 0 ∨ w ≤ 0) →
        (main_procesos argc n w e).map Salida.codigo = some 1) ∧
      ((argc ≠ 3 ∨ n ≤ 0 ∨ w ≤ 0) →
        (main_openmp argc n w e).map Salida.codigo = some 1)) ∧
    ((¬ (argc ≠ 2 ∨ n ≤ 0) → (main_matrices argc n e).map Salida.codigo = some 0) ∧
      (¬ (argc ≠ 3 ∨ n ≤ 0 ∨ w ≤ 0) →
        (main_hilos argc n w e).map Salida.codigo = some 0) ∧
      (¬ (argc ≠ 3 ∨ n ≤ 0 ∨ w ≤ 0) →
        (main_procesos argc n w e).map Salida.codigo = some 0) ∧
      (¬ (argc ≠ 3 ∨ n ≤ 0 ∨ w ≤ 0) →
        (main_openmp argc n w e).map Salida.codigo = some 0)) := by
  obtain ⟨u1, u2, u3, u4⟩ := main_codigo_uno argc n w e
  refine ⟨⟨main_matrices_n_iff argc n, main_hilos_num_hilos_iff argc n w,
      main_procesos_num_procesos_iff argc n w, main_openmp_num_hilos_iff argc n w⟩,
    ⟨fun h => ?_, fun h => ?_, fun h => ?_, fun h => ?_⟩,
    ⟨fun h => ?_, fun h => ?_, fun h => ?_, fun h => ?_⟩⟩
  · rw [u1 h]; rfl
  · rw [u2 h]; rfl
  · rw [u3 h]; rfl
  · rw [u4 h]; rfl
  · rw [main_matrices_fin argc n e h hA hB hC]; rfl
  · rw [main_hilos_fin argc n w e h hA hB hC]; rfl
  · rw [main_procesos_fin argc n w e h hA hB hm]; rfl
  · rw [main_openmp_fin argc n w e h hA hB hC]; rfl

/-- C11, on the arguments `5 7` (size 5, 7 workers) in an environment where
every allocation succeeds: the parallel programs return `0`, the sequential
program, which takes one argument, returns `1`. -/
theorem C11_codigos_de_salida_witness :
    ((entorno_ej.crear_matriz 0).isSome ∧ (entorno_ej.crear_matriz 1).isSome ∧
      (entorno_ej.crear_matriz 2).isSome ∧ entorno_ej.mmap.isSome) ∧
    (main_matrices 3 5 entorno_ej).map Salida.codigo = some 1 ∧
    (main_hilos 3 5 7 entorno_ej).map Salida.codigo = some 0 ∧
    (main_procesos 3 5 7 entorno_ej).map Salida.codigo = some 0 ∧
    (main_openmp 3 5 7 entorno_ej).map Salida.codigo = some 0 :=
  have h := C11_codigos_de_salida 3 5 7 entorno_ej rfl rfl rfl rfl
  ⟨⟨rfl, rfl, rfl, rfl⟩, h.2.1.1 (Or.inl (by decide)), h.2.2.2.1 (by decide),
    h.2.2.2.2.1 (by decide), h.2.2.2.2.2 (by decide)⟩

/-- The fork loops of `main` with every fork failing leave the result buffer
as it is. -/
theorem main_procesos_sin_fork (A B : Matrix) (F : Buffer) (n w : Nat) :
    main_procesos_original_fork (fun _ => false) A B F n w = F ∧
      main_procesos_optimizada_fork (fun _ => false) A B F n w = some F := by
  constructor
  · unfold main_procesos_original_fork
    rw [main_procesos_bucle_eq]
    generalize List.range w = l
    induction l with
    | nil => rfl
    | cons t tl ih => exact ih
  · unfold main_procesos_optimizada_fork
    rw [main_procesos_bucle_eq]
    generalize List.range w = l
    induction l with
    | nil => rfl
    | cons t tl ih => exact ih

/-- C14, at a failing fork: with the arguments `2 2` and every `fork` returning
a negative pid, `main` of the process program still runs to its end, prints
its completion line and returns the exit code `0`, and neither fork loop has
changed the result buffer. -/
theorem C14_fork_fallido_sale_con_cero (A B : Matrix) (F : Buffer) :
    main_procesos 3 2 2 entorno_sin_fork = some { codigo := 0, completado := true } ∧
      main_procesos_original_fork entorno_sin_fork.fork A B F 2 2 = F ∧
      main_procesos_optimizada_fork entorno_sin_fork.fork A B F 2 2 = some F :=
  ⟨main_procesos_fin 3 2 2 entorno_sin_fork (by decide) rfl rfl rfl,
    (main_procesos_sin_fork A B F 2 2).1, (main_procesos_sin_fork A B F 2 2).2⟩

/-! ## No overflow on generated inputs -/

/-- A write to the cell `(i', j')` of a matrix with checked cells, seen from
the cell `(i, j)`. -/
theorem matrizx_set_view (C : MatrizX) (i' j' : Nat) (v : Option Int) (i j : Nat) :
    (C.set i' j' v) i j = if i' = i ∧ j' = j then v else C i j := by
  show (if i = i' ∧ j = j' then v else C i j) = _
  by_cases h : i' = i ∧ j' = j
  · obtain ⟨rfl, rfl⟩ := h
    simp
  · have h' : ¬ (i = i' ∧ j = j') := fun hh => h ⟨hh.1.symm, hh.2.symm⟩
    rw [if_neg h, if_neg h']

theorem set_acumular_x_view (A B : Matrix) (kk k_end i j i' j' : Nat) (C : MatrizX) :
    (C.set i' j' (acumular_x A B i' j' kk k_end (C i' j'))) i j
      = if i' = i ∧ j' = j then acumular_x A B i j kk k_end (C i j) else C i j := by
  rw [matrizx_set_view]
  by_cases h : i' = i ∧ j' = j
  · obtain ⟨rfl, rfl⟩ := h
    simp
  · rw [if_neg h, if_neg h]

/-- The zeroing loop of the blocked kernels on checked cells. -/
theorem memset_filas_x (C : MatrizX) (n fi ff i j : Nat) :
    (forLoop fi ff (fun i C => memsetRowX C i n) C) i j
      = if (fi ≤ i ∧ i < ff) ∧ j < n then some 0 else C i j := by
  rw [forLoop_proj (fun (C : MatrizX) => C i j) fi ff _
    (fun i' x => if i' = i then (if j < n then some 0 else x) else x) C]
  · rw [forLoop_single]
    by_cases h1 : fi ≤ i ∧ i < ff <;> by_cases h2 : j < n <;> simp [h1, h2]
  · intro t s _ _
    show memsetRowX s t n i j = _
    unfold memsetRowX
    by_cases h1 : t = i
    · subst h1; simp
    · have h1' : ¬ i = t := fun h => h1 h.symm
      simp [h1, h1']

/-- The naive loop nest over the rows `[fi, ff)` for any kind of cell and any
accumulation step `paso`, seen from one cell: a cell in the rows `[fi, ff)`
and the columns `[0, n)` ends as the accumulation from `cero` over `k` in
`[0, n)`, any other cell is left alone. -/
theorem ingenuo_view {σ α : Type} (π : σ → α) (wr : Nat → Nat → α → σ → σ)
    (rd : Nat → Nat → σ → α) (cero : α) (paso : Nat → Nat → Nat → α → α)
    (i j n fi ff : Nat)
    (hwr : ∀ i' j' v s, j' < n → π (wr i' j' v s) = if i' = i ∧ j' = j then v else π s)
    (hrd : ∀ s, rd i j s = π s) (s : σ) :
    π (forLoop fi ff (fun i' s =>
        forLoop 0 n (fun j' s =>
          forLoop 0 n (fun k s =>
            wr i' j' (paso i' j' k (rd i' j' s)) s) (wr i' j' cero s)) s) s)
      = if (fi ≤ i ∧ i < ff) ∧ j < n then forLoop 0 n (paso i j) cero else π s := by
  rw [tile_view π (fun i' j' s => forLoop 0 n (fun k s =>
        wr i' j' (paso i' j' k (rd i' j' s)) s) (wr i' j' cero s))
      (fun _ => forLoop 0 n (paso i j) cero) i j fi ff 0 n ?_ s]
  · by_cases h1 : fi ≤ i ∧ i < ff <;> by_cases h2 : j < n <;> simp [h1, h2]
  · intro i' j' s _ hj'
    show π (forLoop 0 n (fun k s =>
        wr i' j' (paso i' j' k (rd i' j' s)) s) (wr i' j' cero s)) = _
    rw [forLoop_proj π 0 n _
      (fun k x => if i' = i ∧ j' = j then paso i j k x else x)]
    · rw [forLoop_cond, hwr i' j' cero s hj']
      by_cases h : i' = i ∧ j' = j
      · simp only [h, and_self, if_true]
      · simp only [h, if_false]
    · intro k s _ _
      rw [hwr i' j' _ s hj']
      by_cases h : i' = i ∧ j' = j
      · obtain ⟨rfl, rfl⟩ := h
        simp only [and_self, if_true, hrd]
      · simp only [h, if_false]

/-- The function `multiplicar_matrices_original` with a checked accumulator,
cell by cell. -/
theorem original_x_cell (A B : Matrix) (C : MatrizX) (n i j : Nat) :
    multiplicar_matrices_original_x A B C n i j
      = if i < n ∧ j < n then acumular_x A B i j 0 n (some 0) else C i j := by
  have h := ingenuo_view (fun (C : MatrizX) => C i j) (fun i' j' v C => C.set i' j' v)
    (fun i' j' C => C i' j') (some 0)
    (fun i' j' k x => mas_producto_x x (A i' k) (B k j')) i j n 0 n
    (fun i' j' v s _ => matrizx_set_view s i' j' v i j)
    (fun _ => rfl) C
  simp only [Nat.zero_le, true_and] at h
  exact h

/-- The function `multiplicar_matrices_optimizada` with a checked accumulator:
it returns, and this is its result cell by cell. -/
theorem optimizada_x_cells (A B : Matrix) (C : MatrizX) (n : Nat) :
    ∃ C', multiplicar_matrices_optimizada_x A B C n = some C' ∧
      ∀ i j, C' i j
        = if i < n ∧ j < n then acumular_x A B i j 0 n (some 0) else C i j := by
  apply exists_of_cells
  intro i j
  obtain ⟨C', hC', hv⟩ := bloques_view (fun (C : MatrizX) => C i j)
    (fun kk k_end i' j' (C : MatrizX) =>
      C.set i' j' (acumular_x A B i' j' kk k_end (C i' j')))
    (fun k x => mas_producto_x x (A i k) (B k j)) i j n 64 (by decide)
    (fun kk k_end i' j' s _ => set_acumular_x_view A B kk k_end i j i' j' s)
    (forLoop 0 n (fun i C => memsetRowX C i n) C)
  refine ⟨C', hC', ?_⟩
  rw [hv]
  show (if i < n ∧ j < n then
      acumular_x A B i j 0 n ((forLoop 0 n (fun i C => memsetRowX C i n) C) i j)
    else (forLoop 0 n (fun i C => memsetRowX C i n) C) i j) = _
  rw [memset_filas_x]
  by_cases h : i < n ∧ j < n
  · simp [h]
  · have h' : ¬ ((0 ≤ i ∧ i < n) ∧ j < n) := fun hh => h ⟨hh.1.2, hh.2⟩
    rw [if_neg h, if_neg h, if_neg h']

/-- The function `multiplicar_matrices_hilo_optimizada` with a checked
accumulator: it returns, and this is its result cell by cell. -/
theorem hilo_optimizada_x_cells (datos : DatosMultiplicacion) (C : MatrizX) :
    ∃ C', multiplicar_matrices_hilo_optimizada_x datos C = some C' ∧
      ∀ i j, C' i j
        = if (datos.fila_inicio ≤ i ∧ i < datos.fila_fin) ∧ j < datos.n then
            acumular_x datos.A datos.B i j 0 datos.n (some 0) else C i j := by
  apply exists_of_cells
  intro i j
  obtain ⟨C', hC', hv⟩ := bloques_filas_view (fun (C : MatrizX) => C i j)
    (fun kk k_end i' j' (C : MatrizX) =>
      C.set i' j' (acumular_x datos.A datos.B i' j' kk k_end (C i' j')))
    (fun k x => mas_producto_x x (datos.A i k) (datos.B k j)) i j datos.n 32
    datos.fila_inicio datos.fila_fin (by decide)
    (fun kk k_end i' j' s _ => set_acumular_x_view datos.A datos.B kk k_end i j i' j' s)
    (forLoop datos.fila_inicio datos.fila_fin (fun i C => memsetRowX C i datos.n) C)
  refine ⟨C', hC', ?_⟩
  rw [hv]
  show (if (datos.fila_inicio ≤ i ∧ i < datos.fila_fin) ∧ j < datos.n then
      acumular_x datos.A datos.B i j 0 datos.n
        ((forLoop datos.fila_inicio datos.fila_fin (fun i C => memsetRowX C i datos.n) C) i j)
    else (forLoop datos.fila_inicio datos.fila_fin
        (fun i C => memsetRowX C i datos.n) C) i j) = _
  rw [memset_filas_x]
  by_cases h : (datos.fila_inicio ≤ i ∧ i < datos.fila_fin) ∧ j < datos.n
  · simp [h]
  · rw [if_neg h, if_neg h, if_neg h]

theorem en_rango_some (v : Int) (h0 : 0 ≤ v) (h1 : v ≤ 2147483647) : en_rango v = some v := by
  unfold en_rango
  rw [if_pos ⟨h0, h1⟩]

/-- The product of two entries of `[0, 100)` lies in `[0, 99 * 99]`. -/
theorem producto_cota (a b : Int) (ha : 0 ≤ a ∧ a < 100) (hb : 0 ≤ b ∧ b < 100) :
    0 ≤ a * b ∧ a * b ≤ 9801 := by
  constructor
  · exact Int.mul_nonneg ha.1 hb.1
  · have h1 : a * b ≤ 99 * b := Int.mul_le_mul_of_nonneg_right (by omega) hb.1
    omega

/-- With entries in `[0, 100)` and `n * 99 * 99 ≤ 2^31 - 1`, the checked
accumulation over any prefix `[0, m)` of `[0, n)` never fails: it gives the
exact sum of the products, which lies in `[0, m * 99 * 99]`. -/
theorem acumular_x_exacto (A B : Matrix) (i j n : Nat) (hn : n * 99 * 99 ≤ 2147483647)
    (hA : ∀ k, k < n → 0 ≤ A i k ∧ A i k < 100)
    (hB : ∀ k, k < n → 0 ≤ B k j ∧ B k j < 100) :
    ∀ m, m ≤ n →
      acumular_x A B i j 0 m (some 0) = some (∑ k in Finset.range m, A i k * B k j) ∧
      0 ≤ ∑ k in Finset.range m, A i k * B k j ∧
      ∑ k in Finset.range m, A i k * B k j ≤ (m : Int) * 9801 := by
  intro m
  induction m with
  | zero => intro _; exact ⟨rfl, by simp, by simp⟩
  | succ m ih =>
    intro hm
    obtain ⟨e, h0, h1⟩ := ih (by omega)
    obtain ⟨p0, p1⟩ := producto_cota (A i m) (B m j) (hA m (by omega)) (hB m (by omega))
    rw [Finset.sum_range_succ]
    refine ⟨?_, by omega, by push_cast; omega⟩
    have hstep : acumular_x A B i j 0 (m + 1) (some 0)
        = mas_producto_x (acumular_x A B i j 0 m (some 0)) (A i m) (B m j) := by
      unfold acumular_x forLoop
      rw [Nat.sub_zero, Nat.sub_zero, forLoopAux_snoc, Nat.zero_add]
    rw [hstep, e]
    unfold mas_producto_x
    rw [Option.some_bind, en_rango_some _ p0 (by omega), Option.some_bind,
      en_rango_some _ (by omega) (by omega)]

/-- With the same bounds the 32-bit accumulation is the exact sum. -/
theorem acumular_sin_vuelta (A B : Matrix) (i j n : Nat) (hn : n * 99 * 99 ≤ 2147483647)
    (hA : ∀ k, k < n → 0 ≤ A i k ∧ A i k < 100)
    (hB : ∀ k, k < n → 0 ≤ B k j ∧ B k j < 100) :
    acumular A B i j 0 n 0 = ∑ k in Finset.range n, A i k * B k j := by
  obtain ⟨_, h0, h1⟩ := acumular_x_exacto A B i j n hn hA hB n (Nat.le_refl n)
  rw [acumular_eq_sum]
  exact wrap32_of_range _ (by omega) (by omega)

/-- The naive kernel on `219109` columns of `99`: the exact sum is
`219109 * 9801`, above `2^31 - 1`, and the 32-bit result is negative. -/
theorem desborde_219109 (C : Matrix) :
    (∑ k in Finset.range 219109, M_99 0 k * M_99 k 0) = 2147487309 ∧
      multiplicar_matrices_original M_99 M_99 C 219109 0 0 = -2147479987 := by
  have e : (∑ k in Finset.range 219109, M_99 0 k * M_99 k 0) = 2147487309 := by
    simp [M_99]
  refine ⟨e, ?_⟩
  rw [original_cell, if_pos (by decide), acumular_eq_sum, e]
  decide

/-- C21. No overflow occurs on generated inputs of benchmark size: for every
`n` with `n * 99 * 99 ≤ 2^31 - 1` (that is, `n ≤ 219108`) and all `A`, `B`
with entries in `[0, 100)`, every value that the accumulator takes in the
naive kernel and in the blocked kernels lies in `[0, 2^31 - 1]` (the kernels
with a checked accumulator leave no `none` in their cells, and every prefix
of the accumulation is an exact sum in that range), so the 32-bit result is
the exact integer matrix product; and for `n = 219109` the entries `99`, which
lie in `[0, 100)`, give an exact sum above `2^31 - 1` and a negative 32-bit
result. -/
theorem C21_sin_desbordamiento (n fila_inicio fila_fin id : Nat)
    (hn : n * 99 * 99 ≤ 2147483647) (A B : Matrix)
    (hA : ∀ i k, i < n → k < n → 0 ≤ A i k ∧ A i k < 100)
    (hB : ∀ k j, k < n → j < n → 0 ≤ B k j ∧ B k j < 100)
    (C : Matrix) (X : MatrizX) :
    (n ≤ 219108 ∧
      (∀ i j m, i < n → j < n → m ≤ n →
        acumular_x A B i j 0 m (some 0) = some (∑ k in Finset.range m, A i k * B k j) ∧
        0 ≤ ∑ k in Finset.range m, A i k * B k j ∧
        ∑ k in Finset.range m, A i k * B k j ≤ 2147483647)) ∧
    ((∀ i j, i < n → j < n →
        multiplicar_matrices_original_x A B X n i j
          = some (∑ k in Finset.range n, A i k * B k j)) ∧
      (∃ X', multiplicar_matrices_optimizada_x A B X n = some X' ∧
        ∀ i j, i < n → j < n → X' i j = some (∑ k in Finset.range n, A i k * B k j)) ∧
      (∃ X', multiplicar_matrices_hilo_optimizada_x
          { A := A, B := B, n := n, fila_inicio := fila_inicio, fila_fin := fila_fin,
            hilo_id := id } X = some X' ∧
        ∀ i j, fila_inicio ≤ i → i < fila_fin → i < n → j < n →
          X' i j = some (∑ k in Finset.range n, A i k * B k j))) ∧
    ((∀ i j, i < n → j < n →
        multiplicar_matrices_original A B C n i j = ∑ k in Finset.range n, A i k * B k j) ∧
      (∃ C', multiplicar_matrices_optimizada A B C n = some C' ∧
        ∀ i j, i < n → j < n → C' i j = ∑ k in Finset.range n, A i k * B k j) ∧
      (∃ C', multiplicar_matrices_hilo_optimizada
          { A := A, B := B, n := n, fila_inicio := fila_inicio, fila_fin := fila_fin,
            hilo_id := id } C = some C' ∧
        ∀ i j, fila_inicio ≤ i → i < fila_fin → i < n → j < n →
          C' i j = ∑ k in Finset.range n, A i k * B k j)) ∧
    (¬ (219109 * 99 * 99 ≤ 2147483647) ∧
      (∀ i k, 0 ≤ M_99 i k ∧ M_99 i k < 100) ∧
      2147483647 < ∑ k in Finset.range 219109, M_99 0 k * M_99 k 0 ∧
      multiplicar_matrices_original M_99 M_99 C 219109 0 0 = -2147479987) := by
  have ex : ∀ i j, i < n → j < n → ∀ m, m ≤ n →
      acumular_x A B i j 0 m (some 0) = some (∑ k in Finset.range m, A i k * B k j) ∧
      0 ≤ ∑ k in Finset.range m, A i k * B k j ∧
      ∑ k in Finset.range m, A i k * B k j ≤ (m : Int) * 9801 :=
    fun i j hi hj => acumular_x_exacto A B i j n hn (fun k hk => hA i k hi hk)
      (fun k hk => hB k j hk hj)
  have sv : ∀ i j, i < n → j < n →
      acumular A B i j 0 n 0 = ∑ k in Finset.range n, A i k * B k j :=
    fun i j hi hj => acumular_sin_vuelta A B i j n hn (fun k hk => hA i k hi hk)
      (fun k hk => hB k j hk hj)
  refine ⟨⟨by omega, fun i j m hi hj hm => ?_⟩, ⟨fun i j hi hj => ?_, ?_, ?_⟩,
    ⟨fun i j hi hj => ?_, ?_, ?_⟩, ⟨by decide, fun i k => by unfold M_99; omega, ?_, ?_⟩⟩
  · obtain ⟨e, h0, h1⟩ := ex i j hi hj m hm
    exact ⟨e, h0, by omega⟩
  · rw [original_x_cell, if_pos ⟨hi, hj⟩]
    exact (ex i j hi hj n (Nat.le_refl n)).1
  · obtain ⟨X', hX', hv⟩ := optimizada_x_cells A B X n
    refine ⟨X', hX', fun i j hi hj => ?_⟩
    rw [hv, if_pos ⟨hi, hj⟩]
    exact (ex i j hi hj n (Nat.le_refl n)).1
  · obtain ⟨X', hX', hv⟩ := hilo_optimizada_x_cells
      { A := A, B := B, n := n, fila_inicio := fila_inicio, fila_fin := fila_fin,
        hilo_id := id } X
    refine ⟨X', hX', fun i j h1 h2 hi hj => ?_⟩
    rw [hv, if_pos ⟨⟨h1, h2⟩, hj⟩]
    exact (ex i j hi hj n (Nat.le_refl n)).1
  · rw [original_cell, if_pos ⟨hi, hj⟩]
    exact sv i j hi hj
  · obtain ⟨C', hC', hv⟩ := optimizada_bs_cells 64 (by decide) A B C n
    refine ⟨C', hC', fun i j hi hj => ?_⟩
    rw [hv, if_pos ⟨hi, hj⟩]
    exact sv i j hi hj
  · obtain ⟨C', hC', hv⟩ := hilo_optimizada_bs_cells 32 (by decide)
      { A := A, B := B, n := n, fila_inicio := fila_inicio, fila_fin := fila_fin,
        hilo_id := id } C
    refine ⟨C', hC', fun i j h1 h2 hi hj => ?_⟩
    rw [hv, if_pos ⟨⟨h1, h2⟩, hj⟩]
    exact sv i j hi hj
  · rw [(desborde_219109 C).1]
    decide
  · exact (desborde_219109 C).2

theorem M_gen_rango (i j : Nat) : 0 ≤ M_gen i j ∧ M_gen i j < 100 := by
  unfold M_gen
  omega

/-- C21, on a 3 × 3 product of generated matrices: the cell `(1, 2)` of the
naive kernel, checked and in 32 bits. -/
theorem C21_sin_desbordamiento_witness :
    (3 * 99 * 99 ≤ 2147483647 ∧
      (∀ i k, i < 3 → k < 3 → 0 ≤ M_gen i k ∧ M_gen i k < 100) ∧
      (∀ k j, k < 3 → j < 3 → 0 ≤ M_gen k j ∧ M_gen k j < 100)) ∧
    multiplicar_matrices_original_x M_gen M_gen X_ej 3 1 2
      = some (∑ k in Finset.range 3, M_gen 1 k * M_gen k 2) ∧
    multiplicar_matrices_original M_gen M_gen C_ej 3 1 2
      = ∑ k in Finset.range 3, M_gen 1 k * M_gen k 2 :=
  have h := C21_sin_desbordamiento 3 0 3 0 (by decide) M_gen M_gen
    (fun i k _ _ => M_gen_rango i k) (fun k j _ _ => M_gen_rango k j) C_ej X_ej
  ⟨⟨by decide, fun i k _ _ => M_gen_rango i k, fun k j _ _ => M_gen_rango k j⟩,
    h.2.1.1 1 2 (by decide) (by decide), h.2.2.1.1 1 2 (by decide) (by decide)⟩

/-! ## Indices in bounds -/

theorem forLoopAuxM_sim {σ τ : Type} (θ : τ → σ) (bodyM : Nat → σ → Option σ)
    (body : Nat → τ → τ) :
    ∀ cnt lo d, (∀ t, lo ≤ t → t < lo + cnt → ∀ d, bodyM t (θ d) = some (θ (body t d))) →
      forLoopAuxM bodyM cnt lo (θ d) = some (θ (forLoopAux body cnt lo d))
  | 0, _, _, _ => rfl
  | cnt + 1, lo, d, h => by
    rw [forLoopAuxM, forLoopAux, h lo (Nat.le_refl lo) (by omega) d, Option.some_bind]
    exact forLoopAuxM_sim θ bodyM body cnt (lo + 1) _
      (fun t h1 h2 => h t (by omega) (by omega))

/-- A loop whose body never fails on the states `θ d`, and acts on them as
`body` acts on `d`, does not fail and acts as the loop of `body`. -/
theorem forLoopM_sim {σ τ : Type} (θ : τ → σ) (bodyM : Nat → σ → Option σ)
    (body : Nat → τ → τ) (lo hi : Nat)
    (h : ∀ t, lo ≤ t → t < hi → ∀ d, bodyM t (θ d) = some (θ (body t d))) (d : τ) :
    forLoopM lo hi bodyM (θ d) = some (θ (forLoop lo hi body d)) :=
  forLoopAuxM_sim θ bodyM body (hi - lo) lo d (fun t h1 h2 => h t h1 (by omega))

theorem forStepAux_sim {σ τ : Type} (θ : τ → σ) (bodyM : Nat → σ → Option σ)
    (body : Nat → τ → Option τ) (hi step : Nat)
    (h : ∀ t, t < hi → ∀ d, bodyM t (θ d) = (body t d).map θ) :
    ∀ fuel i d, forStepAux hi step bodyM fuel i (θ d)
      = (forStepAux hi step body fuel i d).map θ
  | 0, i, d => by
    simp only [forStepAux]
    split <;> rfl
  | fuel + 1, i, d => by
    simp only [forStepAux]
    split
    · rename_i hlt
      rw [h i hlt d]
      cases body i d with
      | none => rfl
      | some d' =>
        simp only [Option.map_some', Option.some_bind]
        exact forStepAux_sim θ bodyM body hi step h fuel (i + step) d'
    · rfl

/-- A block loop whose body acts on the states `θ d` as `body` acts on `d`
acts as the block loop of `body`. -/
theorem forStep_sim {σ τ : Type} (θ : τ → σ) (bodyM : Nat → σ → Option σ)
    (body : Nat → τ → Option τ) (hi step : Nat)
    (h : ∀ t, t < hi → ∀ d, bodyM t (θ d) = (body t d).map θ) (d : τ) :
    forStep hi step bodyM (θ d) = (forStep hi step body d).map θ :=
  forStepAux_sim θ bodyM body hi step h hi 0 d

/-- A loop with an iteration that fails on every state fails. -/
theorem forLoopAuxM_none {σ : Type} (body : Nat → σ → Option σ) (t : Nat)
    (ht : ∀ s, body t s = none) :
    ∀ cnt lo s, lo ≤ t → t < lo + cnt → forLoopAuxM body cnt lo s = none
  | 0, _, _, h1, h2 => by omega
  | cnt + 1, lo, s, h1, h2 => by
    rw [forLoopAuxM]
    by_cases e : lo = t
    · rw [e, ht s]
      rfl
    · cases body lo s with
      | none => rfl
      | some s' =>
        exact forLoopAuxM_none body t ht cnt (lo + 1) s' (by omega) (by omega)

theorem forLoopM_none {σ : Type} (body : Nat → σ → Option σ) (lo hi t : Nat)
    (h1 : lo ≤ t) (h2 : t < hi) (ht : ∀ s, body t s = none) (s : σ) :
    forLoopM lo hi body s = none :=
  forLoopAuxM_none body t ht (hi - lo) lo s h1 (by omega)

theorem como_int_some (v : Nat) (h : v ≤ 2147483647) : como_int v = some v := by
  unfold como_int
  rw [if_pos h]

theorem indice_plano_some (i n j : Nat) (h : i * n + j ≤ 2147483647) :
    indice_plano i n j = some (i * n + j) := by
  unfold indice_plano
  rw [como_int_some (i * n) (by omega), Option.some_bind, como_int_some _ h]

/-- A flat offset of a cell of an `n × n` matrix is below `n * n`. -/
theorem indice_plano_cota (i n j : Nat) (hi : i < n) (hj : j < n) : i * n + j < n * n := by
  have h : (i + 1) * n ≤ n * n := Nat.mul_le_mul_right n hi
  rw [Nat.add_mul, Nat.one_mul] at h
  omega

theorem acumular_v_eq (A B : MatrizA) (i j kk k_end : Nat) (sum : Int)
    (hi : i < A.filas) (hk : k_end ≤ A.columnas) (hk' : k_end ≤ B.filas)
    (hj : j < B.columnas) :
    acumular_v A B i j kk k_end sum = some (acumular A.dat B.dat i j kk k_end sum) := by
  unfold acumular_v acumular
  refine forLoopM_sim id _ _ kk k_end (fun k _ h2 s => ?_) sum
  simp only [MatrizA.leer, id]
  rw [if_pos ⟨hi, by omega⟩, if_pos ⟨by omega, hj⟩]
  rfl

/-- A tile of the blocked kernels on a 2-D matrix, with checked indices: when
the rows, the columns and the reduction indices of the tile end at `n` at
most, no access fails and the tile acts on the content as the tile of the
kernels without checks. -/
theorem bloque_v_eq (A B C : MatrizA) (n : Nat)
    (hA : A.filas = n ∧ A.columnas = n) (hB : B.filas = n ∧ B.columnas = n)
    (hC : C.filas = n ∧ C.columnas = n)
    (lo hi jj j_end kk k_end : Nat) (hhi : hi ≤ n) (hj : j_end ≤ n) (hk : k_end ≤ n)
    (d : Matrix) :
    forLoopM lo hi (fun i X =>
        forLoopM jj j_end (fun j (X : MatrizA) =>
          (X.leer i j).bind (fun sum =>
          (acumular_v A B i j kk k_end sum).bind (fun sum =>
          X.escribir i j sum))) X) { C with dat := d }
      = some { C with dat := forLoop lo hi (fun i D =>
          forLoop jj j_end (fun j D =>
            D.set i j (acumular A.dat B.dat i j kk k_end (D i j))) D) d } := by
  refine forLoopM_sim (fun d => ({ C with dat := d } : MatrizA)) _ _ lo hi
    (fun i _ h2 d => ?_) d
  refine forLoopM_sim (fun d => ({ C with dat := d } : MatrizA)) _ _ jj j_end
    (fun j _ h4 d => ?_) d
  have hi : i < n := by omega
  have hj' : j < n := by omega
  simp only [MatrizA.leer, MatrizA.escribir]
  rw [if_pos ⟨by omega, by omega⟩, Option.some_bind,
    acumular_v_eq A B i j kk k_end _ (by omega) (by omega) (by omega) (by omega),
    Option.some_bind, if_pos ⟨by omega, by omega⟩]

theorem memset_filas_v_eq (C : MatrizA) (n lo hi : Nat)
    (hC : C.filas = n ∧ C.columnas = n) (hhi : hi ≤ n) (d : Matrix) :
    forLoopM lo hi (fun i (X : MatrizA) => X.memset_fila i n) { C with dat := d }
      = some { C with dat := forLoop lo hi (fun i D => memsetRow D i n) d } := by
  refine forLoopM_sim (fun d => ({ C with dat := d } : MatrizA)) _ _ lo hi
    (fun i _ h2 d => ?_) d
  simp only [MatrizA.memset_fila]
  rw [if_pos ⟨by omega, by omega⟩]

/-- The thread kernel with checked indices, on `n × n` allocations and rows
up to `n`, with `n + 32` in the `int` range: no access fails, and the content
of the result is that of the kernel without checks. -/
theorem hilo_optimizada_v_eq (datos : DatosMultiplicacionA) (C : MatrizA)
    (hA : datos.A.filas = datos.n ∧ datos.A.columnas = datos.n)
    (hB : datos.B.filas = datos.n ∧ datos.B.columnas = datos.n)
    (hC : C.filas = datos.n ∧ C.columnas = datos.n)
    (hff : datos.fila_fin ≤ datos.n) (hint : datos.n + 32 ≤ 2147483648) :
    multiplicar_matrices_hilo_optimizada_v datos C
      = (multiplicar_matrices_hilo_optimizada datos.datos C.dat).map
          (fun d => ({ C with dat := d } : MatrizA)) := by
  unfold multiplicar_matrices_hilo_optimizada_v multiplicar_matrices_hilo_optimizada
    multiplicar_matrices_hilo_optimizada_bs DatosMultiplicacionA.datos
  have h0 := memset_filas_v_eq C datos.n datos.fila_inicio datos.fila_fin hC hff C.dat
  rw [h0, Option.some_bind]
  refine forStep_sim (fun d => ({ C with dat := d } : MatrizA)) _ _ datos.n 32
    (fun kk hkk d => ?_) _
  rw [como_int_some (kk + 32) (by omega), Option.some_bind]
  refine forStep_sim (fun d => ({ C with dat := d } : MatrizA)) _ _ datos.n 32
    (fun jj hjj d => ?_) _
  rw [como_int_some (jj + 32) (by omega), Option.some_bind]
  exact bloque_v_eq datos.A datos.B C datos.n hA hB hC _ _ _ _ _ _ hff
    (by split <;> omega) (by split <;> omega) d

/-- The sequential blocked kernel with checked indices, on `n × n`
allocations, with `n + 64` in the `int` range: no access fails, and the
content of the result is that of the kernel without checks. -/
theorem optimizada_v_eq (A B C : MatrizA) (n : Nat)
    (hA : A.filas = n ∧ A.columnas = n) (hB : B.filas = n ∧ B.columnas = n)
    (hC : C.filas = n ∧ C.columnas = n) (hint : n + 64 ≤ 2147483648) :
    multiplicar_matrices_optimizada_v A B C n
      = (multiplicar_matrices_optimizada A.dat B.dat C.dat n).map
          (fun d => ({ C with dat := d } : MatrizA)) := by
  unfold multiplicar_matrices_optimizada_v multiplicar_matrices_optimizada
    multiplicar_matrices_optimizada_bs
  have h0 := memset_filas_v_eq C n 0 n hC (Nat.le_refl n) C.dat
  rw [h0, Option.some_bind]
  refine forStep_sim (fun d => ({ C with dat := d } : MatrizA)) _ _ n 64
    (fun ii hii d => ?_) _
  refine forStep_sim (fun d => ({ C with dat := d } : MatrizA)) _ _ n 64
    (fun jj hjj d => ?_) _
  refine forStep_sim (fun d => ({ C with dat := d } : MatrizA)) _ _ n 64
    (fun kk hkk d => ?_) _
  rw [como_int_some (ii + 64) (by omega), Option.some_bind,
    como_int_some (jj + 64) (by omega), Option.some_bind,
    como_int_some (kk + 64) (by omega), Option.some_bind]
  exact bloque_v_eq A B C n hA hB hC _ _ _ _ _ _ (by split <;> omega)
    (by split <;> omega) (by split <;> omega) d

/-- A tile of the blocked process kernel, with checked indices: when the
rows, the columns and the reduction indices of the tile end at `n` at most and
`n * n` is in the `int` range, no access fails and the tile acts on the
content as the tile of the kernel without checks. -/
theorem bloque_plano_v_eq (A B : MatrizA) (C : BufferA) (n : Nat)
    (hA : A.filas = n ∧ A.columnas = n) (hB : B.filas = n ∧ B.columnas = n)
    (hC : C.len = n * n) (hint : n * n ≤ 2147483647)
    (lo hi jj j_end kk k_end : Nat) (hhi : hi ≤ n) (hj : j_end ≤ n) (hk : k_end ≤ n)
    (d : Buffer) :
    forLoopM lo hi (fun i X =>
        forLoopM jj j_end (fun j (X : BufferA) =>
          (indice_plano i n j).bind (fun p =>
          (X.leer p).bind (fun sum =>
          (acumular_v A B i j kk k_end sum).bind (fun sum =>
          (indice_plano i n j).bind (fun p =>
          X.escribir p sum))))) X) { C with dat := d }
      = some { C with dat := forLoop lo hi (fun i D =>
          forLoop jj j_end (fun j D =>
            D.set (i * n + j) (acumular A.dat B.dat i j kk k_end (D (i * n + j)))) D) d } := by
  refine forLoopM_sim (fun d => ({ C with dat := d } : BufferA)) _ _ lo hi
    (fun i _ h2 d => ?_) d
  refine forLoopM_sim (fun d => ({ C with dat := d } : BufferA)) _ _ jj j_end
    (fun j _ h4 d => ?_) d
  have hp := indice_plano_cota i n j (by omega) (by omega)
  simp only [BufferA.leer, BufferA.escribir]
  rw [indice_plano_some i n j (by omega), Option.some_bind, if_pos (by omega),
    Option.some_bind,
    acumular_v_eq A B i j kk k_end _ (by omega) (by omega) (by omega) (by omega),
    Option.some_bind, Option.some_bind, if_pos (by omega)]

/-- The blocked process kernel with checked indices, on `n × n` allocations,
a buffer of `n * n` cells and rows up to `n`, with `n * n` in the `int` range:
no access fails, and the content of the result is that of the kernel without
checks. -/
theorem proceso_optimizada_v_eq (A B : MatrizA) (C : BufferA)
    (n fila_inicio fila_fin proc_id : Nat)
    (hA : A.filas = n ∧ A.columnas = n) (hB : B.filas = n ∧ B.columnas = n)
    (hC : C.len = n * n) (hff : fila_fin ≤ n) (hint : n * n ≤ 2147483647) :
    multiplicar_matrices_proceso_optimizada_v A B C n fila_inicio fila_fin proc_id
      = (multiplicar_matrices_proceso_optimizada A.dat B.dat C.dat n fila_inicio fila_fin
          proc_id).map (fun d => ({ C with dat := d } : BufferA)) := by
  unfold multiplicar_matrices_proceso_optimizada_v multiplicar_matrices_proceso_optimizada
    multiplicar_matrices_proceso_optimizada_bs
  have hn : n + 32 ≤ 2147483648 := by
    by_cases h : n ≤ 46340
    · omega
    · have : 46341 * 46341 ≤ n * n := Nat.mul_le_mul (by omega) (by omega)
      omega
  have h0 : forLoopM fila_inicio fila_fin (fun i X =>
      forLoopM 0 n (fun j (X : BufferA) =>
        (indice_plano i n j).bind (fun p => X.escribir p 0)) X) C
      = some { C with dat := forLoop fila_inicio fila_fin (fun i D =>
          forLoop 0 n (fun j D => D.set (i * n + j) 0) D) C.dat } := by
    refine forLoopM_sim (fun d => ({ C with dat := d } : BufferA)) _ _ fila_inicio fila_fin
      (fun i _ h2 d => ?_) C.dat
    refine forLoopM_sim (fun d => ({ C with dat := d } : BufferA)) _ _ 0 n
      (fun j _ h4 d => ?_) d
    have hp := indice_plano_cota i n j (by omega) (by omega)
    simp only [BufferA.escribir]
    rw [indice_plano_some i n j (by omega), Option.some_bind, if_pos (by omega)]
  rw [h0, Option.some_bind]
  refine forStep_sim (fun d => ({ C with dat := d } : BufferA)) _ _ n 32
    (fun kk hkk d => ?_) _
  rw [como_int_some (kk + 32) (by omega), Option.some_bind]
  refine forStep_sim (fun d => ({ C with dat := d } : BufferA)) _ _ n 32
    (fun jj hjj d => ?_) _
  rw [como_int_some (jj + 32) (by omega), Option.some_bind]
  exact bloque_plano_v_eq A B C n hA hB hC hint _ _ _ _ _ _ hff
    (by split <;> omega) (by split <;> omega) d

/-- The naive process kernel with checked indices, on `n × n` allocations, a
buffer of `n * n` cells and rows up to `n`, with `n * n` in the `int` range:
no access fails, and the content of the result is that of the kernel without
checks. -/
theorem proceso_original_v_eq (A B : MatrizA) (C : BufferA)
    (n fila_inicio fila_fin proc_id : Nat)
    (hA : A.filas = n ∧ A.columnas = n) (hB : B.filas = n ∧ B.columnas = n)
    (hC : C.len = n * n) (hff : fila_fin ≤ n) (hint : n * n ≤ 2147483647) :
    multiplicar_matrices_proceso_original_v A B C n fila_inicio fila_fin proc_id
      = some { C with dat := (multiplicar_matrices_proceso_original A.dat B.dat C.dat n
          fila_inicio fila_fin proc_id) } := by
  unfold multiplicar_matrices_proceso_original_v multiplicar_matrices_proceso_original
  refine forLoopM_sim (fun d => ({ C with dat := d } : BufferA)) _ _ fila_inicio fila_fin
    (fun i _ h2 d => ?_) C.dat
  refine forLoopM_sim (fun d => ({ C with dat := d } : BufferA)) _ _ 0 n
    (fun j _ h4 d => ?_) d
  have hp := indice_plano_cota i n j (by omega) (by omega)
  simp only [BufferA.escribir]
  rw [indice_plano_some i n j (by omega), Option.some_bind, if_pos (by omega),
    Option.some_bind]
  refine forLoopM_sim (fun d => ({ C with dat := d } : BufferA)) _ _ 0 n
    (fun k _ h6 d => ?_) _
  simp only [BufferA.leer, BufferA.escribir, MatrizA.leer]
  rw [Option.some_bind, if_pos (by omega),
    Option.some_bind, if_pos ⟨by omega, by omega⟩, Option.some_bind,
    if_pos ⟨by omega, by omega⟩, Option.some_bind, if_pos (by omega)]

/-- In row 46340 of a matrix of size 46341 the flat offset of column 41708 is
`2^31`: the expression `i * n + j` has no value of type `int`. -/
theorem indice_plano_46341 : indice_plano 46340 46341 41708 = none := by
  decide

/-- The loop over the columns of row 46340, for a matrix of size 46341, fails
whatever its body does with the offset. -/
theorem fila_46340_falla (f : Nat → Nat → BufferA → Option BufferA) (X : BufferA) :
    forLoopM 0 46341 (fun j (X : BufferA) =>
      (indice_plano 46340 46341 j).bind (fun p => f j p X)) X = none :=
  forLoopM_none _ 0 46341 41708 (by decide) (by decide)
    (fun s => by
      show (indice_plano 46340 46341 41708).bind _ = none
      rw [indice_plano_46341]
      rfl) X

/-- C22, as stated, fails: the preconditions hold for `n = 46341` and the row
range `[46340, 46341)`, on allocations of 46341 rows of 46341 cells and a flat
buffer of `46341 * 46341` cells, and the exact offset of column 41708 of row
46340 is below `n * n`; but it is `2^31`, so the `int` expression `i * n + j`
overflows (its 32-bit value is `-2^31`, not an offset of the buffer), and both
process kernels with checked indices fail. -/
theorem C22_counterexample :
    (1 ≤ 46341 ∧ 46340 ≤ 46341 ∧ 46341 ≤ 46341) ∧
    (A_46341.filas = 46341 ∧ A_46341.columnas = 46341 ∧ F_46341.len = 46341 * 46341) ∧
    (46340 * 46341 + 41708 < 46341 * 46341 ∧ 2147483647 < 46340 * 46341 + 41708) ∧
    add32 (mul32 46340 46341) 41708 = -2147483648 ∧
    indice_plano 46340 46341 41708 = none ∧
    multiplicar_matrices_proceso_optimizada_v A_46341 A_46341 F_46341 46341 46340 46341 0
      = none ∧
    multiplicar_matrices_proceso_original_v A_46341 A_46341 F_46341 46341 46340 46341 0
      = none := by
  refine ⟨by decide, ⟨rfl, rfl, rfl⟩, by decide, by decide, by decide, ?_, ?_⟩
  · unfold multiplicar_matrices_proceso_optimizada_v
    rw [forLoopM_none (fun i (X : BufferA) =>
        forLoopM 0 46341 (fun j (X : BufferA) =>
          (indice_plano i 46341 j).bind (fun p => X.escribir p 0)) X)
      46340 46341 46340 (Nat.le_refl _) (by decide)
      (fun s => fila_46340_falla (fun _ p X => X.escribir p 0) s) F_46341]
    rfl
  · unfold multiplicar_matrices_proceso_original_v
    exact forLoopM_none _ 46340 46341 46340 (Nat.le_refl _) (by decide)
      (fun s => fila_46340_falla (fun j p X => (X.escribir p 0).bind (fun C =>
        forLoopM 0 46341 (fun k (C : BufferA) =>
          (indice_plano 46340 46341 j).bind (fun p =>
          (C.leer p).bind (fun c =>
          (A_46341.leer 46340 k).bind (fun a =>
          (A_46341.leer k j).bind (fun b =>
          C.escribir p (add32 c (mul32 a b))))))) C)) s) F_46341

/-- C22, amended. Under `n ≥ 1` and `fila_inicio ≤ fila_fin ≤ n`, on
allocations of `n` rows of `n` cells for `A`, `B` and `C` and of `n * n` cells
for the flat `C`, and with the index arithmetic in the `int` range
(`n + 64 ≤ 2^31` for the block bounds and, for the process kernels,
`n * n ≤ 2^31 - 1`): the row range lies within `[0, n]`, the tile ends never
exceed `n`, every flat offset `i * n + j` of a row of the range is below
`n * n`, and the sequential, thread and process kernels with checked indices
do not fail (no row, column, reduction index or offset that they use is
outside the allocation, which is `[0, n)` or `[0, n * n)`) and leave the
content that the kernels without checks compute. -/
theorem C22_indices_en_rango (A B C : MatrizA) (F : BufferA)
    (n fila_inicio fila_fin id : Nat)
    (hn : 1 ≤ n) (hf : fila_inicio ≤ fila_fin) (hff : fila_fin ≤ n)
    (hA : A.filas = n ∧ A.columnas = n) (hB : B.filas = n ∧ B.columnas = n)
    (hC : C.filas = n ∧ C.columnas = n) (hF : F.len = n * n)
    (hint : n + 64 ≤ 2147483648) :
    (fila_inicio ≤ n ∧ (∀ x bs, (if x + bs < n then x + bs else n) ≤ n) ∧
      (∀ i j, fila_inicio ≤ i → i < fila_fin → j < n → i < n ∧ i * n + j < n * n)) ∧
    (∃ D, multiplicar_matrices_optimizada A.dat B.dat C.dat n = some D ∧
      multiplicar_matrices_optimizada_v A B C n = some { C with dat := D }) ∧
    (∃ D, multiplicar_matrices_hilo_optimizada
        { A := A.dat, B := B.dat, n := n, fila_inicio := fila_inicio, fila_fin := fila_fin,
          hilo_id := id } C.dat = some D ∧
      multiplicar_matrices_hilo_optimizada_v
        { A := A, B := B, n := n, fila_inicio := fila_inicio, fila_fin := fila_fin,
          hilo_id := id } C = some { C with dat := D }) ∧
    (n * n ≤ 2147483647 →
      (∀ i j, fila_inicio ≤ i → i < fila_fin → j < n →
        indice_plano i n j = some (i * n + j)) ∧
      (∃ D, multiplicar_matrices_proceso_optimizada A.dat B.dat F.dat n fila_inicio fila_fin id
          = some D ∧
        multiplicar_matrices_proceso_optimizada_v A B F n fila_inicio fila_fin id
          = some { F with dat := D }) ∧
      multiplicar_matrices_proceso_original_v A B F n fila_inicio fila_fin id
        = some { F with dat := (multiplicar_matrices_proceso_original A.dat B.dat F.dat n
            fila_inicio fila_fin id) }) := by
  refine ⟨⟨Nat.le_trans hf hff, fun x bs => by split <;> omega, fun i j _ h2 hj =>
      ⟨by omega, indice_plano_cota i n j (by omega) hj⟩⟩, ?_, ?_, fun hnn => ⟨?_, ?_, ?_⟩⟩
  · obtain ⟨D, hD, _⟩ := optimizada_bs_cells 64 (by decide) A.dat B.dat C.dat n
    refine ⟨D, hD, ?_⟩
    rw [optimizada_v_eq A B C n hA hB hC hint]
    unfold multiplicar_matrices_optimizada
    rw [hD]
    rfl
  · obtain ⟨D, hD, _⟩ := hilo_optimizada_bs_cells 32 (by decide)
      { A := A.dat, B := B.dat, n := n, fila_inicio := fila_inicio, fila_fin := fila_fin,
        hilo_id := id } C.dat
    refine ⟨D, hD, ?_⟩
    rw [hilo_optimizada_v_eq _ C hA hB hC hff (by show n + 32 ≤ 2147483648; omega)]
    unfold multiplicar_matrices_hilo_optimizada DatosMultiplicacionA.datos
    rw [hD]
    rfl
  · intro i j _ h2 hj
    have hp := indice_plano_cota i n j (by omega) hj
    exact indice_plano_some i n j (by omega)
  · obtain ⟨D, hD, _⟩ := proceso_optimizada_bs_cells 32 (by decide) A.dat B.dat F.dat n
      fila_inicio fila_fin id
    refine ⟨D, hD, ?_⟩
    rw [proceso_optimizada_v_eq A B F n fila_inicio fila_fin id hA hB hF hff hnn]
    unfold multiplicar_matrices_proceso_optimizada
    rw [hD]
    rfl
  · exact proceso_original_v_eq A B F n fila_inicio fila_fin id hA hB hF hff hnn

/-- C22, amended, on 3 × 3 allocations and the rows `[1, 3)`. -/
theorem C22_indices_en_rango_witness :
    (1 ≤ 3 ∧ 1 ≤ 3 ∧ 3 ≤ 3 ∧ (A_3.filas = 3 ∧ A_3.columnas = 3) ∧
      (C_3.filas = 3 ∧ C_3.columnas = 3) ∧ F_9.len = 3 * 3 ∧ 3 + 64 ≤ 2147483648 ∧
      3 * 3 ≤ 2147483647) ∧
    (∃ D, multiplicar_matrices_hilo_optimizada
        { A := A_3.dat, B := A_3.dat, n := 3, fila_inicio := 1, fila_fin := 3,
          hilo_id := 0 } C_3.dat = some D ∧
      multiplicar_matrices_hilo_optimizada_v
        { A := A_3, B := A_3, n := 3, fila_inicio := 1, fila_fin := 3,
          hilo_id := 0 } C_3 = some { C_3 with dat := D }) ∧
    multiplicar_matrices_proceso_original_v A_3 A_3 F_9 3 1 3 0
      = some { F_9 with dat := (multiplicar_matrices_proceso_original A_3.dat A_3.dat
          F_9.dat 3 1 3 0) } :=
  have h := C22_indices_en_rango A_3 A_3 C_3 F_9 3 1 3 0 (by decide) (by decide) (by decide)
    ⟨rfl, rfl⟩ ⟨rfl, rfl⟩ ⟨rfl, rfl⟩ rfl (by decide)
  ⟨⟨by decide, by decide, by decide, ⟨rfl, rfl⟩, ⟨rfl, rfl⟩, rfl, by decide, by decide⟩,
    h.2.2.1, (h.2.2.2 (by decide)).2.2⟩

/-! ## The process kernels in the `int` range -/

/-- A failing step after any step fails. -/
theorem bind_falla {α β : Type} (o : Option α) (f : α → Option β) (h : ∀ a, f a = none) :
    o.bind f = none := by
  cases o with
  | none => rfl
  | some a => exact h a

/-- Steps that cannot fail, folded over a list. -/
theorem foldl_bind_some {τ ι : Type} (g : ι → τ → τ) (l : List ι) (d : τ) :
    l.foldl (fun (C : Option τ) r => C.bind (fun d => some (g r d))) (some d)
      = some (l.foldl (fun d r => g r d) d) := by
  induction l generalizing d with
  | nil => rfl
  | cons a t ih =>
    rw [List.foldl_cons, List.foldl_cons, Option.some_bind]
    exact ih _

/-- Steps that act on the states `θ d` as the steps `k` act on `d`, folded
over a list, act as the fold of `k`. -/
theorem foldl_bind_sim {σ τ ι : Type} (θ : τ → σ) (kv : ι → σ → Option σ)
    (k : ι → τ → Option τ) (l : List ι)
    (h : ∀ r, r ∈ l → ∀ d, kv r (θ d) = (k r d).map θ) (o : Option τ) :
    l.foldl (fun (C : Option σ) r => C.bind (kv r)) (o.map θ)
      = (l.foldl (fun (C : Option τ) r => C.bind (k r)) o).map θ := by
  induction l generalizing o with
  | nil => rfl
  | cons a t ih =>
    rw [List.foldl_cons, List.foldl_cons]
    have e : (o.map θ).bind (kv a) = (o.bind (k a)).map θ := by
      cases o with
      | none => rfl
      | some d => exact h a (List.mem_cons_self a t) d
    rw [e]
    exact ih (fun r hr => h r (List.mem_cons_of_mem a hr)) _

/-- The blocked process kernel with checked indices, on allocations of `n`
rows of `n` cells and a buffer of `n * n` cells, for rows up to `n` and `n * n`
in the `int` range, acts on the content as the kernel on exact offsets. -/
theorem proceso_optimizada_v_sim (A B : Matrix) (n fi ff id : Nat) (hff : ff ≤ n)
    (hint : n * n ≤ 2147483647) (D : Buffer) :
    multiplicar_matrices_proceso_optimizada_v { filas := n, columnas := n, dat := A }
        { filas := n, columnas := n, dat := B } { len := n * n, dat := D } n fi ff id
      = (multiplicar_matrices_proceso_optimizada A B D n fi ff id).map
          (fun D => ({ len := n * n, dat := D } : BufferA)) :=
  proceso_optimizada_v_eq { filas := n, columnas := n, dat := A }
    { filas := n, columnas := n, dat := B } { len := n * n, dat := D } n fi ff id
    ⟨rfl, rfl⟩ ⟨rfl, rfl⟩ rfl hff hint

/-- The naive process kernel with checked indices, under the same
conditions. -/
theorem proceso_original_v_sim (A B : Matrix) (n fi ff id : Nat) (hff : ff ≤ n)
    (hint : n * n ≤ 2147483647) (D : Buffer) :
    multiplicar_matrices_proceso_original_v { filas := n, columnas := n, dat := A }
        { filas := n, columnas := n, dat := B } { len := n * n, dat := D } n fi ff id
      = some { len := n * n, dat := multiplicar_matrices_proceso_original A B D n fi ff id } :=
  proceso_original_v_eq { filas := n, columnas := n, dat := A }
    { filas := n, columnas := n, dat := B } { len := n * n, dat := D } n fi ff id
    ⟨rfl, rfl⟩ ⟨rfl, rfl⟩ rfl hff hint

/-- The blocked process kernel with checked indices returns when `n * n` is in
the `int` range, and its result, offset by offset and cell by cell, is the
accumulation from `0` inside the rows `[fi, ff)` and the initial content
elsewhere. -/
theorem proceso_optimizada_v_offsets (A B : Matrix) (F : Buffer) (n fi ff id : Nat)
    (hff : ff ≤ n) (hint : n * n ≤ 2147483647) :
    ∃ D, multiplicar_matrices_proceso_optimizada_v { filas := n, columnas := n, dat := A }
          { filas := n, columnas := n, dat := B } { len := n * n, dat := F } n fi ff id
        = some { len := n * n, dat := D } ∧
      (∀ p, D p = if 0 < n ∧ fi ≤ p / n ∧ p / n < ff then
          acumular A B (p / n) (p % n) 0 n 0 else F p) ∧
      (∀ i j, j < n → D (i * n + j)
        = if fi ≤ i ∧ i < ff then acumular A B i j 0 n 0 else F (i * n + j)) := by
  obtain ⟨D, hD, hv⟩ := proceso_optimizada_bs_offsets 32 (by decide) A B F n fi ff id
  obtain ⟨D', hD', hv'⟩ := proceso_optimizada_bs_cells 32 (by decide) A B F n fi ff id
  have e : D' = D := by
    have h := hD'.symm.trans hD
    cases h
    rfl
  subst e
  refine ⟨D', ?_, hv, hv'⟩
  rw [proceso_optimizada_v_sim A B n fi ff id hff hint F]
  unfold multiplicar_matrices_proceso_optimizada
  rw [hD]
  rfl

/-- The naive process kernel with checked indices returns when `n * n` is in
the `int` range, and its result, offset by offset and cell by cell, is the
accumulation from `0` inside the rows `[fi, ff)` and the initial content
elsewhere. -/
theorem proceso_original_v_offsets (A B : Matrix) (F : Buffer) (n fi ff id : Nat)
    (hff : ff ≤ n) (hint : n * n ≤ 2147483647) :
    ∃ D, multiplicar_matrices_proceso_original_v { filas := n, columnas := n, dat := A }
          { filas := n, columnas := n, dat := B } { len := n * n, dat := F } n fi ff id
        = some { len := n * n, dat := D } ∧
      (∀ p, D p = if 0 < n ∧ fi ≤ p / n ∧ p / n < ff then
          acumular A B (p / n) (p % n) 0 n 0 else F p) ∧
      (∀ i j, j < n → D (i * n + j)
        = if fi ≤ i ∧ i < ff then acumular A B i j 0 n 0 else F (i * n + j)) :=
  ⟨_, proceso_original_v_sim A B n fi ff id hff hint F,
    fun p => proceso_original_offsets A B F n fi ff id p,
    fun i j hj => proceso_original_cell A B F n fi ff id i j hj⟩

/-- The ends of the row ranges of `main` are at most `n`. -/
theorem inicio_succ_le (n w t : Nat) (ht : t < w) : inicio n w (t + 1) ≤ n := by
  have h := inicio_mono n w (Nat.succ_le_of_lt ht)
  rw [inicio_total n w (by omega)] at h
  exact h

/-- The first phase of `main` with checked indices, when `n * n` is in the
`int` range: no child fails, and the content of the buffer is that of the
phase on exact offsets. -/
theorem main_procesos_original_v_eq (A B : Matrix) (F : Buffer) (n w : Nat)
    (hint : n * n ≤ 2147483647) :
    main_procesos_original_v { filas := n, columnas := n, dat := A }
        { filas := n, columnas := n, dat := B } { len := n * n, dat := F } n w
      = some { len := n * n, dat := main_procesos_original A B F n w } := by
  unfold main_procesos_original_v main_procesos_original
  rw [main_procesos_bucle_eq, main_procesos_bucle_eq]
  have h := foldl_bind_sim (fun D => ({ len := n * n, dat := D } : BufferA))
    (fun t C => multiplicar_matrices_proceso_original_v { filas := n, columnas := n, dat := A }
      { filas := n, columnas := n, dat := B } C n (inicio n w t) (inicio n w (t + 1)) t)
    (fun t D => some (multiplicar_matrices_proceso_original A B D n (inicio n w t)
      (inicio n w (t + 1)) t))
    (List.range w)
    (fun t ht D => proceso_original_v_sim A B n _ _ t
      (inicio_succ_le n w t (List.mem_range.mp ht)) hint D)
    (some F)
  rw [foldl_bind_some] at h
  exact h

/-- The second phase of `main` with checked indices, when `n * n` is in the
`int` range: it acts on the content as the phase on exact offsets. -/
theorem main_procesos_optimizada_v_eq (A B : Matrix) (F : Buffer) (n w : Nat)
    (hint : n * n ≤ 2147483647) :
    main_procesos_optimizada_v { filas := n, columnas := n, dat := A }
        { filas := n, columnas := n, dat := B } { len := n * n, dat := F } n w
      = (main_procesos_optimizada A B F n w).map
          (fun D => ({ len := n * n, dat := D } : BufferA)) := by
  unfold main_procesos_optimizada_v main_procesos_optimizada
  rw [main_procesos_bucle_eq, main_procesos_bucle_eq]
  exact foldl_bind_sim (fun D => ({ len := n * n, dat := D } : BufferA))
    (fun t C => multiplicar_matrices_proceso_optimizada_v
      { filas := n, columnas := n, dat := A }
      { filas := n, columnas := n, dat := B } C n (inicio n w t) (inicio n w (t + 1)) t)
    (fun t D => multiplicar_matrices_proceso_optimizada A B D n (inicio n w t)
      (inicio n w (t + 1)) t)
    (List.range w)
    (fun t ht D => proceso_optimizada_v_sim A B n _ _ t
      (inicio_succ_le n w t (List.mem_range.mp ht)) hint D)
    (some F)

/-- The children of `main` with the original kernel on exact offsets give the
result of one run on the rows `[0, n)`. -/
theorem main_procesos_original_secuencial (A B : Matrix) (F : Buffer) (n w : Nat)
    (hw : 0 < w) :
    main_procesos_original A B F n w = multiplicar_matrices_proceso_original A B F n 0 n 0 := by
  unfold main_procesos_original
  rw [main_procesos_bucle_eq]
  funext p
  rw [bucle_original_offsets, proceso_original_offsets, inicio_total n w hw]
  simp

/-- The children of `main` with the blocked kernel on exact offsets return and
give the result of one run on the rows `[0, n)`. -/
theorem main_procesos_optimizada_secuencial (A B : Matrix) (F : Buffer) (n w : Nat)
    (hw : 0 < w) :
    ∃ F', main_procesos_optimizada A B F n w = some F' ∧
      multiplicar_matrices_proceso_optimizada A B F n 0 n 0 = some F' := by
  obtain ⟨F', hF', hv⟩ := bucle_optimizada_offsets A B F n w w
  obtain ⟨F'', hF'', hv'⟩ := proceso_optimizada_bs_offsets 32 (by decide) A B F n 0 n 0
  refine ⟨F', ?_, ?_⟩
  · unfold main_procesos_optimizada
    rw [main_procesos_bucle_eq]
    exact hF'
  · have e : F'' = F' := by
      funext p
      rw [hv, hv', inicio_total n w hw]
      simp
    rw [← e]
    exact hF''

/-- The blocked process kernel with checked indices fails for `n = 46341` on
every row range that holds the row 46340. -/
theorem proceso_optimizada_v_46341 (A B : MatrizA) (C : BufferA) (fi ff id : Nat)
    (h1 : fi ≤ 46340) (h2 : 46340 < ff) :
    multiplicar_matrices_proceso_optimizada_v A B C 46341 fi ff id = none := by
  unfold multiplicar_matrices_proceso_optimizada_v
  rw [forLoopM_none (fun i (X : BufferA) =>
      forLoopM 0 46341 (fun j (X : BufferA) =>
        (indice_plano i 46341 j).bind (fun p => X.escribir p 0)) X)
    fi ff 46340 h1 h2
    (fun s => fila_46340_falla (fun _ p X => X.escribir p 0) s) C]
  rfl

/-- The naive process kernel with checked indices fails for `n = 46341` on
every row range that holds the row 46340. -/
theorem proceso_original_v_46341 (A B : MatrizA) (C : BufferA) (fi ff id : Nat)
    (h1 : fi ≤ 46340) (h2 : 46340 < ff) :
    multiplicar_matrices_proceso_original_v A B C 46341 fi ff id = none := by
  unfold multiplicar_matrices_proceso_original_v
  exact forLoopM_none _ fi ff 46340 h1 h2
    (fun s => fila_46340_falla (fun j p X => (X.escribir p 0).bind (fun C =>
      forLoopM 0 46341 (fun k (C : BufferA) =>
        (indice_plano 46340 46341 j).bind (fun p =>
        (C.leer p).bind (fun c =>
        (A.leer 46340 k).bind (fun a =>
        (B.leer k j).bind (fun b =>
        C.escribir p (add32 c (mul32 a b))))))) C)) s) C

/-- C2, as stated, fails: the preconditions hold for `n = 46341` and the row
range `[46340, 46341)`, but the `int` expression `i * n + j` of
`multiplicar_matrices_proceso_optimizada` has no value at row 46340 and
column 41708 (the offset is `2^31`), and the kernel with checked indices, on
allocations of 46341 rows of 46341 cells and a buffer of `46341 * 46341`
cells, fails: it leaves no buffer that holds the products. -/
theorem C2_counterexample :
    (1 ≤ 46341 ∧ 46340 ≤ 46341 ∧ 46341 ≤ 46341) ∧
    (A_46341.filas = 46341 ∧ A_46341.columnas = 46341 ∧ F_46341.len = 46341 * 46341) ∧
    indice_plano 46340 46341 41708 = none ∧
    multiplicar_matrices_proceso_optimizada_v A_46341 A_46341 F_46341 46341 46340 46341 0
      = none ∧
    ¬ (∃ F', multiplicar_matrices_proceso_optimizada_v A_46341 A_46341 F_46341 46341 46340
          46341 0 = some F' ∧
        ∀ i j, 46340 ≤ i → i < 46341 → j < 46341 →
          F'.dat (i * 46341 + j)
            = wrap32 (∑ k in Finset.range 46341, A_46341.dat i k * A_46341.dat k j)) := by
  have h := proceso_optimizada_v_46341 A_46341 A_46341 F_46341 46340 46341 0
    (Nat.le_refl _) (by decide)
  refine ⟨by decide, ⟨rfl, rfl, rfl⟩, indice_plano_46341, h, ?_⟩
  rintro ⟨F', hF', _⟩
  rw [h] at hF'
  cases hF'

/-- C2, amended. For every `n ≥ 1`, every `fila_inicio ≤ fila_fin ≤ n`, all `A`,
`B` and every initial content of the result, the blocked row-range kernel
`multiplicar_matrices_hilo_optimizada` returns, and then every cell of a row
in `[fila_inicio, fila_fin)` and a column in `[0, n)` holds the sum over `k` in
`[0, n)` of `A[i][k] * B[k][j]`, reduced to 32 bits; its flat-buffer twin
`multiplicar_matrices_proceso_optimizada`, with the offset `i * n + j`
computed in `int` on allocations of `n` rows of `n` cells and a buffer of
`n * n` cells, does the same when `n * n ≤ 2^31 - 1`. -/
theorem C2_filas_son_producto (n fila_inicio fila_fin id : Nat) (hn : 1 ≤ n)
    (h1 : fila_inicio ≤ fila_fin) (h2 : fila_fin ≤ n) (A B C : Matrix) (F : Buffer) :
    (∃ C', multiplicar_matrices_hilo_optimizada
          { A := A, B := B, n := n, fila_inicio := fila_inicio, fila_fin := fila_fin,
            hilo_id := id } C = some C' ∧
        ∀ i j, fila_inicio ≤ i → i < fila_fin → j < n →
          C' i j = wrap32 (∑ k in Finset.range n, A i k * B k j)) ∧
      (n * n ≤ 2147483647 →
        ∃ F', multiplicar_matrices_proceso_optimizada_v
            { filas := n, columnas := n, dat := A } { filas := n, columnas := n, dat := B }
            { len := n * n, dat := F } n fila_inicio fila_fin id = some F' ∧
          ∀ i j, fila_inicio ≤ i → i < fila_fin → j < n →
            F'.dat (i * n + j) = wrap32 (∑ k in Finset.range n, A i k * B k j)) := by
  have _ := hn
  have _ := h1
  constructor
  · obtain ⟨C', hC', hv⟩ := hilo_optimizada_bs_cells 32 (by decide)
      { A := A, B := B, n := n, fila_inicio := fila_inicio, fila_fin := fila_fin,
        hilo_id := id } C
    refine ⟨C', hC', fun i j hi1 hi2 hj => ?_⟩
    rw [hv, if_pos ⟨⟨hi1, hi2⟩, hj⟩, acumular_eq_sum]
  · intro hint
    obtain ⟨D, hD, _, hv⟩ := proceso_optimizada_v_offsets A B F n fila_inicio fila_fin id
      h2 hint
    refine ⟨_, hD, fun i j hi1 hi2 hj => ?_⟩
    show D (i * n + j) = _
    rw [hv i j hj, if_pos ⟨hi1, hi2⟩, acumular_eq_sum]

/-- C2, amended, on rows `[1, 3)` of a 4 × 4 product. -/
theorem C2_filas_son_producto_witness :
    (1 ≤ 4 ∧ 1 ≤ 3 ∧ 3 ≤ 4 ∧ 4 * 4 ≤ 2147483647) ∧
      (∃ C', multiplicar_matrices_hilo_optimizada
          { A := A_ej, B := B_ej, n := 4, fila_inicio := 1, fila_fin := 3, hilo_id := 0 }
            C_ej = some C' ∧
        ∀ i j, 1 ≤ i → i < 3 → j < 4 →
          C' i j = wrap32 (∑ k in Finset.range 4, A_ej i k * B_ej k j)) ∧
      (∃ F', multiplicar_matrices_proceso_optimizada_v
          { filas := 4, columnas := 4, dat := A_ej } { filas := 4, columnas := 4, dat := B_ej }
          { len := 4 * 4, dat := F_ej } 4 1 3 0 = some F' ∧
        ∀ i j, 1 ≤ i → i < 3 → j < 4 →
          F'.dat (i * 4 + j) = wrap32 (∑ k in Finset.range 4, A_ej i k * B_ej k j)) :=
  have h := C2_filas_son_producto 4 1 3 0 (by decide) (by decide) (by decide)
    A_ej B_ej C_ej F_ej
  ⟨by decide, h.1, h.2 (by decide)⟩

/-- C7, as stated, fails: for `n = 46341` and the row range `[46340, 46341)`
the process kernels reach row 46340 and column 41708, where the `int`
expression `i * n + j` overflows; its 32-bit value is `-2^31`, which is the
offset of no cell of the buffer, and the kernels with checked indices fail
instead of leaving the other rows as they were. -/
theorem C7_counterexample :
    (46340 ≤ 46341 ∧ 46341 ≤ 46341) ∧
    (add32 (mul32 46340 46341) 41708 = -2147483648 ∧
      ¬ (0 ≤ add32 (mul32 46340 46341) 41708)) ∧
    ¬ (∃ F', multiplicar_matrices_proceso_original_v A_46341 A_46341 F_46341 46341 46340
          46341 0 = some F' ∧
        ∀ i j, ¬ (46340 ≤ i ∧ i < 46341) → j < 46341 →
          F'.dat (i * 46341 + j) = F_46341.dat (i * 46341 + j)) ∧
    ¬ (∃ F', multiplicar_matrices_proceso_optimizada_v A_46341 A_46341 F_46341 46341 46340
          46341 0 = some F' ∧
        ∀ i j, ¬ (46340 ≤ i ∧ i < 46341) → j < 46341 →
          F'.dat (i * 46341 + j) = F_46341.dat (i * 46341 + j)) := by
  have ho := proceso_original_v_46341 A_46341 A_46341 F_46341 46340 46341 0
    (Nat.le_refl _) (by decide)
  have hb := proceso_optimizada_v_46341 A_46341 A_46341 F_46341 46340 46341 0
    (Nat.le_refl _) (by decide)
  refine ⟨by decide, by decide, ?_, ?_⟩
  · rintro ⟨F', hF', _⟩
    rw [ho] at hF'
    cases hF'
  · rintro ⟨F', hF', _⟩
    rw [hb] at hF'
    cases hF'

/-- C7, amended. For every `n`, every `fila_inicio ≤ fila_fin ≤ n` and every
initial content of the result, the row-range kernels of the threads (original
and blocked, on the 2-D matrix) leave every cell `C[i][j]` with `i` outside
`[fila_inicio, fila_fin)` as it was before the call; the row-range kernels of
the processes (original and blocked), with the offset `i * n + j` computed in
`int` on allocations of `n` rows of `n` cells and a buffer of `n * n` cells,
return and do the same on the flat buffer when `n * n ≤ 2^31 - 1`. -/
theorem C7_no_escribe_fuera (n fila_inicio fila_fin id : Nat) (h1 : fila_inicio ≤ fila_fin)
    (h2 : fila_fin ≤ n) (A B C : Matrix) (F : Buffer) :
    (∀ i j, ¬ (fila_inicio ≤ i ∧ i < fila_fin) →
        multiplicar_matrices_hilo_original
          { A := A, B := B, n := n, fila_inicio := fila_inicio, fila_fin := fila_fin,
            hilo_id := id } C i j = C i j) ∧
      (∃ C', multiplicar_matrices_hilo_optimizada
          { A := A, B := B, n := n, fila_inicio := fila_inicio, fila_fin := fila_fin,
            hilo_id := id } C = some C' ∧
        ∀ i j, ¬ (fila_inicio ≤ i ∧ i < fila_fin) → C' i j = C i j) ∧
      (n * n ≤ 2147483647 →
        (∃ F', multiplicar_matrices_proceso_original_v
            { filas := n, columnas := n, dat := A } { filas := n, columnas := n, dat := B }
            { len := n * n, dat := F } n fila_inicio fila_fin id = some F' ∧
          ∀ i j, ¬ (fila_inicio ≤ i ∧ i < fila_fin) → j < n →
            F'.dat (i * n + j) = F (i * n + j)) ∧
        (∃ F', multiplicar_matrices_proceso_optimizada_v
            { filas := n, columnas := n, dat := A } { filas := n, columnas := n, dat := B }
            { len := n * n, dat := F } n fila_inicio fila_fin id = some F' ∧
          ∀ i j, ¬ (fila_inicio ≤ i ∧ i < fila_fin) → j < n →
            F'.dat (i * n + j) = F (i * n + j))) := by
  have _ := h1
  refine ⟨fun i j hi => ?_, ?_, fun hint => ⟨?_, ?_⟩⟩
  · rw [hilo_original_cell, if_neg (fun h => hi h.1)]
  · obtain ⟨C', hC', hv⟩ := hilo_optimizada_bs_cells 32 (by decide)
      { A := A, B := B, n := n, fila_inicio := fila_inicio, fila_fin := fila_fin,
        hilo_id := id } C
    exact ⟨C', hC', fun i j hi => by rw [hv, if_neg (fun h => hi h.1)]⟩
  · obtain ⟨D, hD, _, hv⟩ := proceso_original_v_offsets A B F n fila_inicio fila_fin id
      h2 hint
    refine ⟨_, hD, fun i j hi hj => ?_⟩
    show D (i * n + j) = _
    rw [hv i j hj, if_neg hi]
  · obtain ⟨D, hD, _, hv⟩ := proceso_optimizada_v_offsets A B F n fila_inicio fila_fin id
      h2 hint
    refine ⟨_, hD, fun i j hi hj => ?_⟩
    show D (i * n + j) = _
    rw [hv i j hj, if_neg hi]

/-- C7, amended, on rows `[1, 3)` of a 4 × 4 product. -/
theorem C7_no_escribe_fuera_witness :
    (1 ≤ 3 ∧ 3 ≤ 4 ∧ 4 * 4 ≤ 2147483647) ∧
    (∀ i j, ¬ (1 ≤ i ∧ i < 3) →
        multiplicar_matrices_hilo_original
          { A := A_ej, B := B_ej, n := 4, fila_inicio := 1, fila_fin := 3, hilo_id := 0 }
          C_ej i j = C_ej i j) ∧
      (∃ C', multiplicar_matrices_hilo_optimizada
          { A := A_ej, B := B_ej, n := 4, fila_inicio := 1, fila_fin := 3, hilo_id := 0 }
          C_ej = some C' ∧
        ∀ i j, ¬ (1 ≤ i ∧ i < 3) → C' i j = C_ej i j) ∧
      (∃ F', multiplicar_matrices_proceso_original_v
          { filas := 4, columnas := 4, dat := A_ej } { filas := 4, columnas := 4, dat := B_ej }
          { len := 4 * 4, dat := F_ej } 4 1 3 0 = some F' ∧
        ∀ i j, ¬ (1 ≤ i ∧ i < 3) → j < 4 → F'.dat (i * 4 + j) = F_ej (i * 4 + j)) ∧
      (∃ F', multiplicar_matrices_proceso_optimizada_v
          { filas := 4, columnas := 4, dat := A_ej } { filas := 4, columnas := 4, dat := B_ej }
          { len := 4 * 4, dat := F_ej } 4 1 3 0 = some F' ∧
        ∀ i j, ¬ (1 ≤ i ∧ i < 3) → j < 4 → F'.dat (i * 4 + j) = F_ej (i * 4 + j)) :=
  have h := C7_no_escribe_fuera 4 1 3 0 (by decide) (by decide) A_ej B_ej C_ej F_ej
  ⟨by decide, h.1, h.2.1, (h.2.2 (by decide)).1, (h.2.2 (by decide)).2⟩

/-- C8, as stated, fails for the process kernel: for `n = 46341` and the row
range `[46340, 46341)` the run of `multiplicar_matrices_proceso_optimizada`
with the offset computed in `int` fails on the zeroing of row 46340 (the
offset of column 41708 is `2^31`), on the buffer of zeros as on any other
buffer, so there are no two results to agree on the rows of the range. -/
theorem C8_counterexample :
    (F_46341.len = 46341 * 46341 ∧ H_46341.len = 46341 * 46341) ∧
    indice_plano 46340 46341 41708 = none ∧
    multiplicar_matrices_proceso_optimizada_v A_46341 A_46341 F_46341 46341 46340 46341 0
      = none ∧
    multiplicar_matrices_proceso_optimizada_v A_46341 A_46341 H_46341 46341 46340 46341 0
      = none ∧
    ¬ (∃ R1 R2,
        multiplicar_matrices_proceso_optimizada_v A_46341 A_46341 F_46341 46341 46340 46341 0
          = some R1 ∧
        multiplicar_matrices_proceso_optimizada_v A_46341 A_46341 H_46341 46341 46340 46341 0
          = some R2 ∧
        (∀ i j, 46340 ≤ i → i < 46341 → j < 46341 →
          R1.dat (i * 46341 + j) = R2.dat (i * 46341 + j)) ∧
        multiplicar_matrices_proceso_optimizada_v A_46341 A_46341 R1 46341 46340 46341 0
          = some R1) := by
  have h := proceso_optimizada_v_46341 A_46341 A_46341 F_46341 46340 46341 0
    (Nat.le_refl _) (by decide)
  refine ⟨⟨rfl, rfl⟩, indice_plano_46341, h,
    proceso_optimizada_v_46341 A_46341 A_46341 H_46341 46340 46341 0 (Nat.le_refl _)
      (by decide), ?_⟩
  rintro ⟨R1, R2, hR1, _⟩
  rw [h] at hR1
  cases hR1

/-- C8, amended. The blocked kernels do not depend on what the result held in
the assigned rows: for all `A`, `B` and any two initial contents, the runs of
`multiplicar_matrices_hilo_optimizada` and of `multiplicar_matrices_optimizada`
(whose rows are `[0, n)`) return and agree on every cell of the rows
`[fila_inicio, fila_fin)`, and a second run on the result of a first run
returns that result unchanged; the runs of
`multiplicar_matrices_proceso_optimizada`, with the offset `i * n + j`
computed in `int` on allocations of `n` rows of `n` cells and a buffer of
`n * n` cells, do the same when `fila_fin ≤ n` and `n * n ≤ 2^31 - 1`. -/
theorem C8_no_depende_de_C (n fila_inicio fila_fin id : Nat) (A B C1 C2 : Matrix)
    (F1 F2 : Buffer) :
    (∃ R1 R2,
        multiplicar_matrices_hilo_optimizada
          { A := A, B := B, n := n, fila_inicio := fila_inicio, fila_fin := fila_fin,
            hilo_id := id } C1 = some R1 ∧
        multiplicar_matrices_hilo_optimizada
          { A := A, B := B, n := n, fila_inicio := fila_inicio, fila_fin := fila_fin,
            hilo_id := id } C2 = some R2 ∧
        (∀ i j, fila_inicio ≤ i → i < fila_fin → j < n → R1 i j = R2 i j) ∧
        multiplicar_matrices_hilo_optimizada
          { A := A, B := B, n := n, fila_inicio := fila_inicio, fila_fin := fila_fin,
            hilo_id := id } R1 = some R1) ∧
      (∃ R1 R2,
        multiplicar_matrices_optimizada A B C1 n = some R1 ∧
        multiplicar_matrices_optimizada A B C2 n = some R2 ∧
        (∀ i j, i < n → j < n → R1 i j = R2 i j) ∧
        multiplicar_matrices_optimizada A B R1 n = some R1) ∧
      (fila_fin ≤ n → n * n ≤ 2147483647 →
        ∃ R1 R2,
          multiplicar_matrices_proceso_optimizada_v
            { filas := n, columnas := n, dat := A } { filas := n, columnas := n, dat := B }
            { len := n * n, dat := F1 } n fila_inicio fila_fin id = some R1 ∧
          multiplicar_matrices_proceso_optimizada_v
            { filas := n, columnas := n, dat := A } { filas := n, columnas := n, dat := B }
            { len := n * n, dat := F2 } n fila_inicio fila_fin id = some R2 ∧
          (∀ i j, fila_inicio ≤ i → i < fila_fin → j < n →
            R1.dat (i * n + j) = R2.dat (i * n + j)) ∧
          multiplicar_matrices_proceso_optimizada_v
            { filas := n, columnas := n, dat := A } { filas := n, columnas := n, dat := B }
            R1 n fila_inicio fila_fin id = some R1) := by
  refine ⟨?_, ?_, fun hff hint => ?_⟩
  · obtain ⟨R1, hR1, hv1⟩ := hilo_optimizada_bs_cells 32 (by decide)
      { A := A, B := B, n := n, fila_inicio := fila_inicio, fila_fin := fila_fin,
        hilo_id := id } C1
    obtain ⟨R2, hR2, hv2⟩ := hilo_optimizada_bs_cells 32 (by decide)
      { A := A, B := B, n := n, fila_inicio := fila_inicio, fila_fin := fila_fin,
        hilo_id := id } C2
    obtain ⟨R3, hR3, hv3⟩ := hilo_optimizada_bs_cells 32 (by decide)
      { A := A, B := B, n := n, fila_inicio := fila_inicio, fila_fin := fila_fin,
        hilo_id := id } R1
    refine ⟨R1, R2, hR1, hR2, fun i j hi1 hi2 hj => ?_, ?_⟩
    · rw [hv1, hv2, if_pos ⟨⟨hi1, hi2⟩, hj⟩, if_pos ⟨⟨hi1, hi2⟩, hj⟩]
    · have e : R3 = R1 := by
        funext i j
        rw [hv3, hv1]
        split_ifs <;> rfl
      rw [e] at hR3
      exact hR3
  · obtain ⟨R1, hR1, hv1⟩ := optimizada_bs_cells 64 (by decide) A B C1 n
    obtain ⟨R2, hR2, hv2⟩ := optimizada_bs_cells 64 (by decide) A B C2 n
    obtain ⟨R3, hR3, hv3⟩ := optimizada_bs_cells 64 (by decide) A B R1 n
    refine ⟨R1, R2, hR1, hR2, fun i j hi hj => ?_, ?_⟩
    · rw [hv1, hv2, if_pos ⟨hi, hj⟩, if_pos ⟨hi, hj⟩]
    · have e : R3 = R1 := by
        funext i j
        rw [hv3, hv1]
        split_ifs <;> rfl
      rw [e] at hR3
      exact hR3
  · obtain ⟨D1, hD1, ho1, hv1⟩ := proceso_optimizada_v_offsets A B F1 n fila_inicio fila_fin
      id hff hint
    obtain ⟨D2, hD2, _, hv2⟩ := proceso_optimizada_v_offsets A B F2 n fila_inicio fila_fin
      id hff hint
    obtain ⟨D3, hD3, ho3, _⟩ := proceso_optimizada_v_offsets A B D1 n fila_inicio fila_fin
      id hff hint
    refine ⟨_, _, hD1, hD2, fun i j hi1 hi2 hj => ?_, ?_⟩
    · show D1 (i * n + j) = D2 (i * n + j)
      rw [hv1 i j hj, hv2 i j hj, if_pos ⟨hi1, hi2⟩, if_pos ⟨hi1, hi2⟩]
    · have e : D3 = D1 := by
        funext p
        rw [ho3, ho1]
        split_ifs <;> rfl
      rw [e] at hD3
      exact hD3

/-- C8, amended, on rows `[1, 3)` of a 4 × 4 product, for the process
kernel. -/
theorem C8_no_depende_de_C_witness :
    (3 ≤ 4 ∧ 4 * 4 ≤ 2147483647) ∧
    (∃ R1 R2,
      multiplicar_matrices_proceso_optimizada_v
        { filas := 4, columnas := 4, dat := A_ej } { filas := 4, columnas := 4, dat := B_ej }
        { len := 4 * 4, dat := F_ej } 4 1 3 0 = some R1 ∧
      multiplicar_matrices_proceso_optimizada_v
        { filas := 4, columnas := 4, dat := A_ej } { filas := 4, columnas := 4, dat := B_ej }
        { len := 4 * 4, dat := G_ej } 4 1 3 0 = some R2 ∧
      (∀ i j, 1 ≤ i → i < 3 → j < 4 → R1.dat (i * 4 + j) = R2.dat (i * 4 + j)) ∧
      multiplicar_matrices_proceso_optimizada_v
        { filas := 4, columnas := 4, dat := A_ej } { filas := 4, columnas := 4, dat := B_ej }
        R1 4 1 3 0 = some R1) :=
  ⟨by decide, (C8_no_depende_de_C 4 1 3 0 A_ej B_ej C_ej D_ej F_ej G_ej).2.2 (by decide)
    (by decide)⟩

/-- C16, as stated, fails: for `n = 46341` and the row range `[46340, 46341)`
the thread kernel returns, but the process kernels, original and blocked, with
the offset `i * n + j` computed in `int`, fail at row 46340 and column 41708
(the offset is `2^31`), so there is no flat result to compare with the 2-D
result. -/
theorem C16_counterexample :
    (1 ≤ 46341 ∧ 46340 ≤ 46341 ∧ 46341 ≤ 46341) ∧
    (∃ C', multiplicar_matrices_hilo_optimizada
        { A := M_gen, B := M_gen, n := 46341, fila_inicio := 46340, fila_fin := 46341,
          hilo_id := 0 } C_ej = some C') ∧
    indice_plano 46340 46341 41708 = none ∧
    multiplicar_matrices_proceso_optimizada_v A_46341 A_46341 F_46341 46341 46340 46341 0
      = none ∧
    multiplicar_matrices_proceso_original_v A_46341 A_46341 F_46341 46341 46340 46341 0
      = none := by
  refine ⟨by decide, ?_, indice_plano_46341,
    proceso_optimizada_v_46341 A_46341 A_46341 F_46341 46340 46341 0 (Nat.le_refl _)
      (by decide),
    proceso_original_v_46341 A_46341 A_46341 F_46341 46340 46341 0 (Nat.le_refl _)
      (by decide)⟩
  obtain ⟨C', hC', _⟩ := hilo_optimizada_bs_cells 32 (by decide)
    { A := M_gen, B := M_gen, n := 46341, fila_inicio := 46340, fila_fin := 46341,
      hilo_id := 0 } C_ej
  exact ⟨C', hC'⟩

/-- C16, amended. The flat result of the process kernels is the row-major image
of the 2-D result of the thread kernels when `n * n ≤ 2^31 - 1`: for every such
`n ≥ 1`, every `fila_inicio ≤ fila_fin ≤ n`, all `A`, `B` and all initial
contents, `multiplicar_matrices_proceso_optimizada` (resp. `_original`), with
the offset `i * n + j` computed in `int` on allocations of `n` rows of `n`
cells and a flat buffer of `n * n` cells, and
`multiplicar_matrices_hilo_optimizada` (resp. `_original`) on a 2-D matrix with
the same row range both return, and the buffer holds at offset `i * n + j`
what the matrix holds in cell `(i, j)`, for every row of the range and every
column of `[0, n)`. -/
theorem C16_buffer_imagen_de_matriz (n fila_inicio fila_fin id id' : Nat) (hn : 1 ≤ n)
    (h1 : fila_inicio ≤ fila_fin) (h2 : fila_fin ≤ n) (hint : n * n ≤ 2147483647)
    (A B C : Matrix) (F : Buffer) :
    (∃ F' C',
        multiplicar_matrices_proceso_optimizada_v
          { filas := n, columnas := n, dat := A } { filas := n, columnas := n, dat := B }
          { len := n * n, dat := F } n fila_inicio fila_fin id = some F' ∧
        multiplicar_matrices_hilo_optimizada
          { A := A, B := B, n := n, fila_inicio := fila_inicio, fila_fin := fila_fin,
            hilo_id := id' } C = some C' ∧
        ∀ i j, fila_inicio ≤ i → i < fila_fin → j < n → F'.dat (i * n + j) = C' i j) ∧
      (∃ F',
        multiplicar_matrices_proceso_original_v
          { filas := n, columnas := n, dat := A } { filas := n, columnas := n, dat := B }
          { len := n * n, dat := F } n fila_inicio fila_fin id = some F' ∧
        ∀ i j, fila_inicio ≤ i → i < fila_fin → j < n →
          F'.dat (i * n + j)
            = multiplicar_matrices_hilo_original
                { A := A, B := B, n := n, fila_inicio := fila_inicio, fila_fin := fila_fin,
                  hilo_id := id' } C i j) := by
  have _ := hn
  have _ := h1
  constructor
  · obtain ⟨D, hD, _, hvF⟩ := proceso_optimizada_v_offsets A B F n fila_inicio fila_fin id
      h2 hint
    obtain ⟨C', hC', hvC⟩ := hilo_optimizada_bs_cells 32 (by decide)
      { A := A, B := B, n := n, fila_inicio := fila_inicio, fila_fin := fila_fin,
        hilo_id := id' } C
    refine ⟨_, C', hD, hC', fun i j hi1 hi2 hj => ?_⟩
    show D (i * n + j) = _
    rw [hvF i j hj, hvC, if_pos ⟨hi1, hi2⟩, if_pos ⟨⟨hi1, hi2⟩, hj⟩]
  · obtain ⟨D, hD, _, hvF⟩ := proceso_original_v_offsets A B F n fila_inicio fila_fin id
      h2 hint
    refine ⟨_, hD, fun i j hi1 hi2 hj => ?_⟩
    show D (i * n + j) = _
    rw [hvF i j hj, hilo_original_cell, if_pos ⟨hi1, hi2⟩, if_pos ⟨⟨hi1, hi2⟩, hj⟩]

/-- C16, amended, on rows `[1, 3)` of a 4 × 4 product. -/
theorem C16_buffer_imagen_de_matriz_witness :
    (1 ≤ 4 ∧ 1 ≤ 3 ∧ 3 ≤ 4 ∧ 4 * 4 ≤ 2147483647) ∧
    (∃ F' C',
        multiplicar_matrices_proceso_optimizada_v
          { filas := 4, columnas := 4, dat := A_ej } { filas := 4, columnas := 4, dat := B_ej }
          { len := 4 * 4, dat := F_ej } 4 1 3 0 = some F' ∧
        multiplicar_matrices_hilo_optimizada
          { A := A_ej, B := B_ej, n := 4, fila_inicio := 1, fila_fin := 3, hilo_id := 0 }
          C_ej = some C' ∧
        ∀ i j, 1 ≤ i → i < 3 → j < 4 → F'.dat (i * 4 + j) = C' i j) ∧
      (∃ F',
        multiplicar_matrices_proceso_original_v
          { filas := 4, columnas := 4, dat := A_ej } { filas := 4, columnas := 4, dat := B_ej }
          { len := 4 * 4, dat := F_ej } 4 1 3 0 = some F' ∧
        ∀ i j, 1 ≤ i → i < 3 → j < 4 →
          F'.dat (i * 4 + j)
            = multiplicar_matrices_hilo_original
                { A := A_ej, B := B_ej, n := 4, fila_inicio := 1, fila_fin := 3,
                  hilo_id := 0 } C_ej i j) :=
  ⟨by decide, C16_buffer_imagen_de_matriz 4 1 3 0 0 (by decide) (by decide) (by decide)
    (by decide) A_ej B_ej C_ej F_ej⟩

/-- The ends of the row ranges that the fork loop hands out are at most `n`. -/
theorem rangos_fin_le (n w : Nat) (r : Nat × Nat) (hr : r ∈ main_procesos_rangos n w) :
    r.2 ≤ n := by
  rw [main_procesos_rangos_eq, List.mem_map] at hr
  obtain ⟨t, ht, rfl⟩ := hr
  exact inicio_succ_le n w t (List.mem_range.mp ht)

/-- The children of `main` with the original kernel on exact offsets leave the
same buffer in every order of execution. -/
theorem main_procesos_original_perm (A B : Matrix) (F : Buffer) (n w : Nat)
    (orden : List (Nat × Nat)) (hp : orden.Perm (main_procesos_rangos n w)) :
    orden.foldl (fun C r => multiplicar_matrices_proceso_original A B C n r.1 r.2 0) F
      = main_procesos_original A B F n w := by
  rw [main_procesos_original_eq_foldl]
  refine List.Perm.foldl_eq' hp (fun x _ y _ z => ?_) F
  exact proceso_original_conmuta A B n x.1 x.2 y.1 y.2 0 0 z

/-- The children of `main` with the blocked kernel on exact offsets leave the
same buffer in every order of execution. -/
theorem main_procesos_optimizada_perm (A B : Matrix) (F : Buffer) (n w : Nat)
    (orden : List (Nat × Nat)) (hp : orden.Perm (main_procesos_rangos n w)) :
    orden.foldl (fun (C : Option Buffer) r =>
        C.bind (fun C => multiplicar_matrices_proceso_optimizada A B C n r.1 r.2 0))
        (some F)
      = main_procesos_optimizada A B F n w := by
  rw [main_procesos_optimizada_eq_foldl]
  refine List.Perm.foldl_eq' hp (fun x _ y _ z => ?_) (some F)
  cases z with
  | none => rfl
  | some C =>
    simp only [Option.some_bind]
    obtain ⟨R, h1, h2⟩ := proceso_optimizada_conmuta A B n x.1 x.2 y.1 y.2 0 0 C
    rw [h1, h2]

/-- Two runs of the naive process kernel with checked indices, on row ranges
up to `n` with `n * n` in the `int` range, return and commute. -/
theorem proceso_original_v_conmuta (A B : Matrix) (F : Buffer)
    (n a1 b1 a2 b2 id1 id2 : Nat) (hb1 : b1 ≤ n) (hb2 : b2 ≤ n)
    (hint : n * n ≤ 2147483647) :
    ∃ R, (multiplicar_matrices_proceso_original_v
            { filas := n, columnas := n, dat := A } { filas := n, columnas := n, dat := B }
            { len := n * n, dat := F } n a1 b1 id1).bind
          (fun F => multiplicar_matrices_proceso_original_v
            { filas := n, columnas := n, dat := A } { filas := n, columnas := n, dat := B }
            F n a2 b2 id2) = some R ∧
        (multiplicar_matrices_proceso_original_v
            { filas := n, columnas := n, dat := A } { filas := n, columnas := n, dat := B }
            { len := n * n, dat := F } n a2 b2 id2).bind
          (fun F => multiplicar_matrices_proceso_original_v
            { filas := n, columnas := n, dat := A } { filas := n, columnas := n, dat := B }
            F n a1 b1 id1) = some R := by
  obtain ⟨D1, h1, o1, _⟩ := proceso_original_v_offsets A B F n a1 b1 id1 hb1 hint
  obtain ⟨D2, h2, o2, _⟩ := proceso_original_v_offsets A B F n a2 b2 id2 hb2 hint
  obtain ⟨D12, h12, o12, _⟩ := proceso_original_v_offsets A B D1 n a2 b2 id2 hb2 hint
  obtain ⟨D21, h21, o21, _⟩ := proceso_original_v_offsets A B D2 n a1 b1 id1 hb1 hint
  have e : D21 = D12 := by
    funext p
    simp only [o21, o12, o1, o2]
    split_ifs <;> rfl
  refine ⟨{ len := n * n, dat := D12 }, ?_, ?_⟩
  · rw [h1, Option.some_bind, h12]
  · rw [h2, Option.some_bind, h21, e]

/-- Two runs of the blocked process kernel with checked indices, on row ranges
up to `n` with `n * n` in the `int` range, return and commute. -/
theorem proceso_optimizada_v_conmuta (A B : Matrix) (F : Buffer)
    (n a1 b1 a2 b2 id1 id2 : Nat) (hb1 : b1 ≤ n) (hb2 : b2 ≤ n)
    (hint : n * n ≤ 2147483647) :
    ∃ R, (multiplicar_matrices_proceso_optimizada_v
            { filas := n, columnas := n, dat := A } { filas := n, columnas := n, dat := B }
            { len := n * n, dat := F } n a1 b1 id1).bind
          (fun F => multiplicar_matrices_proceso_optimizada_v
            { filas := n, columnas := n, dat := A } { filas := n, columnas := n, dat := B }
            F n a2 b2 id2) = some R ∧
        (multiplicar_matrices_proceso_optimizada_v
            { filas := n, columnas := n, dat := A } { filas := n, columnas := n, dat := B }
            { len := n * n, dat := F } n a2 b2 id2).bind
          (fun F => multiplicar_matrices_proceso_optimizada_v
            { filas := n, columnas := n, dat := A } { filas := n, columnas := n, dat := B }
            F n a1 b1 id1) = some R := by
  obtain ⟨D1, h1, o1, _⟩ := proceso_optimizada_v_offsets A B F n a1 b1 id1 hb1 hint
  obtain ⟨D2, h2, o2, _⟩ := proceso_optimizada_v_offsets A B F n a2 b2 id2 hb2 hint
  obtain ⟨D12, h12, o12, _⟩ := proceso_optimizada_v_offsets A B D1 n a2 b2 id2 hb2 hint
  obtain ⟨D21, h21, o21, _⟩ := proceso_optimizada_v_offsets A B D2 n a1 b1 id1 hb1 hint
  have e : D21 = D12 := by
    funext p
    simp only [o21, o12, o1, o2]
    split_ifs <;> rfl
  refine ⟨{ len := n * n, dat := D12 }, ?_, ?_⟩
  · rw [h1, Option.some_bind, h12]
  · rw [h2, Option.some_bind, h21, e]

/-- The children of `main` with the original kernel and checked indices, run
in any order of the row ranges, with `n * n` in the `int` range: no child
fails, and the buffer is that of the fork order. -/
theorem main_procesos_original_v_perm (A B : Matrix) (F : Buffer) (n w : Nat)
    (hint : n * n ≤ 2147483647) (orden : List (Nat × Nat))
    (hp : orden.Perm (main_procesos_rangos n w)) :
    ∃ R, orden.foldl (fun (C : Option BufferA) r =>
          C.bind (fun C => multiplicar_matrices_proceso_original_v
            { filas := n, columnas := n, dat := A } { filas := n, columnas := n, dat := B }
            C n r.1 r.2 0)) (some { len := n * n, dat := F }) = some R ∧
      main_procesos_original_v { filas := n, columnas := n, dat := A }
        { filas := n, columnas := n, dat := B } { len := n * n, dat := F } n w = some R := by
  refine ⟨_, ?_, main_procesos_original_v_eq A B F n w hint⟩
  have h := foldl_bind_sim (fun D => ({ len := n * n, dat := D } : BufferA))
    (fun (r : Nat × Nat) C => multiplicar_matrices_proceso_original_v
      { filas := n, columnas := n, dat := A }
      { filas := n, columnas := n, dat := B } C n r.1 r.2 0)
    (fun r D => some (multiplicar_matrices_proceso_original A B D n r.1 r.2 0))
    orden
    (fun r hr D => proceso_original_v_sim A B n _ _ 0
      (rangos_fin_le n w r (hp.subset hr)) hint D)
    (some F)
  rw [foldl_bind_some, main_procesos_original_perm A B F n w orden hp] at h
  exact h

/-- The children of `main` with the blocked kernel and checked indices, run in
any order of the row ranges, with `n * n` in the `int` range: no child fails,
and the buffer is that of the fork order. -/
theorem main_procesos_optimizada_v_perm (A B : Matrix) (F : Buffer) (n w : Nat)
    (hint : n * n ≤ 2147483647) (orden : List (Nat × Nat))
    (hp : orden.Perm (main_procesos_rangos n w)) :
    ∃ R, orden.foldl (fun (C : Option BufferA) r =>
          C.bind (fun C => multiplicar_matrices_proceso_optimizada_v
            { filas := n, columnas := n, dat := A } { filas := n, columnas := n, dat := B }
            C n r.1 r.2 0)) (some { len := n * n, dat := F }) = some R ∧
      main_procesos_optimizada_v { filas := n, columnas := n, dat := A }
        { filas := n, columnas := n, dat := B } { len := n * n, dat := F } n w = some R := by
  have h := foldl_bind_sim (fun D => ({ len := n * n, dat := D } : BufferA))
    (fun (r : Nat × Nat) C => multiplicar_matrices_proceso_optimizada_v
      { filas := n, columnas := n, dat := A }
      { filas := n, columnas := n, dat := B } C n r.1 r.2 0)
    (fun r D => multiplicar_matrices_proceso_optimizada A B D n r.1 r.2 0)
    orden
    (fun r hr D => proceso_optimizada_v_sim A B n _ _ 0
      (rangos_fin_le n w r (hp.subset hr)) hint D)
    (some F)
  rw [main_procesos_optimizada_perm A B F n w orden hp] at h
  have h' := main_procesos_optimizada_v_eq A B F n w hint
  rcases Nat.eq_zero_or_pos w with h0 | hw
  · subst h0
    have e : main_procesos_optimizada A B F n 0 = some F := by
      unfold main_procesos_optimizada
      rw [main_procesos_bucle_eq]
      rfl
    rw [e] at h h'
    exact ⟨_, h, h'⟩
  · obtain ⟨F', hF', _⟩ := main_procesos_optimizada_secuencial A B F n w hw
    rw [hF'] at h h'
    exact ⟨_, h, h'⟩

/-- A fold over the two indices `0` and `1`. -/
theorem foldl_dos {σ : Type} (f : σ → Nat → σ) (s : σ) :
    (List.range 2).foldl f s = f (f s 0) 1 := rfl

/-- C3, as stated, fails for the process program: for `n = 46341` and 2
workers the fork loop hands out the row ranges `[0, 23171)` and
`[23171, 46341)`; the child of the second range reaches row 46340 and column
41708, where the `int` expression `i * n + j` overflows, so the run over the
partitions fails, with the original and with the blocked kernel, and so does
the single run on the rows `[0, 46341)`: there is no result to compare. -/
theorem C3_counterexample :
    (1 ≤ 46341 ∧ 1 ≤ 2 ∧ 2 ≤ 46341) ∧
    main_procesos_rangos 46341 2 = [(0, 23171), (23171, 46341)] ∧
    indice_plano 46340 46341 41708 = none ∧
    main_procesos_original_v A_46341 A_46341 F_46341 46341 2 = none ∧
    main_procesos_optimizada_v A_46341 A_46341 F_46341 46341 2 = none ∧
    multiplicar_matrices_proceso_original_v A_46341 A_46341 F_46341 46341 0 46341 0
      = none ∧
    multiplicar_matrices_proceso_optimizada_v A_46341 A_46341 F_46341 46341 0 46341 0
      = none := by
  have e1 : inicio 46341 2 1 = 23171 := by simp [inicio]
  have e2 : inicio 46341 2 2 = 46341 := by simp [inicio]
  have h1 : inicio 46341 2 1 ≤ 46340 := by rw [e1]; decide
  have h2 : 46340 < inicio 46341 2 (1 + 1) := by rw [e2]; decide
  refine ⟨by decide, ?_, indice_plano_46341, ?_, ?_,
    proceso_original_v_46341 A_46341 A_46341 F_46341 0 46341 0 (by decide) (by decide),
    proceso_optimizada_v_46341 A_46341 A_46341 F_46341 0 46341 0 (by decide) (by decide)⟩
  · simp [main_procesos_rangos_eq, List.range_succ, inicio]
  · unfold main_procesos_original_v
    rw [main_procesos_bucle_eq, foldl_dos]
    exact bind_falla _ _
      (fun C => proceso_original_v_46341 A_46341 A_46341 C _ _ 1 h1 h2)
  · unfold main_procesos_optimizada_v
    rw [main_procesos_bucle_eq, foldl_dos]
    exact bind_falla _ _
      (fun C => proceso_optimizada_v_46341 A_46341 A_46341 C _ _ 1 h1 h2)

/-- C3, amended. For every `n ≥ 1`, every worker count `w` with `1 ≤ w ≤ n`, all
`A`, `B` and every initial content of the result: running the row-range kernel
once for each of the `w` row ranges that `main` computes, all on the same
result, returns and gives in every entry the result of the same kernel run
once on the rows `[0, n)`; this for the original and the blocked kernel in the
thread program, and, when `n * n ≤ 2^31 - 1`, in the process program, with the
offset `i * n + j` computed in `int` on allocations of `n` rows of `n` cells
and a buffer of `n * n` cells. -/
theorem C3_paralelo_eq_secuencial (n w : Nat) (hn : 1 ≤ n) (hw1 : 1 ≤ w) (hwn : w ≤ n)
    (A B C : Matrix) (F : Buffer) :
    main_hilos_lanzar (fun datos C => some (multiplicar_matrices_hilo_original datos C))
        (main_hilos_datos_mult A B n w) C
      = some (multiplicar_matrices_hilo_original
          { A := A, B := B, n := n, fila_inicio := 0, fila_fin := n, hilo_id := 0 } C) ∧
    (∃ C', main_hilos_lanzar multiplicar_matrices_hilo_optimizada
          (main_hilos_datos_mult A B n w) C = some C' ∧
        multiplicar_matrices_hilo_optimizada
          { A := A, B := B, n := n, fila_inicio := 0, fila_fin := n, hilo_id := 0 } C
          = some C') ∧
    (n * n ≤ 2147483647 →
      (∃ F', main_procesos_original_v { filas := n, columnas := n, dat := A }
            { filas := n, columnas := n, dat := B } { len := n * n, dat := F } n w
          = some F' ∧
        multiplicar_matrices_proceso_original_v { filas := n, columnas := n, dat := A }
            { filas := n, columnas := n, dat := B } { len := n * n, dat := F } n 0 n 0
          = some F') ∧
      (∃ F', main_procesos_optimizada_v { filas := n, columnas := n, dat := A }
            { filas := n, columnas := n, dat := B } { len := n * n, dat := F } n w
          = some F' ∧
        multiplicar_matrices_proceso_optimizada_v { filas := n, columnas := n, dat := A }
            { filas := n, columnas := n, dat := B } { len := n * n, dat := F } n 0 n 0
          = some F')) := by
  have _ := hn
  have _ := hwn
  have hT := inicio_total n w hw1
  refine ⟨?_, ?_, fun hint => ⟨?_, ?_⟩⟩
  · obtain ⟨C', hC', hv⟩ := lanzar_cells
      (fun datos C => some (multiplicar_matrices_hilo_original datos C))
      (fun d C => ⟨_, rfl, fun i j => hilo_original_cell d C i j⟩) A B n w C w
    rw [main_hilos_datos_mult_eq, hC']
    congr 1
    funext i j
    rw [hv, hilo_original_cell, hT]
    simp
  · obtain ⟨C', hC', hv⟩ := lanzar_cells multiplicar_matrices_hilo_optimizada
      (fun d C => hilo_optimizada_bs_cells 32 (by decide) d C) A B n w C w
    obtain ⟨C'', hC'', hv'⟩ := hilo_optimizada_bs_cells 32 (by decide)
      { A := A, B := B, n := n, fila_inicio := 0, fila_fin := n, hilo_id := 0 } C
    refine ⟨C', by rw [main_hilos_datos_mult_eq]; exact hC', ?_⟩
    have e : C'' = C' := by
      funext i j
      rw [hv, hv', hT]
      simp
    rw [← e]
    exact hC''
  · refine ⟨_, main_procesos_original_v_eq A B F n w hint, ?_⟩
    rw [proceso_original_v_sim A B n 0 n 0 (Nat.le_refl n) hint F,
      main_procesos_original_secuencial A B F n w hw1]
  · obtain ⟨F', hF', hS⟩ := main_procesos_optimizada_secuencial A B F n w hw1
    refine ⟨{ len := n * n, dat := F' }, ?_, ?_⟩
    · rw [main_procesos_optimizada_v_eq A B F n w hint, hF']
      rfl
    · rw [proceso_optimizada_v_sim A B n 0 n 0 (Nat.le_refl n) hint F, hS]
      rfl

/-- C3, amended, on a 10 × 10 product and 4 workers. -/
theorem C3_paralelo_eq_secuencial_witness :
    (1 ≤ 10 ∧ 1 ≤ 4 ∧ 4 ≤ 10 ∧ 10 * 10 ≤ 2147483647) ∧
    main_hilos_lanzar (fun datos C => some (multiplicar_matrices_hilo_original datos C))
        (main_hilos_datos_mult A_ej B_ej 10 4) C_ej
      = some (multiplicar_matrices_hilo_original
          { A := A_ej, B := B_ej, n := 10, fila_inicio := 0, fila_fin := 10, hilo_id := 0 }
          C_ej) ∧
    (∃ C', main_hilos_lanzar multiplicar_matrices_hilo_optimizada
          (main_hilos_datos_mult A_ej B_ej 10 4) C_ej = some C' ∧
        multiplicar_matrices_hilo_optimizada
          { A := A_ej, B := B_ej, n := 10, fila_inicio := 0, fila_fin := 10, hilo_id := 0 }
          C_ej = some C') ∧
    (∃ F', main_procesos_original_v { filas := 10, columnas := 10, dat := A_ej }
          { filas := 10, columnas := 10, dat := B_ej } { len := 10 * 10, dat := F_ej } 10 4
        = some F' ∧
      multiplicar_matrices_proceso_original_v { filas := 10, columnas := 10, dat := A_ej }
          { filas := 10, columnas := 10, dat := B_ej } { len := 10 * 10, dat := F_ej }
          10 0 10 0
        = some F') ∧
    (∃ F', main_procesos_optimizada_v { filas := 10, columnas := 10, dat := A_ej }
          { filas := 10, columnas := 10, dat := B_ej } { len := 10 * 10, dat := F_ej } 10 4
        = some F' ∧
      multiplicar_matrices_proceso_optimizada_v { filas := 10, columnas := 10, dat := A_ej }
          { filas := 10, columnas := 10, dat := B_ej } { len := 10 * 10, dat := F_ej }
          10 0 10 0
        = some F') :=
  have h := C3_paralelo_eq_secuencial 10 4 (by decide) (by decide) (by decide)
    A_ej B_ej C_ej F_ej
  ⟨by decide, h.1, h.2.1, (h.2.2 (by decide)).1, (h.2.2 (by decide)).2⟩

/-- C18, as stated, fails for the process kernels: for `n = 46341` the row
ranges `[0, 1)` and `[46340, 46341)` are disjoint and inside `[0, n)`, but the
run on the second range reaches row 46340 and column 41708, where the `int`
expression `i * n + j` overflows: in either order the two runs fail, with the
original and with the blocked kernel, and leave no result. -/
theorem C18_counterexample :
    ((∀ i, ¬ ((0 ≤ i ∧ i < 1) ∧ (46340 ≤ i ∧ i < 46341))) ∧ 1 ≤ 46341 ∧ 46341 ≤ 46341) ∧
    indice_plano 46340 46341 41708 = none ∧
    ((multiplicar_matrices_proceso_original_v A_46341 A_46341 F_46341 46341 0 1 0).bind
        (fun F => multiplicar_matrices_proceso_original_v A_46341 A_46341 F 46341 46340
          46341 1) = none ∧
      (multiplicar_matrices_proceso_original_v A_46341 A_46341 F_46341 46341 46340 46341
          1).bind
        (fun F => multiplicar_matrices_proceso_original_v A_46341 A_46341 F 46341 0 1 0)
        = none) ∧
    ((multiplicar_matrices_proceso_optimizada_v A_46341 A_46341 F_46341 46341 0 1 0).bind
        (fun F => multiplicar_matrices_proceso_optimizada_v A_46341 A_46341 F 46341 46340
          46341 1) = none ∧
      (multiplicar_matrices_proceso_optimizada_v A_46341 A_46341 F_46341 46341 46340 46341
          1).bind
        (fun F => multiplicar_matrices_proceso_optimizada_v A_46341 A_46341 F 46341 0 1 0)
        = none) := by
  refine ⟨⟨fun i hi => by omega, by decide, by decide⟩, indice_plano_46341, ⟨?_, ?_⟩,
    ⟨?_, ?_⟩⟩
  · exact bind_falla _ _ (fun C =>
      proceso_original_v_46341 A_46341 A_46341 C 46340 46341 1 (Nat.le_refl _) (by decide))
  · rw [proceso_original_v_46341 A_46341 A_46341 F_46341 46340 46341 1 (Nat.le_refl _)
      (by decide)]
    rfl
  · exact bind_falla _ _ (fun C =>
      proceso_optimizada_v_46341 A_46341 A_46341 C 46340 46341 1 (Nat.le_refl _)
        (by decide))
  · rw [proceso_optimizada_v_46341 A_46341 A_46341 F_46341 46340 46341 1 (Nat.le_refl _)
      (by decide)]
    rfl

/-- C18, amended. Workers on disjoint row ranges commute: for every `n`, all
`A`, `B`, every initial content of the result and two disjoint row ranges
`[a1, b1)` and `[a2, b2)` inside `[0, n)`, the row-range kernel of the threads
(original and blocked) run on the first range and then on the second leaves
the same result as run on the second and then on the first, and the threads of
`datos_mult` leave the same result in every order of execution; when
`n * n ≤ 2^31 - 1` the same holds of the row-range kernels of the processes
(original and blocked), with the offset `i * n + j` computed in `int` on
allocations of `n` rows of `n` cells and a buffer of `n * n` cells: the two
runs return in either order with the same buffer, and so do the children of
the fork loop in any permutation of its row ranges. -/
theorem C18_rangos_disjuntos_conmutan (n w a1 b1 a2 b2 id1 id2 : Nat)
    (hdisj : ∀ i, ¬ ((a1 ≤ i ∧ i < b1) ∧ (a2 ≤ i ∧ i < b2)))
    (hb1 : b1 ≤ n) (hb2 : b2 ≤ n) (A B C : Matrix) (F : Buffer) :
    multiplicar_matrices_hilo_original
        { A := A, B := B, n := n, fila_inicio := a2, fila_fin := b2, hilo_id := id2 }
        (multiplicar_matrices_hilo_original
          { A := A, B := B, n := n, fila_inicio := a1, fila_fin := b1, hilo_id := id1 } C)
      = multiplicar_matrices_hilo_original
        { A := A, B := B, n := n, fila_inicio := a1, fila_fin := b1, hilo_id := id1 }
        (multiplicar_matrices_hilo_original
          { A := A, B := B, n := n, fila_inicio := a2, fila_fin := b2, hilo_id := id2 } C) ∧
    (∃ R, (multiplicar_matrices_hilo_optimizada
            { A := A, B := B, n := n, fila_inicio := a1, fila_fin := b1, hilo_id := id1 }
            C).bind (multiplicar_matrices_hilo_optimizada
            { A := A, B := B, n := n, fila_inicio := a2, fila_fin := b2, hilo_id := id2 })
          = some R ∧
        (multiplicar_matrices_hilo_optimizada
            { A := A, B := B, n := n, fila_inicio := a2, fila_fin := b2, hilo_id := id2 }
            C).bind (multiplicar_matrices_hilo_optimizada
            { A := A, B := B, n := n, fila_inicio := a1, fila_fin := b1, hilo_id := id1 })
          = some R) ∧
    (∀ orden : List DatosMultiplicacion, orden.Perm (main_hilos_datos_mult A B n w) →
      main_hilos_lanzar (fun datos C => some (multiplicar_matrices_hilo_original datos C))
          orden C
        = main_hilos_lanzar
          (fun datos C => some (multiplicar_matrices_hilo_original datos C))
          (main_hilos_datos_mult A B n w) C ∧
      main_hilos_lanzar multiplicar_matrices_hilo_optimizada orden C
        = main_hilos_lanzar multiplicar_matrices_hilo_optimizada
          (main_hilos_datos_mult A B n w) C) ∧
    (n * n ≤ 2147483647 →
      (∃ R, (multiplicar_matrices_proceso_original_v
              { filas := n, columnas := n, dat := A } { filas := n, columnas := n, dat := B }
              { len := n * n, dat := F } n a1 b1 id1).bind
            (fun F => multiplicar_matrices_proceso_original_v
              { filas := n, columnas := n, dat := A } { filas := n, columnas := n, dat := B }
              F n a2 b2 id2) = some R ∧
          (multiplicar_matrices_proceso_original_v
              { filas := n, columnas := n, dat := A } { filas := n, columnas := n, dat := B }
              { len := n * n, dat := F } n a2 b2 id2).bind
            (fun F => multiplicar_matrices_proceso_original_v
              { filas := n, columnas := n, dat := A } { filas := n, columnas := n, dat := B }
              F n a1 b1 id1) = some R) ∧
      (∃ R, (multiplicar_matrices_proceso_optimizada_v
              { filas := n, columnas := n, dat := A } { filas := n, columnas := n, dat := B }
              { len := n * n, dat := F } n a1 b1 id1).bind
            (fun F => multiplicar_matrices_proceso_optimizada_v
              { filas := n, columnas := n, dat := A } { filas := n, columnas := n, dat := B }
              F n a2 b2 id2) = some R ∧
          (multiplicar_matrices_proceso_optimizada_v
              { filas := n, columnas := n, dat := A } { filas := n, columnas := n, dat := B }
              { len := n * n, dat := F } n a2 b2 id2).bind
            (fun F => multiplicar_matrices_proceso_optimizada_v
              { filas := n, columnas := n, dat := A } { filas := n, columnas := n, dat := B }
              F n a1 b1 id1) = some R) ∧
      (∀ orden : List (Nat × Nat), orden.Perm (main_procesos_rangos n w) →
        (∃ R, orden.foldl (fun (C : Option BufferA) r =>
              C.bind (fun C => multiplicar_matrices_proceso_original_v
                { filas := n, columnas := n, dat := A }
                { filas := n, columnas := n, dat := B } C n r.1 r.2 0))
              (some { len := n * n, dat := F }) = some R ∧
          main_procesos_original_v { filas := n, columnas := n, dat := A }
            { filas := n, columnas := n, dat := B } { len := n * n, dat := F } n w
            = some R) ∧
        (∃ R, orden.foldl (fun (C : Option BufferA) r =>
              C.bind (fun C => multiplicar_matrices_proceso_optimizada_v
                { filas := n, columnas := n, dat := A }
                { filas := n, columnas := n, dat := B } C n r.1 r.2 0))
              (some { len := n * n, dat := F }) = some R ∧
          main_procesos_optimizada_v { filas := n, columnas := n, dat := A }
            { filas := n, columnas := n, dat := B } { len := n * n, dat := F } n w
            = some R))) := by
  have _ := hdisj
  refine ⟨hilo_original_conmuta
      { A := A, B := B, n := n, fila_inicio := a1, fila_fin := b1, hilo_id := id1 }
      { A := A, B := B, n := n, fila_inicio := a2, fila_fin := b2, hilo_id := id2 }
      rfl rfl rfl C,
    hilo_optimizada_conmuta
      { A := A, B := B, n := n, fila_inicio := a1, fila_fin := b1, hilo_id := id1 }
      { A := A, B := B, n := n, fila_inicio := a2, fila_fin := b2, hilo_id := id2 }
      rfl rfl rfl C,
    fun orden hp => ⟨?_, ?_⟩,
    fun hint => ⟨proceso_original_v_conmuta A B F n a1 b1 a2 b2 id1 id2 hb1 hb2 hint,
      proceso_optimizada_v_conmuta A B F n a1 b1 a2 b2 id1 id2 hb1 hb2 hint,
      fun orden hp => ⟨main_procesos_original_v_perm A B F n w hint orden hp,
        main_procesos_optimizada_v_perm A B F n w hint orden hp⟩⟩⟩
  · refine main_hilos_lanzar_perm _ (fun d1 d2 hA hB hn C => ?_) A B n w orden hp C
    simp only [Option.some_bind]
    rw [hilo_original_conmuta d1 d2 hA hB hn C]
  · refine main_hilos_lanzar_perm _ (fun d1 d2 hA hB hn C => ?_) A B n w orden hp C
    obtain ⟨R, h1, h2⟩ := hilo_optimizada_conmuta d1 d2 hA hB hn C
    rw [h1, h2]

/-- C18, amended, on the rows `[0, 2)` and `[2, 4)` of a 4 × 4 product: the four
kernels commute. -/
theorem C18_rangos_disjuntos_conmutan_witness :
    ((∀ i, ¬ ((0 ≤ i ∧ i < 2) ∧ (2 ≤ i ∧ i < 4))) ∧ 2 ≤ 4 ∧ 4 ≤ 4 ∧
      4 * 4 ≤ 2147483647) ∧
    multiplicar_matrices_hilo_original
        { A := A_ej, B := B_ej, n := 4, fila_inicio := 2, fila_fin := 4, hilo_id := 1 }
        (multiplicar_matrices_hilo_original
          { A := A_ej, B := B_ej, n := 4, fila_inicio := 0, fila_fin := 2, hilo_id := 0 }
          C_ej)
      = multiplicar_matrices_hilo_original
        { A := A_ej, B := B_ej, n := 4, fila_inicio := 0, fila_fin := 2, hilo_id := 0 }
        (multiplicar_matrices_hilo_original
          { A := A_ej, B := B_ej, n := 4, fila_inicio := 2, fila_fin := 4, hilo_id := 1 }
          C_ej) ∧
    (∃ R, (multiplicar_matrices_hilo_optimizada
            { A := A_ej, B := B_ej, n := 4, fila_inicio := 0, fila_fin := 2, hilo_id := 0 }
            C_ej).bind (multiplicar_matrices_hilo_optimizada
            { A := A_ej, B := B_ej, n := 4, fila_inicio := 2, fila_fin := 4, hilo_id := 1 })
          = some R ∧
        (multiplicar_matrices_hilo_optimizada
            { A := A_ej, B := B_ej, n := 4, fila_inicio := 2, fila_fin := 4, hilo_id := 1 }
            C_ej).bind (multiplicar_matrices_hilo_optimizada
            { A := A_ej, B := B_ej, n := 4, fila_inicio := 0, fila_fin := 2, hilo_id := 0 })
          = some R) ∧
    (∃ R, (multiplicar_matrices_proceso_original_v
            { filas := 4, columnas := 4, dat := A_ej }
            { filas := 4, columnas := 4, dat := B_ej }
            { len := 4 * 4, dat := F_ej } 4 0 2 0).bind
          (fun F => multiplicar_matrices_proceso_original_v
            { filas := 4, columnas := 4, dat := A_ej }
            { filas := 4, columnas := 4, dat := B_ej } F 4 2 4 1) = some R ∧
        (multiplicar_matrices_proceso_original_v
            { filas := 4, columnas := 4, dat := A_ej }
            { filas := 4, columnas := 4, dat := B_ej }
            { len := 4 * 4, dat := F_ej } 4 2 4 1).bind
          (fun F => multiplicar_matrices_proceso_original_v
            { filas := 4, columnas := 4, dat := A_ej }
            { filas := 4, columnas := 4, dat := B_ej } F 4 0 2 0) = some R) ∧
    (∃ R, (multiplicar_matrices_proceso_optimizada_v
            { filas := 4, columnas := 4, dat := A_ej }
            { filas := 4, columnas := 4, dat := B_ej }
            { len := 4 * 4, dat := F_ej } 4 0 2 0).bind
          (fun F => multiplicar_matrices_proceso_optimizada_v
            { filas := 4, columnas := 4, dat := A_ej }
            { filas := 4, columnas := 4, dat := B_ej } F 4 2 4 1) = some R ∧
        (multiplicar_matrices_proceso_optimizada_v
            { filas := 4, columnas := 4, dat := A_ej }
            { filas := 4, columnas := 4, dat := B_ej }
            { len := 4 * 4, dat := F_ej } 4 2 4 1).bind
          (fun F => multiplicar_matrices_proceso_optimizada_v
            { filas := 4, columnas := 4, dat := A_ej }
            { filas := 4, columnas := 4, dat := B_ej } F 4 0 2 0) = some R) :=
  have h := C18_rangos_disjuntos_conmutan 4 2 0 2 2 4 0 1 (fun i hi => by omega)
    (by decide) (by decide) A_ej B_ej C_ej F_ej
  ⟨⟨fun i hi => by omega, by decide, by decide, by decide⟩, h.1, h.2.1,
    (h.2.2.2 (by decide)).1, (h.2.2.2 (by decide)).2.1⟩

end Reto
